import Mathlib

/-!
# GLPK adapter of the linear solver wrapper (`src/linear_solver/glpk_interface.cc`)

A shallow embedding of `GLPKInterface`.  The adapter owns no numerical code: it issues
calls on a `glp_prob` and reads answers back.  The embedding therefore keeps

* the adapter state (the fields of `MPSolverInterface` / `GLPKInterface` and the part of
  `MPSolver` the adapter touches) as a record,
* the calls issued to GLPK as a list, in program order (`lp_`),
* the answers of GLPK as explicit arguments of the functions that read them.

`LOG(FATAL)` and a failed `CHECK` end the process; they are the `fatal` outcome.
`DCHECK`s are debug-only assertions and `LOG(WARNING)` / `VLOG` only print; none of them
changes the state or the returned value, so they do not appear in the functions; the
assertions a result speaks of are definitions of their own (`..._DCHECK`).
-/

namespace operations_research

/-! ## Values -/

/-- A C++ `double`: a finite value (a rational; the two zeros are not told apart), one of
the two infinities, or NaN.  Comparisons, negation and `fabs` are exact.  The arithmetic
operations take the rounding of the machine as a parameter `rnd`: `rnd q` is the double
the machine returns when the exact result of an operation on finite values is `q` (in
IEEE arithmetic the nearest representable value, an infinity on overflow, zero on
underflow).  Results are stated for every `rnd`. -/
inductive Double where
  | nan
  | ninf
  | fin (q : Rat)
  | pinf
  deriving DecidableEq, Repr

namespace Double

instance : Inhabited Double := ⟨fin 0⟩

instance : OfNat Double n := ⟨fin n⟩

/-- C++ `a == b` on doubles: NaN compares unequal to everything. -/
def eq (a b : Double) : Bool :=
  match a, b with
  | nan, _ => false
  | _, nan => false
  | ninf, ninf => true
  | pinf, pinf => true
  | fin p, fin q => decide (p = q)
  | _, _ => false

/-- C++ `a != b` on doubles. -/
def ne (a b : Double) : Bool := !(eq a b)

/-- C++ unary minus. -/
def neg : Double → Double
  | nan => nan
  | ninf => pinf
  | fin q => fin (-q)
  | pinf => ninf

/-- C++ `a < b` on doubles: false as soon as one side is NaN. -/
def lt (a b : Double) : Bool :=
  match a, b with
  | nan, _ => false
  | _, nan => false
  | ninf, ninf => false
  | ninf, _ => true
  | _, ninf => false
  | pinf, _ => false
  | fin _, pinf => true
  | fin p, fin q => decide (p < q)

/-- The function `fabs`. -/
def fabs : Double → Double
  | nan => nan
  | ninf => pinf
  | fin q => fin |q|
  | pinf => pinf

/-- The function `std::max(a, b)`, which is `(a < b) ? b : a`. -/
def max (a b : Double) : Double := if lt a b then b else a

/-- No rounding: every exact result is kept.  IEEE arithmetic agrees with it whenever the
exact result is representable. -/
def exact : Rat → Double := fin

/-- C++ `a + b`. -/
def add (rnd : Rat → Double) (a b : Double) : Double :=
  match a, b with
  | nan, _ => nan
  | _, nan => nan
  | pinf, ninf => nan
  | ninf, pinf => nan
  | pinf, _ => pinf
  | _, pinf => pinf
  | ninf, _ => ninf
  | _, ninf => ninf
  | fin p, fin q => rnd (p + q)

/-- Sign of an infinite product: `pinf` when `pos`, else `ninf`. -/
def signedInf (pos : Bool) : Double := if pos then pinf else ninf

/-- C++ `a * b`: an infinity times zero is NaN. -/
def mul (rnd : Rat → Double) (a b : Double) : Double :=
  match a, b with
  | nan, _ => nan
  | _, nan => nan
  | fin p, fin q => rnd (p * q)
  | fin p, pinf => if p = 0 then nan else signedInf (decide (0 < p))
  | fin p, ninf => if p = 0 then nan else signedInf (decide (p < 0))
  | pinf, fin q => if q = 0 then nan else signedInf (decide (0 < q))
  | ninf, fin q => if q = 0 then nan else signedInf (decide (q < 0))
  | pinf, pinf => pinf
  | ninf, ninf => pinf
  | pinf, ninf => ninf
  | ninf, pinf => ninf

/-- C++ `a / b`: zero over zero and infinity over infinity are NaN, a non-zero value over
zero is an infinity (the zero counts as positive). -/
def div (rnd : Rat → Double) (a b : Double) : Double :=
  match a, b with
  | nan, _ => nan
  | _, nan => nan
  | fin p, fin q =>
      if q = 0 then (if p = 0 then nan else signedInf (decide (0 < p))) else rnd (p / q)
  | fin _, pinf => fin 0
  | fin _, ninf => fin 0
  | pinf, fin q => signedInf (decide (0 ≤ q))
  | ninf, fin q => signedInf (decide (q < 0))
  | _, _ => nan

end Double

/-- The value of `MPSolver::infinity()`, `std::numeric_limits<double>::infinity()`. -/
def MPSolver.infinity : Double := Double.pinf

/-! ## Enumerations of the wrapper -/

/-- The enumeration `MPSolver::ResultStatus`. -/
inductive ResultStatus where
  | OPTIMAL
  | FEASIBLE
  | INFEASIBLE
  | UNBOUNDED
  | ABNORMAL
  | NOT_SOLVED
  deriving DecidableEq, Repr

/-- The enumeration `MPSolver::BasisStatus`. -/
inductive BasisStatus where
  | FREE
  | AT_LOWER_BOUND
  | AT_UPPER_BOUND
  | FIXED_VALUE
  | BASIC
  deriving DecidableEq, Repr

/-- The enumeration `MPSolverInterface::SynchronizationStatus`. -/
inductive SynchronizationStatus where
  | MUST_RELOAD
  | MODEL_SYNCHRONIZED
  | SOLUTION_SYNCHRONIZED
  deriving DecidableEq, Repr

/-- What a call that may end the process produces: a value, or the fatal stop of
`LOG(FATAL)` / a failed `CHECK`, with its message. -/
inductive Outcome (α : Type) where
  | ok (a : α)
  | fatal (msg : String)
  deriving DecidableEq, Repr

namespace Outcome

/-- Sequencing: a fatal stop ends the computation. -/
def bind {α β : Type} (x : Outcome α) (f : α → Outcome β) : Outcome β :=
  match x with
  | ok a => f a
  | fatal m => fatal m

/-- True when the call returned to its caller. -/
def returns {α : Type} : Outcome α → Bool
  | ok _ => true
  | fatal _ => false

end Outcome

/-! ## Constants of `glpk.h` -/

/-- The optimisation direction `GLP_MIN`. -/
def GLP_MIN : Int := 1
/-- The optimisation direction `GLP_MAX`. -/
def GLP_MAX : Int := 2

/-- Column kind: continuous. -/
def GLP_CV : Int := 1
/-- Column kind: integer. -/
def GLP_IV : Int := 2

/-- Bound kind: free. -/
def GLP_FR : Int := 1
/-- Bound kind: lower bound only. -/
def GLP_LO : Int := 2
/-- Bound kind: upper bound only. -/
def GLP_UP : Int := 3
/-- Bound kind: double bounded. -/
def GLP_DB : Int := 4
/-- Bound kind: fixed. -/
def GLP_FX : Int := 5

/-- Basis status: basic. -/
def GLP_BS : Int := 1
/-- Basis status: non-basic on the lower bound. -/
def GLP_NL : Int := 2
/-- Basis status: non-basic on the upper bound. -/
def GLP_NU : Int := 3
/-- Basis status: non-basic free. -/
def GLP_NF : Int := 4
/-- Basis status: non-basic fixed. -/
def GLP_NS : Int := 5

/-- Solution status: undefined. -/
def GLP_UNDEF : Int := 1
/-- Solution status: feasible. -/
def GLP_FEAS : Int := 2
/-- Solution status: infeasible. -/
def GLP_INFEAS : Int := 3
/-- Solution status: no feasible solution exists. -/
def GLP_NOFEAS : Int := 4
/-- Solution status: optimal. -/
def GLP_OPT : Int := 5
/-- Solution status: unbounded. -/
def GLP_UNBND : Int := 6

/-- Simplex method: primal. -/
def GLP_PRIMAL : Int := 1
/-- Simplex method: dual, then primal. -/
def GLP_DUALP : Int := 2

/-- The flag `GLP_ON`. -/
def GLP_ON : Int := 1
/-- The flag `GLP_OFF`. -/
def GLP_OFF : Int := 0

/-- Return code of `glp_factorize`: invalid basis. -/
def GLP_EBADB : Int := 1
/-- Return code of `glp_factorize`: singular matrix. -/
def GLP_ESING : Int := 2
/-- Return code of `glp_factorize`: ill-conditioned matrix. -/
def GLP_ECOND : Int := 3

/-- Callback reason: request for row generation. -/
def GLP_IROWGEN : Int := 1
/-- Callback reason: better integer solution found. -/
def GLP_IBINGO : Int := 2
/-- Callback reason: request for subproblem selection. -/
def GLP_ISELECT : Int := 6

/-- Scaling option `GLP_SF_AUTO`. -/
def GLP_SF_AUTO : Int := 128

/-! ## The calls the adapter issues -/

/-- One call on the GLPK API that changes the problem object or runs a solver, with the
arguments the adapter passes.  The 1-based arrays handed to `glp_set_mat_row` and
`glp_load_matrix` are given by their entries `1..len`. -/
inductive GlpCall where
  | set_prob_name (name : String)
  | set_obj_dir (dir : Int)
  | add_cols (n : Int)
  | add_rows (n : Int)
  | set_col_name (j : Int) (name : String)
  | set_row_name (i : Int) (name : String)
  | set_col_bnds (j : Int) (kind : Int) (lb ub : Double)
  | set_row_bnds (i : Int) (kind : Int) (lb ub : Double)
  | set_col_kind (j : Int) (kind : Int)
  | set_obj_coef (j : Int) (coef : Double)
  | set_mat_row (i : Int) (len : Int) (entries : List (Int × Double))
  | load_matrix (ne : Int) (entries : List (Int × Int × Double))
  | term_out (flag : Int)
  | scale_prob (flags : Int)
  | adv_basis
  | simplex
  | intopt
  deriving DecidableEq, Repr

/-- The structure `glp_smcp`, restricted to the fields the adapter writes. -/
structure glp_smcp where
  meth : Int
  tol_bnd : Double
  tol_dj : Double
  tm_lim : Int
  presolve : Int
  deriving DecidableEq, Repr

/-- The structure `glp_iocp`, restricted to the fields the adapter writes.  `cb_func` and
`cb_info` are always the callback below and `mip_callback_info_`. -/
structure glp_iocp where
  mip_gap : Double
  tm_lim : Int
  presolve : Int
  deriving DecidableEq, Repr

/-- Values written by `glp_init_smcp` (GLPK reference manual). -/
def glp_init_smcp : glp_smcp :=
  { meth := GLP_PRIMAL, tol_bnd := Double.fin (1 / 10000000), tol_dj := Double.fin (1 / 10000000),
    tm_lim := 2147483647, presolve := GLP_OFF }

/-- Values written by `glp_init_iocp` (GLPK reference manual). -/
def glp_init_iocp : glp_iocp :=
  { mip_gap := Double.fin 0, tm_lim := 2147483647, presolve := GLP_OFF }

/-! ## The model classes, as far as the adapter reads and writes them -/

/-- Modelled from the spec: the constant `MPSolverInterface::kNoIndex` is declared in
`linear_solver.h`, which is not part of the sources at hand.  The spec describes a backend
index that is "unset until extracted"; the sentinel is a value no GLPK index (they start
at 1) can take. -/
def kNoIndex : Int := -1

/-- Modelled from the spec: the constant `MPSolverInterface::kUnknownNumberOfIterations`
is declared in `linear_solver.h`; a sentinel for a count that is "undefined". -/
def kUnknownNumberOfIterations : Int := -1

/-- Modelled from the spec: the constant `MPSolverInterface::kUnknownNumberOfNodes` is
declared in `linear_solver.h`; a sentinel for a count that is "undefined". -/
def kUnknownNumberOfNodes : Int := -1

/-- The class `MPVariable`: the members the adapter uses. -/
structure MPVariable where
  name : String
  lb : Double
  ub : Double
  integer : Bool
  index : Int
  solution_value : Double
  reduced_cost : Double
  deriving DecidableEq, Repr

/-- The class `MPConstraint`: the members the adapter uses.  `coefficients_` is the
`hash_map<const MPVariable*, double>`; a key is given by the position of the variable in
`MPSolver::variables_`, and the list order is the iteration order of the map. -/
structure MPConstraint where
  name : String
  lb : Double
  ub : Double
  coefficients_ : List (Nat × Double)
  index : Int
  activity : Double
  dual_value : Double
  deriving DecidableEq, Repr

/-- The class `MPObjective`: coefficient map (keys as in `MPConstraint`) and offset. -/
structure MPObjective where
  coefficients_ : List (Nat × Double)
  offset : Double
  deriving DecidableEq, Repr

/-- The class `MPSolver`: the members the adapter uses. -/
structure MPSolver where
  name_ : String
  variables_ : List MPVariable
  constraints_ : List MPConstraint
  objective_ : MPObjective
  time_limit : Int
  deriving DecidableEq, Repr

/-- The class `GLPKInformation`. -/
structure GLPKInformation where
  num_all_nodes_ : Int
  best_objective_bound_ : Double
  deriving DecidableEq, Repr

/-- The class `MPSolverParameters`, by the values its getters return. -/
structure MPSolverParameters where
  RELATIVE_MIP_GAP : Double
  PRIMAL_TOLERANCE : Double
  DUAL_TOLERANCE : Double
  PRESOLVE : Int
  LP_ALGORITHM : Int
  INCREMENTALITY : Int
  deriving DecidableEq, Repr

/-- The enumeration `MPSolverParameters::IntegerParam`. -/
inductive IntegerParam where
  | PRESOLVE
  | LP_ALGORITHM
  | INCREMENTALITY
  deriving DecidableEq, Repr

/-- Value of `MPSolverParameters::PRESOLVE_OFF` in `linear_solver.h`. -/
def PRESOLVE_OFF : Int := 0
/-- Value of `MPSolverParameters::PRESOLVE_ON` in `linear_solver.h`. -/
def PRESOLVE_ON : Int := 1
/-- Value of `MPSolverParameters::DUAL` in `linear_solver.h`. -/
def LP_DUAL : Int := 10
/-- Value of `MPSolverParameters::PRIMAL` in `linear_solver.h`. -/
def LP_PRIMAL : Int := 11
/-- Value of `MPSolverParameters::BARRIER` in `linear_solver.h`. -/
def LP_BARRIER : Int := 12
/-- Value of `MPSolverParameters::INCREMENTALITY_OFF` in `linear_solver.h`. -/
def INCREMENTALITY_OFF : Int := 0
/-- Value of `MPSolverParameters::INCREMENTALITY_ON` in `linear_solver.h`. -/
def INCREMENTALITY_ON : Int := 1

/-- The adapter: the fields of `MPSolverInterface` and of `GLPKInterface`.  `lp_` is the
problem object, given by the calls issued since it was created. -/
structure GLPKInterface where
  solver_ : MPSolver
  sync_status_ : SynchronizationStatus
  result_status_ : ResultStatus
  maximize_ : Bool
  last_constraint_index_ : Nat
  last_variable_index_ : Nat
  objective_value_ : Double
  quiet_ : Bool
  lp_ : List GlpCall
  mip_ : Bool
  lp_param_ : glp_smcp
  mip_param_ : glp_iocp
  mip_callback_info_ : GLPKInformation
  unsupported_ : List (IntegerParam × Int)
  deriving DecidableEq, Repr

/-- Members of the base class and of the model classes that the adapter calls and whose
bodies are outside `glpk_interface.cc`, where the spec does not fix what they compute.
They are parameters of the embedding: every result below holds for each choice.
`CheckSolutionExists` and `CheckBestObjectiveBoundExists` are the default implementations
in `MPSolverInterface`; they answer whether the check passes (it is fatal otherwise). -/
structure BaseClass where
  ContainsNewVariables : GLPKInterface → MPConstraint → Bool
  CheckSolutionExists : GLPKInterface → Bool
  CheckBestObjectiveBoundExists : GLPKInterface → Bool

/-! ## Helpers for reading the model and recording calls -/

namespace GLPKInterface

/-- Issues one call on `lp_`. -/
def call (s : GLPKInterface) (c : GlpCall) : GLPKInterface :=
  { s with lp_ := s.lp_ ++ [c] }

/-- Evaluates `it->first->index()` for a key of a coefficient map. -/
def index_of (s : GLPKInterface) (pos : Nat) : Int :=
  match s.solver_.variables_[pos]? with
  | some var => var.index
  | none => kNoIndex

/-- Runs `solver_->variables_[j]->set_index(i)`. -/
def set_variable_index (s : GLPKInterface) (j : Nat) (i : Int) : GLPKInterface :=
  { s with solver_ := { s.solver_ with
      variables_ := s.solver_.variables_.modify (fun var => { var with index := i }) j } }

/-- Runs `solver_->constraints_[j]->set_index(i)`. -/
def set_constraint_index (s : GLPKInterface) (j : Nat) (i : Int) : GLPKInterface :=
  { s with solver_ := { s.solver_ with
      constraints_ := s.solver_.constraints_.modify (fun ct => { ct with index := i }) j } }

end GLPKInterface

/-! ## Members of `MPSolverInterface` that the adapter relies on -/

/-- Modelled from the spec: `MPSolverInterface::InvalidateSolutionSynchronization` is
defined in `linear_solver.cc`, not in the sources at hand.  Spec: an immediately applied
mutation "invalidate[s] only the solution (not the whole model)": a synchronized solution
falls back to a synchronized model, any other status is kept. -/
def InvalidateSolutionSynchronization (s : GLPKInterface) : GLPKInterface :=
  if s.sync_status_ = SynchronizationStatus.SOLUTION_SYNCHRONIZED then
    { s with sync_status_ := SynchronizationStatus.MODEL_SYNCHRONIZED }
  else s

/-- Modelled from the spec: `MPSolverInterface::CheckSolutionIsSynchronized` is defined in
`linear_solver.cc`.  Spec: `StaleSolution`, "querying solution fields after a mutation
invalidated synchronization — must fail loudly, not return stale numbers". -/
def CheckSolutionIsSynchronized (s : GLPKInterface) : Outcome Unit :=
  if s.sync_status_ = SynchronizationStatus.SOLUTION_SYNCHRONIZED then Outcome.ok ()
  else Outcome.fatal "The model has been changed since the solution was last computed."

/-- Modelled from the spec: `MPSolverInterface::ResetExtractionInformation` is defined in
`linear_solver.cc`.  Spec: a model reset "discards all backend indices and pending state";
extraction starts again at index 0 and everything must be reloaded. -/
def ResetExtractionInformation (s : GLPKInterface) : GLPKInterface :=
  { s with
    sync_status_ := SynchronizationStatus.MUST_RELOAD
    last_constraint_index_ := 0
    last_variable_index_ := 0
    solver_ := { s.solver_ with
      variables_ := s.solver_.variables_.map (fun var => { var with index := kNoIndex })
      constraints_ := s.solver_.constraints_.map (fun ct => { ct with index := kNoIndex }) } }

/-- Modelled from the spec: `MPSolverInterface::SetIntegerParamToUnsupportedValue` is
defined in `linear_solver.cc`.  Spec: an unsupported choice "must be reported, not silently
substituted"; the report is kept in `unsupported_`. -/
def SetIntegerParamToUnsupportedValue (s : GLPKInterface) (param : IntegerParam) (value : Int) :
    GLPKInterface :=
  { s with unsupported_ := s.unsupported_ ++ [(param, value)] }

/-! ## `GLPKInterface`: model modifications -/

/-- The method `GLPKInterface::Reset`: a fresh problem object, then the extraction
information is reset. -/
def Reset (s : GLPKInterface) : GLPKInterface :=
  let s := { s with lp_ := [] }
  let s := s.call (GlpCall.set_prob_name s.solver_.name_)
  let s := s.call (GlpCall.set_obj_dir (if s.maximize_ then GLP_MAX else GLP_MIN))
  ResetExtractionInformation s

/-- The method `GLPKInterface::SetOptimizationDirection`. -/
def SetOptimizationDirection (s : GLPKInterface) (maximize : Bool) : GLPKInterface :=
  let s := InvalidateSolutionSynchronization s
  s.call (GlpCall.set_obj_dir (if maximize then GLP_MAX else GLP_MIN))

/-- The method `GLPKInterface::SetVariableBounds`. -/
def SetVariableBounds (s : GLPKInterface) (var_index : Int) (lb ub : Double) : GLPKInterface :=
  let s := InvalidateSolutionSynchronization s
  if var_index ≠ kNoIndex then
    let infinity := MPSolver.infinity
    if Double.ne lb (Double.neg infinity) then
      if Double.ne ub infinity then
        if Double.eq lb ub then
          s.call (GlpCall.set_col_bnds var_index GLP_FX lb ub)
        else
          s.call (GlpCall.set_col_bnds var_index GLP_DB lb ub)
      else
        s.call (GlpCall.set_col_bnds var_index GLP_LO lb 0)
    else if Double.ne ub infinity then
      s.call (GlpCall.set_col_bnds var_index GLP_UP 0 ub)
    else
      s.call (GlpCall.set_col_bnds var_index GLP_FR 0 0)
  else
    { s with sync_status_ := SynchronizationStatus.MUST_RELOAD }

/-- The method `GLPKInterface::SetVariableInteger`. -/
def SetVariableInteger (s : GLPKInterface) (var_index : Int) (integer : Bool) : GLPKInterface :=
  let s := InvalidateSolutionSynchronization s
  if s.mip_ then
    if var_index ≠ kNoIndex then
      s.call (GlpCall.set_col_kind var_index (if integer then GLP_IV else GLP_CV))
    else
      { s with sync_status_ := SynchronizationStatus.MUST_RELOAD }
  else s

/-- The method `GLPKInterface::SetConstraintBounds`. -/
def SetConstraintBounds (s : GLPKInterface) (index : Int) (lb ub : Double) : GLPKInterface :=
  let s := InvalidateSolutionSynchronization s
  if index ≠ kNoIndex then
    let infinity := MPSolver.infinity
    if Double.ne lb (Double.neg infinity) then
      if Double.ne ub infinity then
        if Double.eq lb ub then
          s.call (GlpCall.set_row_bnds index GLP_FX lb ub)
        else
          s.call (GlpCall.set_row_bnds index GLP_DB lb ub)
      else
        s.call (GlpCall.set_row_bnds index GLP_LO lb 0)
    else if Double.ne ub infinity then
      s.call (GlpCall.set_row_bnds index GLP_UP 0 ub)
    else
      s.call (GlpCall.set_row_bnds index GLP_FR 0 0)
  else
    { s with sync_status_ := SynchronizationStatus.MUST_RELOAD }

/-- One turn of the loop of `ExtractOneConstraint`: the accumulator is `k` and the entries
`1..k-1` of `indices` / `coefs`. -/
def ExtractOneConstraint_step (s : GLPKInterface) (acc : Int × List (Int × Double))
    (it : Nat × Double) : Int × List (Int × Double) :=
  let var_index := s.index_of it.1
  (acc.1 + 1, acc.2 ++ [(var_index, it.2)])

/-- The method `GLPKInterface::ExtractOneConstraint`. -/
def ExtractOneConstraint (s : GLPKInterface) (constraint : MPConstraint) : GLPKInterface :=
  let r := constraint.coefficients_.foldl (ExtractOneConstraint_step s) (1, [])
  s.call (GlpCall.set_mat_row constraint.index (r.1 - 1) r.2)

/-- The method `GLPKInterface::SetCoefficient`. -/
def SetCoefficient (base : BaseClass) (s : GLPKInterface) (constraint : MPConstraint)
    (_variable : Nat) (_new_value _old_value : Double) : GLPKInterface :=
  let s := InvalidateSolutionSynchronization s
  if constraint.index ≠ kNoIndex ∧
      (s.sync_status_ = SynchronizationStatus.MODEL_SYNCHRONIZED ∨
        ¬ base.ContainsNewVariables s constraint = true) then
    ExtractOneConstraint s constraint
  else s

/-- The method `GLPKInterface::ClearConstraint`. -/
def ClearConstraint (s : GLPKInterface) (constraint : MPConstraint) : GLPKInterface :=
  let s := InvalidateSolutionSynchronization s
  let constraint_index := constraint.index
  if constraint_index ≠ kNoIndex then
    s.call (GlpCall.set_mat_row constraint_index 0 [])
  else s

/-- The method `GLPKInterface::SetObjectiveCoefficient`. -/
def SetObjectiveCoefficient (s : GLPKInterface) (_variable : Nat) (_coefficient : Double) :
    GLPKInterface :=
  { s with sync_status_ := SynchronizationStatus.MUST_RELOAD }

/-- The method `GLPKInterface::SetObjectiveOffset`. -/
def SetObjectiveOffset (s : GLPKInterface) (_value : Double) : GLPKInterface :=
  { s with sync_status_ := SynchronizationStatus.MUST_RELOAD }

/-- One turn of the loop of `ClearObjective`. -/
def ClearObjective_step (s : GLPKInterface) (it : Nat × Double) : GLPKInterface :=
  let var_index := s.index_of it.1
  if var_index = kNoIndex then s
  else s.call (GlpCall.set_obj_coef var_index 0)

/-- The method `GLPKInterface::ClearObjective`. -/
def ClearObjective (s : GLPKInterface) : GLPKInterface :=
  let s := InvalidateSolutionSynchronization s
  let s := s.solver_.objective_.coefficients_.foldl ClearObjective_step s
  s.call (GlpCall.set_obj_coef 0 0)

/-- The method `GLPKInterface::AddRowConstraint`. -/
def AddRowConstraint (s : GLPKInterface) : GLPKInterface :=
  { s with sync_status_ := SynchronizationStatus.MUST_RELOAD }

/-- The method `GLPKInterface::AddVariable`. -/
def AddVariable (s : GLPKInterface) : GLPKInterface :=
  { s with sync_status_ := SynchronizationStatus.MUST_RELOAD }

/-! ## `GLPKInterface`: extraction -/

/-- One turn of the loop of `ExtractOldConstraints`, for the constraint at position `i`. -/
def ExtractOldConstraints_step (base : BaseClass) (s : GLPKInterface) (i : Nat) : GLPKInterface :=
  match s.solver_.constraints_[i]? with
  | none => s
  | some ct =>
    let size := ct.coefficients_.length
    if size = 0 then s
    else if base.ContainsNewVariables s ct then ExtractOneConstraint s ct
    else s

/-- The method `GLPKInterface::ExtractOldConstraints`.  The two scratch arrays, sized with
`ComputeMaxConstraintSize`, only carry the arguments of `glp_set_mat_row`; those are kept
as a list in the recorded call. -/
def ExtractOldConstraints (base : BaseClass) (s : GLPKInterface) : GLPKInterface :=
  (List.range s.last_constraint_index_).foldl (ExtractOldConstraints_step base) s

/-- One turn of the loop of `ExtractNewVariables`, for the variable at position `j`. -/
def ExtractNewVariables_step (s : GLPKInterface) (j : Nat) : GLPKInterface :=
  let var_index : Int := (j : Int) + 1
  let s := s.set_variable_index j var_index
  match s.solver_.variables_[j]? with
  | none => s
  | some var =>
    let s := if !var.name.isEmpty then s.call (GlpCall.set_col_name var_index var.name) else s
    let s := SetVariableBounds s var.index var.lb var.ub
    let s := SetVariableInteger s var.index var.integer
    let tmp_obj_coef : Double := 0
    s.call (GlpCall.set_obj_coef var.index tmp_obj_coef)

/-- The method `GLPKInterface::ExtractNewVariables`. -/
def ExtractNewVariables (base : BaseClass) (s : GLPKInterface) : GLPKInterface :=
  let total_num_vars := s.solver_.variables_.length
  if total_num_vars > s.last_variable_index_ then
    let s := s.call (GlpCall.add_cols ((total_num_vars : Int) - s.last_variable_index_))
    let s := (List.range' s.last_variable_index_ (total_num_vars - s.last_variable_index_)).foldl
      ExtractNewVariables_step s
    ExtractOldConstraints base s
  else s

/-- One turn of the first loop of `ExtractNewConstraints` (rows are defined and
`num_coefs` is accumulated), for the constraint at position `i`. -/
def ExtractNewConstraints_define (acc : GLPKInterface × Int) (i : Nat) : GLPKInterface × Int :=
  let constraint_index : Int := (i : Int) + 1
  let s := acc.1.set_constraint_index i constraint_index
  match s.solver_.constraints_[i]? with
  | none => (s, acc.2)
  | some ct =>
    let s :=
      if ct.name.isEmpty then s.call (GlpCall.set_row_name constraint_index ("ct_" ++ toString i))
      else s.call (GlpCall.set_row_name constraint_index ct.name)
    let s := SetConstraintBounds s constraint_index ct.lb ct.ub
    (s, acc.2 + ct.coefficients_.length)

/-- One turn of the inner loop of the bulk path of `ExtractNewConstraints`: the
accumulator is `k` and the entries `1..k-1` of the three arrays, as triples
(row index, column index, coefficient). -/
def ExtractNewConstraints_entry (s : GLPKInterface) (ct : MPConstraint)
    (acc : Int × List (Int × Int × Double)) (it : Nat × Double) : Int × List (Int × Int × Double) :=
  (acc.1 + 1, acc.2 ++ [(ct.index, s.index_of it.1, it.2)])

/-- The outer loop of the bulk path of `ExtractNewConstraints`. -/
def ExtractNewConstraints_matrix (s : GLPKInterface) : Int × List (Int × Int × Double) :=
  s.solver_.constraints_.foldl
    (fun acc ct => ct.coefficients_.foldl (ExtractNewConstraints_entry s ct) acc) (1, [])

/-- One turn of the loop of the row-by-row path of `ExtractNewConstraints`. -/
def ExtractNewConstraints_row (s : GLPKInterface) (i : Nat) : GLPKInterface :=
  match s.solver_.constraints_[i]? with
  | none => s
  | some ct => ExtractOneConstraint s ct

/-- The method `GLPKInterface::ExtractNewConstraints`.  The only way it can stop is the
`CHECK_EQ(num_coefs + 1, k)` of the bulk path. -/
def ExtractNewConstraints (s : GLPKInterface) : Outcome GLPKInterface :=
  let total_num_rows := s.solver_.constraints_.length
  if s.last_constraint_index_ < total_num_rows then
    let s := s.call (GlpCall.add_rows ((total_num_rows : Int) - s.last_constraint_index_))
    let r := (List.range' s.last_constraint_index_ (total_num_rows - s.last_constraint_index_)).foldl
      ExtractNewConstraints_define (s, 0)
    let s := r.1
    let num_coefs := r.2
    if s.last_variable_index_ = 0 ∧ s.last_constraint_index_ = 0 then
      let m := ExtractNewConstraints_matrix s
      let k := m.1
      if num_coefs + 1 = k then
        Outcome.ok (s.call (GlpCall.load_matrix num_coefs m.2))
      else
        Outcome.fatal "Check failed: num_coefs + 1 == k"
    else
      Outcome.ok
        ((List.range' s.last_constraint_index_ (total_num_rows - s.last_constraint_index_)).foldl
          ExtractNewConstraints_row s)
  else Outcome.ok s

/-- One turn of the loop of `ExtractObjective`. -/
def ExtractObjective_step (s : GLPKInterface) (it : Nat × Double) : GLPKInterface :=
  s.call (GlpCall.set_obj_coef (s.index_of it.1) it.2)

/-- The method `GLPKInterface::ExtractObjective`. -/
def ExtractObjective (s : GLPKInterface) : GLPKInterface :=
  let s := s.solver_.objective_.coefficients_.foldl ExtractObjective_step s
  s.call (GlpCall.set_obj_coef 0 s.solver_.objective_.offset)

/-- Modelled from the spec: `MPSolverInterface::ExtractModel` is defined in
`linear_solver.cc`, not in the sources at hand.  Spec: "on solve request, the adapter
extracts any not-yet-pushed entities/edits into the backend"; `extractNew()` "pushes all
not-yet-indexed variables/constraints and any objective edits"; MUST-RELOAD forces
re-extraction "before the next solve", while the adapter must "avoid unnecessary
re-extraction of clean entities"; the tracker records "at what index new entities begin".
So: under `MUST_RELOAD` the three extraction methods run, the two start indices move to the
end of the lists and the model is synchronized; under the other two statuses nothing is
extracted. -/
def ExtractModel (base : BaseClass) (s : GLPKInterface) : Outcome GLPKInterface :=
  match s.sync_status_ with
  | SynchronizationStatus.MUST_RELOAD =>
    let s := ExtractNewVariables base s
    (ExtractNewConstraints s).bind fun s =>
      let s := ExtractObjective s
      Outcome.ok { s with
        last_constraint_index_ := s.solver_.constraints_.length
        last_variable_index_ := s.solver_.variables_.length
        sync_status_ := SynchronizationStatus.MODEL_SYNCHRONIZED }
  | SynchronizationStatus.MODEL_SYNCHRONIZED => Outcome.ok s
  | SynchronizationStatus.SOLUTION_SYNCHRONIZED => Outcome.ok s

/-! ## The answers of GLPK -/

/-- What the callback can read from the `glp_tree` it is handed: `glp_ios_reason`, the
total count written by `glp_ios_tree_size`, `glp_ios_best_node` and `glp_ios_node_bound`. -/
structure glp_tree where
  glp_ios_reason : Int
  total_node_count : Int
  glp_ios_best_node : Int
  glp_ios_node_bound : Int → Double

/-- The answers GLPK gives to the adapter around one solve: return values of the query
functions of the API, indexed as the API is, and the callback invocations made by
`glp_intopt`.  Nothing is assumed about them. -/
structure Glpk where
  glp_simplex : Int
  glp_intopt_callbacks : List glp_tree
  glp_mip_obj_val : Double
  glp_get_obj_val : Double
  glp_mip_col_val : Int → Double
  glp_get_col_prim : Int → Double
  glp_get_col_dual : Int → Double
  glp_mip_row_val : Int → Double
  glp_get_row_prim : Int → Double
  glp_get_row_dual : Int → Double
  glp_mip_status : Int
  glp_get_status : Int
  lpx_get_int_parm_ITCNT : Int
  glp_get_row_stat : Int → Int
  glp_get_col_stat : Int → Int
  glp_get_num_rows : Int
  glp_get_num_cols : Int
  glp_get_rii : Int → Double
  glp_get_sjj : Int → Double
  glp_get_mat_col : Int → List (Int × Double)
  glp_bf_exists : Bool
  glp_factorize : Int
  glp_ftran : (Int → Double) → (Int → Double)
  glp_get_bhead : Int → Int

/-! ## The callback -/

namespace GLPKInformation

/-- The method `GLPKInformation::ResetBestObjectiveBound`. -/
def ResetBestObjectiveBound (info : GLPKInformation) (maximize : Bool) : GLPKInformation :=
  if maximize then { info with best_objective_bound_ := Double.pinf }
  else { info with best_objective_bound_ := Double.ninf }

/-- The method `GLPKInformation::Reset`. -/
def Reset (info : GLPKInformation) (maximize : Bool) : GLPKInformation :=
  ResetBestObjectiveBound { info with num_all_nodes_ := 0 } maximize

end GLPKInformation

/-- The function `GLPKGatherInformationCallback`. -/
def GLPKGatherInformationCallback (glpk_info : GLPKInformation) (tree : glp_tree) :
    GLPKInformation :=
  if tree.glp_ios_reason = GLP_ISELECT ∨ tree.glp_ios_reason = GLP_IROWGEN ∨
      tree.glp_ios_reason = GLP_IBINGO then
    let glpk_info := { glpk_info with num_all_nodes_ := tree.total_node_count }
    let node_id := tree.glp_ios_best_node
    if node_id > 0 then
      { glpk_info with best_objective_bound_ := tree.glp_ios_node_bound node_id }
    else glpk_info
  else glpk_info

/-! ## Parameters -/

/-- The method `GLPKInterface::SetRelativeMipGap`. -/
def SetRelativeMipGap (s : GLPKInterface) (value : Double) : GLPKInterface :=
  if s.mip_ then { s with mip_param_ := { s.mip_param_ with mip_gap := value } }
  else s

/-- The method `GLPKInterface::SetPrimalTolerance`. -/
def SetPrimalTolerance (s : GLPKInterface) (value : Double) : GLPKInterface :=
  { s with lp_param_ := { s.lp_param_ with tol_bnd := value } }

/-- The method `GLPKInterface::SetDualTolerance`. -/
def SetDualTolerance (s : GLPKInterface) (value : Double) : GLPKInterface :=
  { s with lp_param_ := { s.lp_param_ with tol_dj := value } }

/-- The method `GLPKInterface::SetPresolveMode`. -/
def SetPresolveMode (s : GLPKInterface) (value : Int) : GLPKInterface :=
  if value = PRESOLVE_OFF then
    { s with mip_param_ := { s.mip_param_ with presolve := GLP_OFF }
             lp_param_ := { s.lp_param_ with presolve := GLP_OFF } }
  else if value = PRESOLVE_ON then
    { s with mip_param_ := { s.mip_param_ with presolve := GLP_ON }
             lp_param_ := { s.lp_param_ with presolve := GLP_ON } }
  else SetIntegerParamToUnsupportedValue s IntegerParam.PRESOLVE value

/-- The method `GLPKInterface::SetLpAlgorithm`. -/
def SetLpAlgorithm (s : GLPKInterface) (value : Int) : GLPKInterface :=
  if value = LP_DUAL then
    { s with lp_param_ := { s.lp_param_ with meth := GLP_DUALP } }
  else if value = LP_PRIMAL then
    { s with lp_param_ := { s.lp_param_ with meth := GLP_PRIMAL } }
  else SetIntegerParamToUnsupportedValue s IntegerParam.LP_ALGORITHM value

/-- Modelled from the spec: `MPSolverInterface::SetCommonParameters` is defined in
`linear_solver.cc`.  Spec: configuring "sets numeric tolerances, ..., presolve on/off,
chosen algorithm variant"; it does so through the four setters of the adapter. -/
def SetCommonParameters (s : GLPKInterface) (param : MPSolverParameters) : GLPKInterface :=
  let s := SetPrimalTolerance s param.PRIMAL_TOLERANCE
  let s := SetDualTolerance s param.DUAL_TOLERANCE
  let s := SetPresolveMode s param.PRESOLVE
  SetLpAlgorithm s param.LP_ALGORITHM

/-- Modelled from the spec: `MPSolverInterface::SetMIPParameters` is defined in
`linear_solver.cc`.  Spec: "relative optimality gap (integer problems only)". -/
def SetMIPParameters (s : GLPKInterface) (param : MPSolverParameters) : GLPKInterface :=
  SetRelativeMipGap s param.RELATIVE_MIP_GAP

/-- The method `GLPKInterface::SetParameters`. -/
def SetParameters (s : GLPKInterface) (param : MPSolverParameters) : GLPKInterface :=
  let s := SetCommonParameters s param
  if s.mip_ then SetMIPParameters s param else s

/-- The method `GLPKInterface::ConfigureGLPKParameters`. -/
def ConfigureGLPKParameters (s : GLPKInterface) (param : MPSolverParameters) : GLPKInterface :=
  let s :=
    if s.mip_ then
      let s := { s with mip_param_ := glp_init_iocp }
      let s :=
        if s.solver_.time_limit ≠ 0 then
          { s with mip_param_ := { s.mip_param_ with tm_lim := s.solver_.time_limit } }
        else s
      { s with mip_callback_info_ := s.mip_callback_info_.Reset s.maximize_ }
    else s
  let s := { s with lp_param_ := glp_init_smcp }
  let s :=
    if s.solver_.time_limit ≠ 0 then
      { s with lp_param_ := { s.lp_param_ with tm_lim := s.solver_.time_limit } }
    else s
  let s := s.call (GlpCall.scale_prob GLP_SF_AUTO)
  let s := s.call GlpCall.adv_basis
  SetParameters s param

/-! ## Solve -/

/-- The loop of `Solve` over the variables: values (and, for a continuous problem,
reduced costs) are read back. -/
def Solve_read_variable (s : GLPKInterface) (glpk : Glpk) (var : MPVariable) : MPVariable :=
  let val := if s.mip_ then glpk.glp_mip_col_val var.index else glpk.glp_get_col_prim var.index
  let var := { var with solution_value := val }
  if !s.mip_ then
    let reduced_cost := glpk.glp_get_col_dual var.index
    { var with reduced_cost := reduced_cost }
  else var

/-- The loop of `Solve` over the constraints: activities (and, for a continuous problem,
dual values) are read back. -/
def Solve_read_constraint (s : GLPKInterface) (glpk : Glpk) (ct : MPConstraint) : MPConstraint :=
  if s.mip_ then
    let row_activity := glpk.glp_mip_row_val ct.index
    { ct with activity := row_activity }
  else
    let row_activity := glpk.glp_get_row_prim ct.index
    let ct := { ct with activity := row_activity }
    let dual_value := glpk.glp_get_row_dual ct.index
    { ct with dual_value := dual_value }

/-- The status translation at the end of `Solve`. -/
def Solve_status (s : GLPKInterface) (glpk : Glpk) : ResultStatus :=
  if s.mip_ then
    let tmp_status := glpk.glp_mip_status
    if tmp_status = GLP_OPT then ResultStatus.OPTIMAL
    else if tmp_status = GLP_FEAS then ResultStatus.FEASIBLE
    else if tmp_status = GLP_NOFEAS then ResultStatus.INFEASIBLE
    else ResultStatus.ABNORMAL
  else
    let tmp_status := glpk.glp_get_status
    if tmp_status = GLP_OPT then ResultStatus.OPTIMAL
    else if tmp_status = GLP_FEAS then ResultStatus.FEASIBLE
    else if tmp_status = GLP_NOFEAS ∨ tmp_status = GLP_INFEAS then ResultStatus.INFEASIBLE
    else if tmp_status = GLP_UNBND then ResultStatus.UNBOUNDED
    else ResultStatus.ABNORMAL

/-- The part of `Solve` after the solver calls ("Get the results" and "Check the
status"), up to the `return`. -/
def Solve_results (s : GLPKInterface) (glpk : Glpk) : GLPKInterface × ResultStatus :=
  let s :=
    if s.mip_ then { s with objective_value_ := glpk.glp_mip_obj_val }
    else { s with objective_value_ := glpk.glp_get_obj_val }
  let s := { s with solver_ := { s.solver_ with
    variables_ := s.solver_.variables_.map (Solve_read_variable s glpk) } }
  let s := { s with solver_ := { s.solver_ with
    constraints_ := s.solver_.constraints_.map (Solve_read_constraint s glpk) } }
  let s := { s with result_status_ := Solve_status s glpk }
  let s := { s with sync_status_ := SynchronizationStatus.SOLUTION_SYNCHRONIZED }
  (s, s.result_status_)

/-- The part of `Solve` before the solver calls: optional reset, log level, extraction and
parameter configuration.  Timing, logging and the optional model dump of
`WriteModelToPredefinedFiles` do not touch the adapter state and are left out. -/
def Solve_setup (base : BaseClass) (s : GLPKInterface) (param : MPSolverParameters) :
    Outcome GLPKInterface :=
  let s := if param.INCREMENTALITY = INCREMENTALITY_OFF then Reset s else s
  let s := if s.quiet_ then s.call (GlpCall.term_out GLP_OFF) else s.call (GlpCall.term_out GLP_ON)
  (ExtractModel base s).bind fun s =>
    Outcome.ok (ConfigureGLPKParameters s param)

/-- The method `GLPKInterface::Solve`. -/
def Solve (base : BaseClass) (s : GLPKInterface) (param : MPSolverParameters) (glpk : Glpk) :
    Outcome (GLPKInterface × ResultStatus) :=
  (Solve_setup base s param).bind fun s =>
    if s.mip_ then
      let s := s.call GlpCall.simplex
      let simplex_status := glpk.glp_simplex
      if simplex_status = 0 then
        let s := s.call GlpCall.intopt
        let s := { s with mip_callback_info_ :=
          glpk.glp_intopt_callbacks.foldl GLPKGatherInformationCallback s.mip_callback_info_ }
        Outcome.ok (Solve_results s glpk)
      else
        let s := { s with result_status_ := ResultStatus.ABNORMAL }
        let s := { s with sync_status_ := SynchronizationStatus.SOLUTION_SYNCHRONIZED }
        Outcome.ok (s, s.result_status_)
    else
      let s := s.call GlpCall.simplex
      Outcome.ok (Solve_results s glpk)

/-! ## Queries on the solution and the solve -/

/-- The method `GLPKInterface::TransformGLPKBasisStatus`. -/
def TransformGLPKBasisStatus (glpk_basis_status : Int) : Outcome BasisStatus :=
  if glpk_basis_status = GLP_BS then Outcome.ok BasisStatus.BASIC
  else if glpk_basis_status = GLP_NL then Outcome.ok BasisStatus.AT_LOWER_BOUND
  else if glpk_basis_status = GLP_NU then Outcome.ok BasisStatus.AT_UPPER_BOUND
  else if glpk_basis_status = GLP_NF then Outcome.ok BasisStatus.FREE
  else if glpk_basis_status = GLP_NS then Outcome.ok BasisStatus.FIXED_VALUE
  else Outcome.fatal "Unknown GLPK basis status"

/-- The method `GLPKInterface::IsLP`. -/
def IsLP (s : GLPKInterface) : Bool := !s.mip_

/-- The method `GLPKInterface::IsContinuous`. -/
def IsContinuous (s : GLPKInterface) : Bool := IsLP s

/-- The method `GLPKInterface::IsMIP`. -/
def IsMIP (s : GLPKInterface) : Bool := s.mip_

/-- The method `GLPKInterface::iterations`. -/
def iterations (s : GLPKInterface) (glpk : Glpk) : Outcome Int :=
  if s.mip_ then
    Outcome.ok kUnknownNumberOfIterations
  else
    (CheckSolutionIsSynchronized s).bind fun _ =>
      Outcome.ok glpk.lpx_get_int_parm_ITCNT

/-- The method `GLPKInterface::nodes`. -/
def nodes (s : GLPKInterface) : Outcome Int :=
  if s.mip_ then
    (CheckSolutionIsSynchronized s).bind fun _ =>
      Outcome.ok s.mip_callback_info_.num_all_nodes_
  else
    Outcome.fatal "Number of nodes only available for discrete problems"

/-- The method `GLPKInterface::CheckSolutionExists`. -/
def CheckSolutionExists (base : BaseClass) (s : GLPKInterface) : Outcome Unit :=
  if s.result_status_ = ResultStatus.ABNORMAL then Outcome.ok ()
  else if base.CheckSolutionExists s then Outcome.ok ()
  else Outcome.fatal "No solution exists."

/-- The method `GLPKInterface::CheckBestObjectiveBoundExists`. -/
def CheckBestObjectiveBoundExists (base : BaseClass) (s : GLPKInterface) : Outcome Unit :=
  if s.result_status_ = ResultStatus.ABNORMAL then Outcome.ok ()
  else if base.CheckBestObjectiveBoundExists s then Outcome.ok ()
  else Outcome.fatal "No information is available for the best objective bound."

/-- The method `GLPKInterface::best_objective_bound`. -/
def best_objective_bound (base : BaseClass) (s : GLPKInterface) : Outcome Double :=
  if s.mip_ then
    (CheckSolutionIsSynchronized s).bind fun _ =>
      (CheckBestObjectiveBoundExists base s).bind fun _ =>
        if s.solver_.variables_.length = 0 ∧ s.solver_.constraints_.length = 0 then
          Outcome.ok s.solver_.objective_.offset
        else
          Outcome.ok s.mip_callback_info_.best_objective_bound_
  else
    Outcome.fatal "Best objective bound only available for discrete problems"

/-- The method `GLPKInterface::row_status`.  Its two assertions on the index are
debug-only; they are stated apart, as `row_status_DCHECK`. -/
def row_status (_s : GLPKInterface) (glpk : Glpk) (constraint_index : Int) : Outcome BasisStatus :=
  let glpk_basis_status := glpk.glp_get_row_stat constraint_index
  TransformGLPKBasisStatus glpk_basis_status

/-- The method `GLPKInterface::column_status`.  Its two assertions on the index are
debug-only; they are stated apart, as `column_status_DCHECK`. -/
def column_status (_s : GLPKInterface) (glpk : Glpk) (variable_index : Int) : Outcome BasisStatus :=
  let glpk_basis_status := glpk.glp_get_col_stat variable_index
  TransformGLPKBasisStatus glpk_basis_status

/-- The assertions of `row_status`, `DCHECK_LE(1, constraint_index)` and
`DCHECK_GT(last_constraint_index_ + 1, constraint_index)`, both hold. -/
def row_status_DCHECK (s : GLPKInterface) (constraint_index : Int) : Bool :=
  decide (1 ≤ constraint_index) &&
    decide ((s.last_constraint_index_ : Int) + 1 > constraint_index)

/-- The assertions of `column_status`, `DCHECK_LE(1, variable_index)` and
`DCHECK_GT(last_variable_index_ + 1, variable_index)`, both hold. -/
def column_status_DCHECK (s : GLPKInterface) (variable_index : Int) : Bool :=
  decide (1 ≤ variable_index) && decide ((s.last_variable_index_ : Int) + 1 > variable_index)

/-- The method `GLPKInterface::ComputeScaledBasisL1Norm`.  The two scaling arrays are
given by their entries. -/
def ComputeScaledBasisL1Norm (rnd : Rat → Double) (glpk : Glpk) (num_rows num_cols : Int)
    (row_scaling_factor column_scaling_factor : Int → Double) : Double :=
  let norm : Double := 0
  let norm := (List.range' 1 num_cols.toNat).foldl
    (fun (norm : Double) (col : Nat) =>
      let glpk_basis_status := glpk.glp_get_col_stat col
      if glpk_basis_status = GLP_BS then
        let column_norm := (glpk.glp_get_mat_col col).foldl
          (fun (column_norm : Double) (e : Int × Double) =>
            Double.add rnd column_norm
              (Double.fabs (Double.mul rnd e.2 (row_scaling_factor e.1))))
          (0 : Double)
        let column_norm := Double.mul rnd column_norm (Double.fabs (column_scaling_factor col))
        Double.max norm column_norm
      else norm)
    norm
  (List.range' 1 num_rows.toNat).foldl
    (fun (norm : Double) (row : Nat) =>
      let glpk_basis_status := glpk.glp_get_row_stat row
      if glpk_basis_status = GLP_BS then
        let column_norm := Double.fabs (row_scaling_factor row)
        Double.max norm column_norm
      else norm)
    norm

/-- The body of the main loop of `ComputeInverseScaledBasisL1Norm` for the unit vector
`e_k`: the L1 norm of column `k` of the inverse of the scaled basis. -/
def ComputeInverseScaledBasisL1Norm_column (rnd : Rat → Double) (glpk : Glpk) (num_rows : Int)
    (row_scaling_factor column_scaling_factor : Int → Double) (k : Nat) : Double :=
  let right_hand_side : Int → Double := fun row => if row = (k : Int) then 1 else 0
  let right_hand_side : Int → Double :=
    fun row => Double.div rnd (right_hand_side row) (row_scaling_factor row)
  let right_hand_side := glpk.glp_ftran right_hand_side
  let right_hand_side : Int → Double := fun row =>
    let k := glpk.glp_get_bhead row
    if k ≤ num_rows then Double.mul rnd (right_hand_side row) (row_scaling_factor k)
    else Double.div rnd (right_hand_side row) (column_scaling_factor (k - num_rows))
  (List.range' 1 num_rows.toNat).foldl
    (fun (column_norm : Double) (row : Nat) =>
      Double.add rnd column_norm (Double.fabs (right_hand_side row)))
    (0 : Double)

/-- The method `GLPKInterface::ComputeInverseScaledBasisL1Norm`. -/
def ComputeInverseScaledBasisL1Norm (rnd : Rat → Double) (glpk : Glpk)
    (num_rows _num_cols : Int)
    (row_scaling_factor column_scaling_factor : Int → Double) : Outcome Double :=
  let main : Outcome Double :=
    Outcome.ok ((List.range' 1 num_rows.toNat).foldl
      (fun (norm : Double) (k : Nat) =>
        Double.max norm (ComputeInverseScaledBasisL1Norm_column rnd glpk num_rows
          row_scaling_factor column_scaling_factor k))
      (0 : Double))
  if !glpk.glp_bf_exists then
    let factorize_status := glpk.glp_factorize
    if factorize_status = GLP_EBADB then
      Outcome.fatal "Not able to factorize: error GLP_EBADB."
    else if factorize_status = GLP_ESING then
      Outcome.ok MPSolver.infinity
    else if factorize_status = GLP_ECOND then
      Outcome.ok MPSolver.infinity
    else main
  else main

/-- The method `GLPKInterface::ComputeExactConditionNumber`. -/
def ComputeExactConditionNumber (rnd : Rat → Double) (base : BaseClass) (s : GLPKInterface)
    (glpk : Glpk) : Outcome Double :=
  if !IsContinuous s then
    Outcome.fatal "Condition number only available for continuous problems"
  else
    (CheckSolutionIsSynchronized s).bind fun _ =>
      (CheckSolutionExists base s).bind fun _ =>
        let num_rows := glpk.glp_get_num_rows
        let num_cols := glpk.glp_get_num_cols
        let row_scaling_factor : Int → Double := fun row => glpk.glp_get_rii row
        let column_scaling_factor : Int → Double := fun col => glpk.glp_get_sjj col
        (ComputeInverseScaledBasisL1Norm rnd glpk num_rows num_cols
            row_scaling_factor column_scaling_factor).bind fun inverse_norm =>
          Outcome.ok (Double.mul rnd inverse_norm
            (ComputeScaledBasisL1Norm rnd glpk num_rows num_cols
              row_scaling_factor column_scaling_factor))

/-! ## Reading the problem object -/

/-- The objective coefficient GLPK holds for index `j` (`0` is the constant term) after the
calls `calls`: the argument of the last `glp_set_obj_coef` on `j`, and `0` when there is
none (GLPK creates columns, and the problem itself, with a zero coefficient). -/
def glp_get_obj_coef (calls : List GlpCall) (j : Int) : Double :=
  calls.foldl
    (fun (cur : Double) (c : GlpCall) =>
      match c with
      | GlpCall.set_obj_coef i coef => if i = j then coef else cur
      | _ => cur)
    (0 : Double)

/-! ## Concrete inputs -/

/-- Modelled from the spec: `MPConstraint::ContainsNewVariables` is defined in
`linear_solver.cc`, not in the sources at hand.  Spec: a variable's backend index is "unset
until extracted", and the tracker records "at what index new entities begin".  A variable
is reached through its `index()` only, so a variable of the row is counted as new when it
has no index or its index is at or after `last_variable_index_`.  With the indices of
GLPK, which start at `1`, the variable extracted last is counted as new.  The general
results are stated for every `ContainsNewVariables`; this definition serves the concrete
runs, through `base0`. -/
def ContainsNewVariables (s : GLPKInterface) (ct : MPConstraint) : Bool :=
  ct.coefficients_.any fun it =>
    decide (s.index_of it.1 = kNoIndex) ||
      decide ((s.last_variable_index_ : Int) ≤ s.index_of it.1)

/-- One instance of the base-class members, for concrete runs: `ContainsNewVariables` as
modelled above; the default existence checks pass on `OPTIMAL` and `FEASIBLE`.  The
general results hold for every instance unless they say otherwise. -/
def base0 : BaseClass :=
  { ContainsNewVariables := ContainsNewVariables
    CheckSolutionExists := fun s =>
      decide (s.result_status_ = ResultStatus.OPTIMAL) ||
        decide (s.result_status_ = ResultStatus.FEASIBLE)
    CheckBestObjectiveBoundExists := fun s =>
      decide (s.result_status_ = ResultStatus.OPTIMAL) ||
        decide (s.result_status_ = ResultStatus.FEASIBLE) }

/-- GLPK answers for concrete runs: every query answers `0`, statuses are as given. -/
def glpk0 (simplex_status mip_status status : Int) (value : Double) : Glpk :=
  { glp_simplex := simplex_status
    glp_intopt_callbacks := []
    glp_mip_obj_val := value
    glp_get_obj_val := value
    glp_mip_col_val := fun _ => value
    glp_get_col_prim := fun _ => value
    glp_get_col_dual := fun _ => value
    glp_mip_row_val := fun _ => value
    glp_get_row_prim := fun _ => value
    glp_get_row_dual := fun _ => value
    glp_mip_status := mip_status
    glp_get_status := status
    lpx_get_int_parm_ITCNT := 0
    glp_get_row_stat := fun _ => GLP_BS
    glp_get_col_stat := fun _ => GLP_NL
    glp_get_num_rows := 0
    glp_get_num_cols := 0
    glp_get_rii := fun _ => 1
    glp_get_sjj := fun _ => 1
    glp_get_mat_col := fun _ => []
    glp_bf_exists := true
    glp_factorize := 0
    glp_ftran := fun x => x
    glp_get_bhead := fun i => i }

/-- Default parameters, incremental solve. -/
def param0 : MPSolverParameters :=
  { RELATIVE_MIP_GAP := Double.fin 0, PRIMAL_TOLERANCE := Double.fin 0,
    DUAL_TOLERANCE := Double.fin 0, PRESOLVE := PRESOLVE_OFF, LP_ALGORITHM := LP_PRIMAL,
    INCREMENTALITY := INCREMENTALITY_ON }

/-- A freshly built adapter on a model with one variable `x` in `[0, 10]`, one constraint
`x <= 5` and objective `x + 5`, nothing extracted yet. -/
def fresh (mip : Bool) : GLPKInterface :=
  { solver_ :=
      { name_ := "m"
        variables_ := [{ name := "x", lb := 0, ub := 10, integer := false, index := kNoIndex,
                         solution_value := 0, reduced_cost := 0 }]
        constraints_ := [{ name := "c", lb := Double.ninf, ub := 5, coefficients_ := [(0, 1)],
                           index := kNoIndex, activity := 0, dual_value := 0 }]
        objective_ := { coefficients_ := [(0, 1)], offset := 5 }
        time_limit := 0 }
    sync_status_ := SynchronizationStatus.MUST_RELOAD
    result_status_ := ResultStatus.NOT_SOLVED
    maximize_ := false
    last_constraint_index_ := 0
    last_variable_index_ := 0
    objective_value_ := 0
    quiet_ := true
    lp_ := [GlpCall.set_prob_name "m", GlpCall.set_obj_dir GLP_MIN]
    mip_ := mip
    lp_param_ := glp_init_smcp
    mip_param_ := glp_init_iocp
    mip_callback_info_ := { num_all_nodes_ := 0, best_objective_bound_ := Double.ninf }
    unsupported_ := [] }

/-- The adapter of `fresh mip` after one solve on which GLPK reports an optimum, every
value being `7`. -/
def solved (mip : Bool) : GLPKInterface :=
  match Solve base0 (fresh mip) param0 (glpk0 0 GLP_OPT GLP_OPT 7) with
  | Outcome.ok r => r.1
  | Outcome.fatal _ => fresh mip

/-- The adapter of `solved mip` after the bounds of the extracted variable (column `1`)
were changed to `[0, 3]`. -/
def solved_then_bounded (mip : Bool) : GLPKInterface :=
  SetVariableBounds (solved mip) 1 0 3

/-- The value of a call that returned. -/
def Outcome.get? {α : Type} : Outcome α → Option α
  | Outcome.ok a => some a
  | Outcome.fatal _ => none

/-! ## What extraction leaves alone -/

/-- A variable with its backend index blanked. -/
def MPVariable.unindexed (var : MPVariable) : MPVariable := { var with index := kNoIndex }

/-- A constraint with its backend index blanked. -/
def MPConstraint.unindexed (ct : MPConstraint) : MPConstraint := { ct with index := kNoIndex }

/-- The model with every backend index blanked: what the user built. -/
def MPSolver.unindexed (m : MPSolver) : MPSolver :=
  { m with
    variables_ := m.variables_.map MPVariable.unindexed
    constraints_ := m.constraints_.map MPConstraint.unindexed }

/-- The relation `Keeps s t`: from `s` to `t` the model is the same up to backend indices,
the problem kind, the stored objective value and result status, the direction and the
verbosity are the same, and the problem object received further calls, none of them a
solver call. -/
structure Keeps (s t : GLPKInterface) : Prop where
  solver : t.solver_.unindexed = s.solver_.unindexed
  mip : t.mip_ = s.mip_
  objective_value : t.objective_value_ = s.objective_value_
  result_status : t.result_status_ = s.result_status_
  maximize : t.maximize_ = s.maximize_
  quiet : t.quiet_ = s.quiet_
  calls : ∃ cs, t.lp_ = s.lp_ ++ cs ∧ GlpCall.intopt ∉ cs ∧ GlpCall.simplex ∉ cs

/-- The relation `SameModel s t`: `t` differs from `s` at most by the calls issued, the
synchronization status, the parameters and the reports. -/
structure SameModel (s t : GLPKInterface) : Prop where
  solver : t.solver_ = s.solver_
  last_constraint_index : t.last_constraint_index_ = s.last_constraint_index_
  last_variable_index : t.last_variable_index_ = s.last_variable_index_
  mip : t.mip_ = s.mip_

/-- Number of coefficients of the constraint at position `i` (`0` past the end). -/
def coefficient_count (m : MPSolver) (i : Nat) : Int :=
  match m.constraints_[i]? with
  | some ct => ct.coefficients_.length
  | none => 0

/-! ## Reading a bound-setting call back -/

/-- The bounds GLPK holds after `glp_set_col_bnds` / `glp_set_row_bnds` with the given kind
and values (GLPK reference manual): `GLP_FX` and `GLP_DB` keep both values, `GLP_LO` keeps
the lower one and has no upper bound, `GLP_UP` keeps the upper one and has no lower bound,
`GLP_FR` has neither. -/
def glp_bounds (kind : Int) (lb ub : Double) : Double × Double :=
  if kind = GLP_FX ∨ kind = GLP_DB then (lb, ub)
  else if kind = GLP_LO then (lb, MPSolver.infinity)
  else if kind = GLP_UP then (Double.neg MPSolver.infinity, ub)
  else (Double.neg MPSolver.infinity, MPSolver.infinity)

/-! ## A singular basis -/

/-- The constructor `GLPKInterface::GLPKInterface` on an empty model: a fresh problem
object with its name and the direction `GLP_MIN`, and fresh callback information.  The
members of `MPSolverInterface` are set by its own constructor, outside the sources at
hand; the starting synchronization status is left as a parameter, the other members start
at their neutral values (nothing solved, minimization, nothing extracted). -/
def GLPKInterface.create (name : String) (mip : Bool) (sync_status : SynchronizationStatus) :
    GLPKInterface :=
  { solver_ :=
      { name_ := name, variables_ := [], constraints_ := [],
        objective_ := { coefficients_ := [], offset := 0 }, time_limit := 0 }
    sync_status_ := sync_status
    result_status_ := ResultStatus.NOT_SOLVED
    maximize_ := false
    last_constraint_index_ := 0
    last_variable_index_ := 0
    objective_value_ := 0
    quiet_ := true
    lp_ := [GlpCall.set_prob_name name, GlpCall.set_obj_dir GLP_MIN]
    mip_ := mip
    lp_param_ := glp_init_smcp
    mip_param_ := glp_init_iocp
    mip_callback_info_ :=
      GLPKInformation.ResetBestObjectiveBound
        { num_all_nodes_ := 0, best_objective_bound_ := 0 } false
    unsupported_ := [] }

/-- A coefficient map after `map[j] = value`: the entry of key `j` is replaced, or added
when the key is absent. -/
def set_coefficient (coefs : List (Nat × Double)) (j : Nat) (value : Double) :
    List (Nat × Double) :=
  if coefs.any (fun it => decide (it.1 = j)) then
    coefs.map (fun it => if it.1 = j then (j, value) else it)
  else coefs ++ [(j, value)]

/-- The value a coefficient map gives to key `j`, `0` when the key is absent. -/
def get_coefficient (coefs : List (Nat × Double)) (j : Nat) : Double :=
  match coefs.find? (fun it => decide (it.1 = j)) with
  | some it => it.2
  | none => 0

/-- Modelled from the spec: the model side of `MPConstraint::SetCoefficient` (spec:
`setCoefficient(ConstraintId, VariableId, value)`), for the constraint at position `i` and
the variable at position `j`.  Gives the adapter state with the updated constraint, that
constraint and the previous value of the coefficient; nothing when one of the two
positions names no entity. -/
def set_coefficient_model (s : GLPKInterface) (i j : Nat) (value : Double) :
    Option (GLPKInterface × MPConstraint × Double) :=
  match s.solver_.constraints_[i]?, s.solver_.variables_[j]? with
  | some ct, some _ =>
    some ({ s with solver_ := { s.solver_ with
              constraints_ := s.solver_.constraints_.modify
                (fun c => { c with coefficients_ := set_coefficient c.coefficients_ j value }) i } },
      { ct with coefficients_ := set_coefficient ct.coefficients_ j value },
      get_coefficient ct.coefficients_ j)
  | _, _ => none

/-- One operation of the user on the model. -/
inductive Op where
  | MakeVar (lb ub : Double) (integer : Bool) (name : String)
  | MakeRowConstraint (lb ub : Double) (name : String)
  | SetVariableBounds (j : Nat) (lb ub : Double)
  | SetVariableInteger (j : Nat) (integer : Bool)
  | SetConstraintBounds (i : Nat) (lb ub : Double)
  | SetCoefficient (i j : Nat) (value : Double)
  | ClearConstraint (i : Nat)
  | SetObjectiveCoefficient (j : Nat) (value : Double)
  | SetObjectiveOffset (value : Double)
  | ClearObjective
  | SetOptimizationDirection (maximize : Bool)
  | ExtractModel
  | Solve (param : MPSolverParameters) (glpk : Glpk)
  | Reset

/-- Modelled from the spec: what one operation does.  Creation appends an entity without
backend index ("indices assigned lazily at extraction time, not at creation time") and
tells the adapter; a mutator updates the entity and tells the adapter, with the entity's
index; `ClearObjective` tells the adapter first and then drops the coefficients, the
offset being retained; an operation on a position that names no entity fails
(`InvalidEntity`). -/
def step (base : BaseClass) (s : GLPKInterface) : Op → Outcome GLPKInterface
  | Op.MakeVar lb ub integer name =>
    Outcome.ok (AddVariable { s with solver_ := { s.solver_ with
      variables_ := s.solver_.variables_ ++
        [{ name := name, lb := lb, ub := ub, integer := integer, index := kNoIndex,
           solution_value := 0, reduced_cost := 0 }] } })
  | Op.MakeRowConstraint lb ub name =>
    Outcome.ok (AddRowConstraint { s with solver_ := { s.solver_ with
      constraints_ := s.solver_.constraints_ ++
        [{ name := name, lb := lb, ub := ub, coefficients_ := [], index := kNoIndex,
           activity := 0, dual_value := 0 }] } })
  | Op.SetVariableBounds j lb ub =>
    match s.solver_.variables_[j]? with
    | none => Outcome.fatal "InvalidEntity"
    | some var =>
      Outcome.ok (SetVariableBounds
        { s with solver_ := { s.solver_ with
            variables_ := s.solver_.variables_.modify
              (fun v => { v with lb := lb, ub := ub }) j } }
        var.index lb ub)
  | Op.SetVariableInteger j integer =>
    match s.solver_.variables_[j]? with
    | none => Outcome.fatal "InvalidEntity"
    | some var =>
      Outcome.ok (SetVariableInteger
        { s with solver_ := { s.solver_ with
            variables_ := s.solver_.variables_.modify
              (fun v => { v with integer := integer }) j } }
        var.index integer)
  | Op.SetConstraintBounds i lb ub =>
    match s.solver_.constraints_[i]? with
    | none => Outcome.fatal "InvalidEntity"
    | some ct =>
      Outcome.ok (SetConstraintBounds
        { s with solver_ := { s.solver_ with
            constraints_ := s.solver_.constraints_.modify
              (fun c => { c with lb := lb, ub := ub }) i } }
        ct.index lb ub)
  | Op.SetCoefficient i j value =>
    match set_coefficient_model s i j value with
    | none => Outcome.fatal "InvalidEntity"
    | some (s1, ct, old_value) => Outcome.ok (SetCoefficient base s1 ct j value old_value)
  | Op.ClearConstraint i =>
    match s.solver_.constraints_[i]? with
    | none => Outcome.fatal "InvalidEntity"
    | some ct =>
      let s := ClearConstraint s ct
      Outcome.ok { s with solver_ := { s.solver_ with
        constraints_ := s.solver_.constraints_.modify
          (fun c => { c with coefficients_ := [] }) i } }
  | Op.SetObjectiveCoefficient j value =>
    match s.solver_.variables_[j]? with
    | none => Outcome.fatal "InvalidEntity"
    | some _ =>
      Outcome.ok (SetObjectiveCoefficient
        { s with solver_ := { s.solver_ with objective_ := { s.solver_.objective_ with
            coefficients_ := set_coefficient s.solver_.objective_.coefficients_ j value } } }
        j value)
  | Op.SetObjectiveOffset value =>
    Outcome.ok (SetObjectiveOffset
      { s with solver_ := { s.solver_ with objective_ := { s.solver_.objective_ with
          offset := value } } }
      value)
  | Op.ClearObjective =>
    let s := ClearObjective s
    Outcome.ok { s with solver_ := { s.solver_ with objective_ := { s.solver_.objective_ with
      coefficients_ := [] } } }
  | Op.SetOptimizationDirection maximize =>
    Outcome.ok (SetOptimizationDirection { s with maximize_ := maximize } maximize)
  | Op.ExtractModel => ExtractModel base s
  | Op.Solve param glpk => (Solve base s param glpk).bind fun r => Outcome.ok r.1
  | Op.Reset => Outcome.ok (Reset s)

/-- The state after a sequence of operations, when each of them returns. -/
def run (base : BaseClass) : GLPKInterface → List Op → Outcome GLPKInterface
  | s, [] => Outcome.ok s
  | s, op :: ops => (step base s op).bind fun t => run base t ops

/-- The assertions `DCHECK_NE(MODEL_SYNCHRONIZED, sync_status_)` met by the loop of
`ClearObjective` all hold.  The loop body changes neither an index nor the status, so each
of them is evaluated in the state that `InvalidateSolutionSynchronization` leaves. -/
def ClearObjective_DCHECK (s : GLPKInterface) : Bool :=
  let s := InvalidateSolutionSynchronization s
  s.solver_.objective_.coefficients_.all fun it =>
    !decide (s.index_of it.1 = kNoIndex) ||
      decide (s.sync_status_ ≠ SynchronizationStatus.MODEL_SYNCHRONIZED)

/-- The assertions `DCHECK_NE(kNoIndex, var_index)` met by the loop of
`ExtractOneConstraint` all hold. -/
def ExtractOneConstraint_DCHECK (s : GLPKInterface) (constraint : MPConstraint) : Bool :=
  constraint.coefficients_.all fun it => decide (s.index_of it.1 ≠ kNoIndex)

/-- The test of `SetCoefficient`: the row is sent again. -/
def SetCoefficient_extracts (base : BaseClass) (s : GLPKInterface) (constraint : MPConstraint) :
    Prop :=
  constraint.index ≠ kNoIndex ∧
    ((InvalidateSolutionSynchronization s).sync_status_ =
        SynchronizationStatus.MODEL_SYNCHRONIZED ∨
      ¬ base.ContainsNewVariables (InvalidateSolutionSynchronization s) constraint = true)

/-- The bookkeeping every reachable state satisfies: the entities before the two start
indices carry their index (position plus one), those at or after them carry none; unless a
reload is pending the start indices are at the end of the lists; coefficient maps only
name variables of the model. -/
structure Consistent (s : GLPKInterface) : Prop where
  vlast : s.last_variable_index_ ≤ s.solver_.variables_.length
  clast : s.last_constraint_index_ ≤ s.solver_.constraints_.length
  vidx : ∀ (j : Nat) (var : MPVariable), s.solver_.variables_[j]? = some var →
    var.index = if j < s.last_variable_index_ then (j : Int) + 1 else kNoIndex
  cidx : ∀ (i : Nat) (ct : MPConstraint), s.solver_.constraints_[i]? = some ct →
    ct.index = if i < s.last_constraint_index_ then (i : Int) + 1 else kNoIndex
  synced : s.sync_status_ ≠ SynchronizationStatus.MUST_RELOAD →
    s.last_variable_index_ = s.solver_.variables_.length ∧
      s.last_constraint_index_ = s.solver_.constraints_.length
  keys : ∀ ct ∈ s.solver_.constraints_, ∀ it ∈ ct.coefficients_,
    it.1 < s.solver_.variables_.length
  okeys : ∀ it ∈ s.solver_.objective_.coefficients_, it.1 < s.solver_.variables_.length

/-- The relation `SameTracking s t`: `t` has the model, the two start indices and the
synchronization status of `s`. -/
structure SameTracking (s t : GLPKInterface) : Prop where
  solver : t.solver_ = s.solver_
  last_constraint_index : t.last_constraint_index_ = s.last_constraint_index_
  last_variable_index : t.last_variable_index_ = s.last_variable_index_
  sync_status : t.sync_status_ = s.sync_status_

/-- A run for concrete checks: a variable, a constraint, a coefficient and a solve, after
which a second variable is created. -/
def run0 : List Op :=
  [Op.MakeVar 0 1 false "x", Op.MakeRowConstraint 0 1 "c", Op.SetCoefficient 0 0 1,
    Op.Solve param0 (glpk0 0 GLP_OPT GLP_OPT 0), Op.MakeVar 0 1 false "y"]

/-- The state `run0` reaches from a fresh continuous adapter. -/
def reached0 : GLPKInterface :=
  match run base0 (GLPKInterface.create "m" false SynchronizationStatus.MODEL_SYNCHRONIZED) run0 with
  | Outcome.ok s => s
  | Outcome.fatal _ => GLPKInterface.create "m" false SynchronizationStatus.MODEL_SYNCHRONIZED

theorem keeps_refl (s : GLPKInterface) : Keeps s s :=
  ⟨rfl, rfl, rfl, rfl, rfl, rfl, [], by simp⟩

theorem keeps_trans {s t u : GLPKInterface} (h1 : Keeps s t) (h2 : Keeps t u) : Keeps s u := by
  obtain ⟨cs1, e1, i1, x1⟩ := h1.calls
  obtain ⟨cs2, e2, i2, x2⟩ := h2.calls
  refine ⟨h2.solver.trans h1.solver, h2.mip.trans h1.mip,
    h2.objective_value.trans h1.objective_value, h2.result_status.trans h1.result_status,
    h2.maximize.trans h1.maximize, h2.quiet.trans h1.quiet, cs1 ++ cs2, ?_, ?_, ?_⟩
  · rw [e2, e1, List.append_assoc]
  · simp [i1, i2]
  · simp [x1, x2]

theorem keeps_foldl {β : Type} (f : GLPKInterface → β → GLPKInterface)
    (hf : ∀ s b, Keeps s (f s b)) (l : List β) (s : GLPKInterface) : Keeps s (l.foldl f s) := by
  induction l generalizing s with
  | nil => exact keeps_refl s
  | cons b l ih => exact keeps_trans (hf s b) (ih (f s b))

theorem sameModel_refl (s : GLPKInterface) : SameModel s s := ⟨rfl, rfl, rfl, rfl⟩

theorem sameModel_trans {s t u : GLPKInterface} (h1 : SameModel s t) (h2 : SameModel t u) :
    SameModel s u :=
  ⟨h2.solver.trans h1.solver, h2.last_constraint_index.trans h1.last_constraint_index,
    h2.last_variable_index.trans h1.last_variable_index, h2.mip.trans h1.mip⟩

theorem sameModel_foldl {β : Type} (f : GLPKInterface → β → GLPKInterface)
    (hf : ∀ s b, SameModel s (f s b)) (l : List β) (s : GLPKInterface) :
    SameModel s (l.foldl f s) := by
  induction l generalizing s with
  | nil => exact sameModel_refl s
  | cons b l ih => exact sameModel_trans (hf s b) (ih (f s b))

theorem keeps_of_call (s : GLPKInterface) (c : GlpCall) (h1 : c ≠ GlpCall.intopt)
    (h2 : c ≠ GlpCall.simplex) : Keeps s (s.call c) :=
  ⟨rfl, rfl, rfl, rfl, rfl, rfl, [c], rfl, by simpa using h1.symm, by simpa using h2.symm⟩

theorem sameModel_of_call (s : GLPKInterface) (c : GlpCall) : SameModel s (s.call c) :=
  ⟨rfl, rfl, rfl, rfl⟩

theorem keeps_of_sync (s : GLPKInterface) (st : SynchronizationStatus) :
    Keeps s { s with sync_status_ := st } :=
  ⟨rfl, rfl, rfl, rfl, rfl, rfl, [], by simp⟩

theorem sameModel_of_sync (s : GLPKInterface) (st : SynchronizationStatus) :
    SameModel s { s with sync_status_ := st } :=
  ⟨rfl, rfl, rfl, rfl⟩

theorem keeps_InvalidateSolutionSynchronization (s : GLPKInterface) :
    Keeps s (InvalidateSolutionSynchronization s) := by
  unfold operations_research.InvalidateSolutionSynchronization
  split
  · exact keeps_of_sync s _
  · exact keeps_refl s

theorem sameModel_InvalidateSolutionSynchronization (s : GLPKInterface) :
    SameModel s (InvalidateSolutionSynchronization s) := by
  unfold operations_research.InvalidateSolutionSynchronization
  split
  · exact sameModel_of_sync s _
  · exact sameModel_refl s

theorem keeps_SetVariableBounds (s : GLPKInterface) (j : Int) (lb ub : Double) :
    Keeps s (SetVariableBounds s j lb ub) := by
  refine keeps_trans (keeps_InvalidateSolutionSynchronization s) ?_
  unfold operations_research.SetVariableBounds
  simp only []
  split_ifs
  all_goals first
    | exact keeps_of_call _ _ (by simp) (by simp)
    | exact keeps_of_sync _ _

theorem sameModel_SetVariableBounds (s : GLPKInterface) (j : Int) (lb ub : Double) :
    SameModel s (SetVariableBounds s j lb ub) := by
  refine sameModel_trans (sameModel_InvalidateSolutionSynchronization s) ?_
  unfold operations_research.SetVariableBounds
  simp only []
  split_ifs
  all_goals first
    | exact sameModel_of_call _ _
    | exact sameModel_of_sync _ _

theorem map_modify_of_absorb {α β : Type} (g : α → β) (f : α → α) (h : ∀ x, g (f x) = g x)
    (j : Nat) (l : List α) : (l.modify f j).map g = l.map g := by
  apply List.ext_getElem?
  intro n
  simp only [List.getElem?_map, List.getElem?_modify]
  cases l[n]? with
  | none => rfl
  | some x => by_cases hjn : j = n <;> simp [hjn, h]

theorem keeps_set_variable_index (s : GLPKInterface) (j : Nat) (i : Int) :
    Keeps s (s.set_variable_index j i) := by
  refine ⟨?_, rfl, rfl, rfl, rfl, rfl, [], by simp [GLPKInterface.set_variable_index]⟩
  simp only [GLPKInterface.set_variable_index, MPSolver.unindexed]
  congr 1
  apply map_modify_of_absorb
  intro x
  rfl

theorem keeps_set_constraint_index (s : GLPKInterface) (j : Nat) (i : Int) :
    Keeps s (s.set_constraint_index j i) := by
  refine ⟨?_, rfl, rfl, rfl, rfl, rfl, [], by simp [GLPKInterface.set_constraint_index]⟩
  simp only [GLPKInterface.set_constraint_index, MPSolver.unindexed]
  congr 1
  apply map_modify_of_absorb
  intro x
  rfl

theorem keeps_SetVariableInteger (s : GLPKInterface) (j : Int) (integer : Bool) :
    Keeps s (SetVariableInteger s j integer) := by
  refine keeps_trans (keeps_InvalidateSolutionSynchronization s) ?_
  unfold operations_research.SetVariableInteger
  simp only []
  split_ifs
  all_goals first
    | exact keeps_of_call _ _ (by simp) (by simp)
    | exact keeps_of_sync _ _

theorem sameModel_SetVariableInteger (s : GLPKInterface) (j : Int) (integer : Bool) :
    SameModel s (SetVariableInteger s j integer) := by
  refine sameModel_trans (sameModel_InvalidateSolutionSynchronization s) ?_
  unfold operations_research.SetVariableInteger
  simp only []
  split_ifs
  all_goals first
    | exact sameModel_of_call _ _
    | exact sameModel_of_sync _ _

theorem keeps_SetConstraintBounds (s : GLPKInterface) (i : Int) (lb ub : Double) :
    Keeps s (SetConstraintBounds s i lb ub) := by
  refine keeps_trans (keeps_InvalidateSolutionSynchronization s) ?_
  unfold operations_research.SetConstraintBounds
  simp only []
  split_ifs
  all_goals first
    | exact keeps_of_call _ _ (by simp) (by simp)
    | exact keeps_of_sync _ _

theorem sameModel_SetConstraintBounds (s : GLPKInterface) (i : Int) (lb ub : Double) :
    SameModel s (SetConstraintBounds s i lb ub) := by
  refine sameModel_trans (sameModel_InvalidateSolutionSynchronization s) ?_
  unfold operations_research.SetConstraintBounds
  simp only []
  split_ifs
  all_goals first
    | exact sameModel_of_call _ _
    | exact sameModel_of_sync _ _

theorem keeps_ExtractOneConstraint (s : GLPKInterface) (ct : MPConstraint) :
    Keeps s (ExtractOneConstraint s ct) :=
  keeps_of_call _ _ (by simp) (by simp)

theorem sameModel_ExtractOneConstraint (s : GLPKInterface) (ct : MPConstraint) :
    SameModel s (ExtractOneConstraint s ct) :=
  sameModel_of_call _ _

theorem keeps_ExtractOldConstraints (base : BaseClass) (s : GLPKInterface) :
    Keeps s (ExtractOldConstraints base s) := by
  refine keeps_foldl _ (fun s i => ?_) _ s
  unfold ExtractOldConstraints_step
  split
  · exact keeps_refl s
  · simp only []
    split_ifs
    · exact keeps_refl s
    · exact keeps_ExtractOneConstraint s _
    · exact keeps_refl s

theorem sameModel_ExtractOldConstraints (base : BaseClass) (s : GLPKInterface) :
    SameModel s (ExtractOldConstraints base s) := by
  refine sameModel_foldl _ (fun s i => ?_) _ s
  unfold ExtractOldConstraints_step
  split
  · exact sameModel_refl s
  · simp only []
    split_ifs
    · exact sameModel_refl s
    · exact sameModel_ExtractOneConstraint s _
    · exact sameModel_refl s

theorem keeps_ExtractNewVariables_step (s : GLPKInterface) (j : Nat) :
    Keeps s (ExtractNewVariables_step s j) := by
  refine keeps_trans (keeps_set_variable_index s j ((j : Int) + 1)) ?_
  unfold operations_research.ExtractNewVariables_step
  simp only []
  split
  · exact keeps_refl _
  · refine keeps_trans ?_ (keeps_of_call _ _ (by simp) (by simp))
    refine keeps_trans ?_ (keeps_SetVariableInteger _ _ _)
    refine keeps_trans ?_ (keeps_SetVariableBounds _ _ _ _)
    split
    · exact keeps_of_call _ _ (by simp) (by simp)
    · exact keeps_refl _

theorem keeps_ExtractNewVariables (base : BaseClass) (s : GLPKInterface) :
    Keeps s (ExtractNewVariables base s) := by
  unfold operations_research.ExtractNewVariables
  simp only []
  split
  · refine keeps_trans ?_ (keeps_ExtractOldConstraints base _)
    refine keeps_trans ?_ (keeps_foldl _ keeps_ExtractNewVariables_step _ _)
    exact keeps_of_call _ _ (by simp) (by simp)
  · exact keeps_refl s

theorem keeps_ExtractObjective (s : GLPKInterface) : Keeps s (ExtractObjective s) := by
  unfold operations_research.ExtractObjective
  refine keeps_trans ?_ (keeps_of_call _ _ (by simp) (by simp))
  exact keeps_foldl _ (fun s it => keeps_of_call _ _ (by simp) (by simp)) _ s

theorem sameModel_ExtractObjective (s : GLPKInterface) : SameModel s (ExtractObjective s) := by
  unfold operations_research.ExtractObjective
  refine sameModel_trans ?_ (sameModel_of_call _ _)
  exact sameModel_foldl _ (fun s it => sameModel_of_call _ _) _ s

theorem coefficient_count_unindexed (m : MPSolver) (i : Nat) :
    coefficient_count m.unindexed i = coefficient_count m i := by
  simp only [coefficient_count, MPSolver.unindexed, List.getElem?_map]
  cases m.constraints_[i]? <;> rfl

theorem keeps_coefficient_count {s t : GLPKInterface} (h : Keeps s t) (i : Nat) :
    coefficient_count t.solver_ i = coefficient_count s.solver_ i := by
  rw [← coefficient_count_unindexed t.solver_, h.solver, coefficient_count_unindexed]

theorem keeps_coefficient_lengths {s t : GLPKInterface} (h : Keeps s t) :
    t.solver_.constraints_.map (fun ct => (ct.coefficients_.length : Int)) =
      s.solver_.constraints_.map (fun ct => (ct.coefficients_.length : Int)) := by
  have := congrArg
    (fun m : MPSolver => m.constraints_.map (fun ct => (ct.coefficients_.length : Int))) h.solver
  simpa [MPSolver.unindexed, MPConstraint.unindexed, Function.comp_def] using this

theorem ExtractNewConstraints_define_spec (acc : GLPKInterface × Int) (i : Nat) :
    Keeps acc.1 (ExtractNewConstraints_define acc i).1 ∧
      (ExtractNewConstraints_define acc i).1.last_constraint_index_ = acc.1.last_constraint_index_ ∧
      (ExtractNewConstraints_define acc i).1.last_variable_index_ = acc.1.last_variable_index_ ∧
      (ExtractNewConstraints_define acc i).2 = acc.2 + coefficient_count acc.1.solver_ i := by
  have hk := keeps_set_constraint_index acc.1 i ((i : Int) + 1)
  have hc := keeps_coefficient_count hk i
  unfold ExtractNewConstraints_define
  simp only []
  unfold coefficient_count at hc
  split
  · rename_i hnone
    rw [hnone] at hc
    refine ⟨hk, rfl, rfl, ?_⟩
    simp only [coefficient_count]
    rw [← hc]
    simp
  · rename_i ct hsome
    rw [hsome] at hc
    dsimp only
    refine ⟨?_, ?_, ?_, ?_⟩
    · refine keeps_trans hk (keeps_trans ?_ (keeps_SetConstraintBounds _ _ _ _))
      split
      · exact keeps_of_call _ _ (by simp) (by simp)
      · exact keeps_of_call _ _ (by simp) (by simp)
    · rw [(sameModel_SetConstraintBounds _ _ _ _).last_constraint_index]
      split <;> rfl
    · rw [(sameModel_SetConstraintBounds _ _ _ _).last_variable_index]
      split <;> rfl
    · simp only [coefficient_count]
      rw [← hc]

theorem ExtractNewConstraints_define_foldl (l : List Nat) (s : GLPKInterface) (c : Int) :
    Keeps s (l.foldl ExtractNewConstraints_define (s, c)).1 ∧
      (l.foldl ExtractNewConstraints_define (s, c)).1.last_constraint_index_ =
        s.last_constraint_index_ ∧
      (l.foldl ExtractNewConstraints_define (s, c)).1.last_variable_index_ =
        s.last_variable_index_ ∧
      (l.foldl ExtractNewConstraints_define (s, c)).2 =
        c + (l.map (coefficient_count s.solver_)).sum := by
  induction l generalizing s c with
  | nil => exact ⟨keeps_refl s, rfl, rfl, by simp⟩
  | cons i l ih =>
    obtain ⟨h1, h2, h3, h4⟩ := ExtractNewConstraints_define_spec (s, c) i
    obtain ⟨k1, k2, k3, k4⟩ := ih (ExtractNewConstraints_define (s, c) i).1
      (ExtractNewConstraints_define (s, c) i).2
    simp only [List.foldl_cons, List.map_cons, List.sum_cons]
    refine ⟨keeps_trans h1 k1, k2.trans h2, k3.trans h3, ?_⟩
    rw [k4, h4]
    have : List.map (coefficient_count (ExtractNewConstraints_define (s, c) i).1.solver_) l =
        List.map (coefficient_count s.solver_) l :=
      List.map_congr_left (fun j _ => keeps_coefficient_count h1 j)
    rw [this]
    simp only []
    ring

theorem coefficient_count_range (m : MPSolver) :
    (List.range m.constraints_.length).map (coefficient_count m) =
      m.constraints_.map (fun ct => (ct.coefficients_.length : Int)) := by
  apply List.ext_getElem?
  intro n
  by_cases h : n < m.constraints_.length
  · simp [List.getElem?_range h, List.getElem?_eq_getElem h, coefficient_count]
  · have h1 : (List.range m.constraints_.length)[n]? = none := by
      simp [List.getElem?_eq_none_iff]; omega
    have h2 : m.constraints_[n]? = none := by
      simp [List.getElem?_eq_none_iff]; omega
    simp [h1, h2]

theorem ExtractNewConstraints_entry_foldl (s : GLPKInterface) (ct : MPConstraint)
    (l : List (Nat × Double)) (acc : Int × List (Int × Int × Double)) :
    (l.foldl (ExtractNewConstraints_entry s ct) acc).1 = acc.1 + l.length := by
  induction l generalizing acc with
  | nil => simp
  | cons it l ih =>
    simp only [List.foldl_cons, ih, ExtractNewConstraints_entry, List.length_cons]
    push_cast
    ring

theorem ExtractNewConstraints_matrix_foldl (s : GLPKInterface) (cts : List MPConstraint)
    (acc : Int × List (Int × Int × Double)) :
    (cts.foldl (fun acc ct => ct.coefficients_.foldl (ExtractNewConstraints_entry s ct) acc) acc).1 =
      acc.1 + (cts.map (fun ct => (ct.coefficients_.length : Int))).sum := by
  induction cts generalizing acc with
  | nil => simp
  | cons ct cts ih =>
    simp only [List.foldl_cons, ih, ExtractNewConstraints_entry_foldl, List.map_cons, List.sum_cons]
    ring

theorem ExtractNewConstraints_returns (s : GLPKInterface) :
    ∃ t, ExtractNewConstraints s = Outcome.ok t ∧ Keeps s t := by
  unfold ExtractNewConstraints
  simp only []
  split
  · rename_i hlt
    have h0 := keeps_of_call s
      (GlpCall.add_rows ((s.solver_.constraints_.length : Int) - s.last_constraint_index_))
      (by simp) (by simp)
    generalize hs1 :
      s.call (GlpCall.add_rows ((s.solver_.constraints_.length : Int) - s.last_constraint_index_)) = s1
      at h0
    have e1 : s1.last_constraint_index_ = s.last_constraint_index_ := by rw [← hs1]; rfl
    have e2 : s1.solver_ = s.solver_ := by rw [← hs1]; rfl
    rw [e1]
    obtain ⟨h1, h2, h3, h4⟩ := ExtractNewConstraints_define_foldl
      (List.range' s.last_constraint_index_ (s.solver_.constraints_.length - s.last_constraint_index_))
      s1 0
    split
    · rename_i hz
      split
      · exact ⟨_, rfl, keeps_trans (keeps_trans h0 h1) (keeps_of_call _ _ (by simp) (by simp))⟩
      · rename_i hne
        exfalso
        apply hne
        rw [h4]
        simp only [ExtractNewConstraints_matrix, ExtractNewConstraints_matrix_foldl]
        rw [h2, e1] at hz
        rw [keeps_coefficient_lengths h1, e2, hz.2, Nat.sub_zero, ← List.range_eq_range',
          coefficient_count_range]
        ring
    · refine ⟨_, rfl, keeps_trans (keeps_trans h0 h1) ?_⟩
      refine keeps_foldl _ (fun s i => ?_) _ _
      unfold ExtractNewConstraints_row
      split
      · exact keeps_refl s
      · exact keeps_ExtractOneConstraint s _
  · exact ⟨s, rfl, keeps_refl s⟩

theorem keeps_of_eq (s t : GLPKInterface) (h1 : t.solver_ = s.solver_) (h2 : t.mip_ = s.mip_)
    (h3 : t.objective_value_ = s.objective_value_) (h4 : t.result_status_ = s.result_status_)
    (h5 : t.maximize_ = s.maximize_) (h6 : t.quiet_ = s.quiet_) (h7 : t.lp_ = s.lp_) :
    Keeps s t :=
  ⟨by rw [h1], h2, h3, h4, h5, h6, [], by simp [h7]⟩

theorem keeps_SetPresolveMode (s : GLPKInterface) (value : Int) :
    Keeps s (SetPresolveMode s value) := by
  unfold operations_research.SetPresolveMode
  split_ifs <;> exact keeps_of_eq _ _ rfl rfl rfl rfl rfl rfl rfl

theorem keeps_SetLpAlgorithm (s : GLPKInterface) (value : Int) :
    Keeps s (SetLpAlgorithm s value) := by
  unfold operations_research.SetLpAlgorithm
  split_ifs <;> exact keeps_of_eq _ _ rfl rfl rfl rfl rfl rfl rfl

theorem keeps_SetParameters (s : GLPKInterface) (param : MPSolverParameters) :
    Keeps s (SetParameters s param) := by
  have hc : Keeps s (SetCommonParameters s param) := by
    unfold SetCommonParameters
    refine keeps_trans ?_ (keeps_SetLpAlgorithm _ _)
    refine keeps_trans ?_ (keeps_SetPresolveMode _ _)
    exact keeps_of_eq _ _ rfl rfl rfl rfl rfl rfl rfl
  unfold operations_research.SetParameters
  simp only []
  split
  · refine keeps_trans hc ?_
    unfold SetMIPParameters SetRelativeMipGap
    split <;> exact keeps_of_eq _ _ rfl rfl rfl rfl rfl rfl rfl
  · exact hc

theorem keeps_ConfigureGLPKParameters (s : GLPKInterface) (param : MPSolverParameters) :
    Keeps s (ConfigureGLPKParameters s param) := by
  unfold operations_research.ConfigureGLPKParameters
  refine keeps_trans ?_ (keeps_SetParameters _ _)
  refine keeps_trans ?_ (keeps_of_call _ _ (by simp) (by simp))
  refine keeps_trans ?_ (keeps_of_call _ _ (by simp) (by simp))
  refine keeps_of_eq _ _ ?_ ?_ ?_ ?_ ?_ ?_ ?_ <;> (dsimp only; split_ifs <;> rfl)

theorem ExtractModel_returns (base : BaseClass) (s : GLPKInterface) :
    ∃ t, ExtractModel base s = Outcome.ok t ∧ Keeps s t := by
  unfold ExtractModel
  split
  · obtain ⟨t, ht, hk⟩ := ExtractNewConstraints_returns (ExtractNewVariables base s)
    simp only [ht, Outcome.bind]
    refine ⟨_, rfl, ?_⟩
    refine keeps_trans (keeps_trans (keeps_ExtractNewVariables base s) hk) ?_
    refine keeps_trans (keeps_ExtractObjective t) ?_
    exact keeps_of_eq _ _ rfl rfl rfl rfl rfl rfl rfl
  · exact ⟨s, rfl, keeps_refl s⟩
  · exact ⟨s, rfl, keeps_refl s⟩

theorem unindexed_unindexed (m : MPSolver) : m.unindexed.unindexed = m.unindexed := by
  simp [MPSolver.unindexed, MPVariable.unindexed, MPConstraint.unindexed, Function.comp_def]

theorem count_intopt_of_keeps {s t : GLPKInterface} (h : Keeps s t) :
    t.lp_.count GlpCall.intopt = s.lp_.count GlpCall.intopt := by
  obtain ⟨cs, e, hi, _⟩ := h.calls
  rw [e, List.count_append, List.count_eq_zero_of_not_mem hi, Nat.add_zero]

/-- The first part of `Solve` always returns; it leaves the model (up to indices), the
problem kind, the stored objective value and result status as they were, and issues no
solver call. -/
theorem Solve_setup_returns (base : BaseClass) (s : GLPKInterface) (param : MPSolverParameters) :
    ∃ t, Solve_setup base s param = Outcome.ok t ∧
      t.solver_.unindexed = s.solver_.unindexed ∧ t.mip_ = s.mip_ ∧
      t.objective_value_ = s.objective_value_ ∧ t.result_status_ = s.result_status_ ∧
      t.lp_.count GlpCall.intopt =
        (if param.INCREMENTALITY = INCREMENTALITY_OFF then 0 else s.lp_.count GlpCall.intopt) := by
  unfold Solve_setup
  simp only []
  generalize hs0 : (if param.INCREMENTALITY = INCREMENTALITY_OFF then Reset s else s) = s0
  have h0 : s0.solver_.unindexed = s.solver_.unindexed ∧ s0.mip_ = s.mip_ ∧
      s0.objective_value_ = s.objective_value_ ∧ s0.result_status_ = s.result_status_ ∧
      s0.lp_.count GlpCall.intopt =
        (if param.INCREMENTALITY = INCREMENTALITY_OFF then 0 else s.lp_.count GlpCall.intopt) := by
    rw [← hs0]
    split
    · refine ⟨unindexed_unindexed s.solver_, rfl, rfl, rfl, ?_⟩
      simp [Reset, ResetExtractionInformation, GLPKInterface.call]
    · exact ⟨rfl, rfl, rfl, rfl, rfl⟩
  have h1 : Keeps s0 (if s0.quiet_ then s0.call (GlpCall.term_out GLP_OFF)
      else s0.call (GlpCall.term_out GLP_ON)) := by
    split <;> exact keeps_of_call _ _ (by simp) (by simp)
  obtain ⟨t, ht, hk⟩ := ExtractModel_returns base
    (if s0.quiet_ then s0.call (GlpCall.term_out GLP_OFF) else s0.call (GlpCall.term_out GLP_ON))
  have h2 := keeps_trans (keeps_trans h1 hk) (keeps_ConfigureGLPKParameters t param)
  refine ⟨ConfigureGLPKParameters t param, by simp only [ht, Outcome.bind], ?_⟩
  obtain ⟨a, b, c, d, e⟩ := h0
  exact ⟨h2.solver.trans a, h2.mip.trans b, h2.objective_value.trans c,
    h2.result_status.trans d, (count_intopt_of_keeps h2).trans e⟩

theorem map_variables_of_unindexed {β : Type} (f : MPVariable → β)
    (hf : ∀ var, f var.unindexed = f var) {m n : MPSolver} (h : n.unindexed = m.unindexed) :
    n.variables_.map f = m.variables_.map f := by
  have := congrArg (fun k : MPSolver => k.variables_.map f) h
  simpa [MPSolver.unindexed, Function.comp_def, hf] using this

theorem map_constraints_of_unindexed {β : Type} (f : MPConstraint → β)
    (hf : ∀ ct, f ct.unindexed = f ct) {m n : MPSolver} (h : n.unindexed = m.unindexed) :
    n.constraints_.map f = m.constraints_.map f := by
  have := congrArg (fun k : MPSolver => k.constraints_.map f) h
  simpa [MPSolver.unindexed, Function.comp_def, hf] using this

theorem Solve_of_lp {base : BaseClass} {s u : GLPKInterface} {param : MPSolverParameters}
    (glpk : Glpk) (hu : Solve_setup base s param = Outcome.ok u) (hm : u.mip_ = false) :
    Solve base s param glpk = Outcome.ok (Solve_results (u.call GlpCall.simplex) glpk) := by
  simp [Solve, hu, Outcome.bind, hm]

theorem Solve_of_mip_root_ok {base : BaseClass} {s u : GLPKInterface}
    {param : MPSolverParameters} (glpk : Glpk) (hu : Solve_setup base s param = Outcome.ok u)
    (hm : u.mip_ = true) (hs : glpk.glp_simplex = 0) :
    Solve base s param glpk = Outcome.ok (Solve_results
      { (u.call GlpCall.simplex).call GlpCall.intopt with
        mip_callback_info_ := glpk.glp_intopt_callbacks.foldl GLPKGatherInformationCallback
          u.mip_callback_info_ } glpk) := by
  simp only [Solve, hu, Outcome.bind, hm, hs, if_true]
  rfl

theorem Solve_of_mip_root_failed {base : BaseClass} {s u : GLPKInterface}
    {param : MPSolverParameters} (glpk : Glpk) (hu : Solve_setup base s param = Outcome.ok u)
    (hm : u.mip_ = true) (hs : glpk.glp_simplex ≠ 0) :
    Solve base s param glpk = Outcome.ok
      ({ u.call GlpCall.simplex with
          result_status_ := ResultStatus.ABNORMAL
          sync_status_ := SynchronizationStatus.SOLUTION_SYNCHRONIZED }, ResultStatus.ABNORMAL) := by
  simp only [Solve, hu, Outcome.bind, hm, hs, if_true, if_false]

theorem Solve_results_status (v : GLPKInterface) (glpk : Glpk) :
    (Solve_results v glpk).1.result_status_ = (Solve_results v glpk).2 ∧
      (Solve_results v glpk).2 = Solve_status v glpk := by
  cases hv : v.mip_ <;> simp [Solve_results, Solve_status, hv]

/-- C1: on a continuous (LP) interface `Solve` always returns, and the status it returns
and stores is the translation of the code answered by `glp_get_status`: `GLP_OPT` gives
`OPTIMAL`, `GLP_FEAS` gives `FEASIBLE`, `GLP_NOFEAS` and `GLP_INFEAS` give `INFEASIBLE`,
`GLP_UNBND` gives `UNBOUNDED`, every other code (`GLP_UNDEF` included) gives `ABNORMAL`;
the returned status is never `NOT_SOLVED`. -/
theorem C1_lp_status_translation (base : BaseClass) (s : GLPKInterface)
    (param : MPSolverParameters) (glpk : Glpk) (hlp : s.mip_ = false) :
    ∃ t r, Solve base s param glpk = Outcome.ok (t, r) ∧ t.result_status_ = r ∧
      (glpk.glp_get_status = GLP_OPT → r = ResultStatus.OPTIMAL) ∧
      (glpk.glp_get_status = GLP_FEAS → r = ResultStatus.FEASIBLE) ∧
      (glpk.glp_get_status = GLP_NOFEAS → r = ResultStatus.INFEASIBLE) ∧
      (glpk.glp_get_status = GLP_INFEAS → r = ResultStatus.INFEASIBLE) ∧
      (glpk.glp_get_status = GLP_UNBND → r = ResultStatus.UNBOUNDED) ∧
      (glpk.glp_get_status = GLP_UNDEF → r = ResultStatus.ABNORMAL) ∧
      (glpk.glp_get_status ≠ GLP_OPT → glpk.glp_get_status ≠ GLP_FEAS →
        glpk.glp_get_status ≠ GLP_NOFEAS → glpk.glp_get_status ≠ GLP_INFEAS →
        glpk.glp_get_status ≠ GLP_UNBND → r = ResultStatus.ABNORMAL) ∧
      r ≠ ResultStatus.NOT_SOLVED := by
  obtain ⟨u, hu, -, hm, -⟩ := Solve_setup_returns base s param
  have hm2 : u.mip_ = false := hm.trans hlp
  refine ⟨(Solve_results (u.call GlpCall.simplex) glpk).1,
    (Solve_results (u.call GlpCall.simplex) glpk).2, ?_, rfl, ?_⟩
  · simp [Solve, hu, Outcome.bind, hm2]
  · have hr : (Solve_results (u.call GlpCall.simplex) glpk).2 =
        Solve_status (u.call GlpCall.simplex) glpk := by
      simp [Solve_results, Solve_status, GLPKInterface.call, hm2]
    rw [hr]
    simp only [Solve_status, GLPKInterface.call, hm2]
    refine ⟨?_, ?_, ?_, ?_, ?_, ?_, ?_, ?_⟩
    · intro h; simp [h]
    · intro h; simp [h, GLP_FEAS, GLP_OPT]
    · intro h; simp [h, GLP_FEAS, GLP_OPT, GLP_NOFEAS]
    · intro h; simp [h, GLP_FEAS, GLP_OPT, GLP_NOFEAS, GLP_INFEAS]
    · intro h; simp [h, GLP_FEAS, GLP_OPT, GLP_NOFEAS, GLP_INFEAS, GLP_UNBND]
    · intro h; simp [h, GLP_FEAS, GLP_OPT, GLP_NOFEAS, GLP_INFEAS, GLP_UNBND, GLP_UNDEF]
    · intro h1 h2 h3 h4 h5; simp [h1, h2, h3, h4, h5]
    · simp only [Bool.false_eq_true, if_false]
      split_ifs <;> simp

/-- C1, at a concrete model: an LP solve where GLPK answers `GLP_UNBND`. -/
theorem C1_lp_status_translation_witness :
    (fresh false).mip_ = false ∧
      ∃ t, Solve base0 (fresh false) param0 (glpk0 0 GLP_UNDEF GLP_UNBND 0) =
        Outcome.ok (t, ResultStatus.UNBOUNDED) := by
  refine ⟨rfl, ?_⟩
  obtain ⟨t, r, h, -, -, -, -, -, hu, -⟩ :=
    C1_lp_status_translation base0 (fresh false) param0 (glpk0 0 GLP_UNDEF GLP_UNBND 0) rfl
  exact ⟨t, by rw [h, hu rfl]⟩

/-- C2: on an integer (MIP) interface `Solve` always returns and never returns `UNBOUNDED`
(nor `NOT_SOLVED`); when the root LP solve succeeded (`glp_simplex` answered `0`) the
status is the translation of the code answered by `glp_mip_status`: `GLP_OPT` gives
`OPTIMAL`, `GLP_FEAS` gives `FEASIBLE`, `GLP_NOFEAS` gives `INFEASIBLE`, every other code
(`GLP_UNBND`, `GLP_INFEAS` and `GLP_UNDEF` included) gives `ABNORMAL`. -/
theorem C2_mip_status_translation (base : BaseClass) (s : GLPKInterface)
    (param : MPSolverParameters) (glpk : Glpk) (hmip : s.mip_ = true) :
    ∃ t r, Solve base s param glpk = Outcome.ok (t, r) ∧ t.result_status_ = r ∧
      r ≠ ResultStatus.UNBOUNDED ∧ r ≠ ResultStatus.NOT_SOLVED ∧
      (glpk.glp_simplex = 0 →
        (glpk.glp_mip_status = GLP_OPT → r = ResultStatus.OPTIMAL) ∧
        (glpk.glp_mip_status = GLP_FEAS → r = ResultStatus.FEASIBLE) ∧
        (glpk.glp_mip_status = GLP_NOFEAS → r = ResultStatus.INFEASIBLE) ∧
        (glpk.glp_mip_status = GLP_UNBND → r = ResultStatus.ABNORMAL) ∧
        (glpk.glp_mip_status = GLP_INFEAS → r = ResultStatus.ABNORMAL) ∧
        (glpk.glp_mip_status = GLP_UNDEF → r = ResultStatus.ABNORMAL) ∧
        (glpk.glp_mip_status ≠ GLP_OPT → glpk.glp_mip_status ≠ GLP_FEAS →
          glpk.glp_mip_status ≠ GLP_NOFEAS → r = ResultStatus.ABNORMAL)) := by
  obtain ⟨u, hu, -, hm, -⟩ := Solve_setup_returns base s param
  have hm2 : u.mip_ = true := hm.trans hmip
  by_cases hs : glpk.glp_simplex = 0
  · rw [Solve_of_mip_root_ok glpk hu hm2 hs]
    generalize hv : ({ (u.call GlpCall.simplex).call GlpCall.intopt with
        mip_callback_info_ := glpk.glp_intopt_callbacks.foldl GLPKGatherInformationCallback
          u.mip_callback_info_ } : GLPKInterface) = v
    have hvm : v.mip_ = true := by rw [← hv]; exact hm2
    obtain ⟨h1, h2⟩ := Solve_results_status v glpk
    refine ⟨(Solve_results v glpk).1, (Solve_results v glpk).2, rfl, h1, ?_⟩
    rw [h2]
    simp only [Solve_status, hvm, if_true]
    refine ⟨by split_ifs <;> simp, by split_ifs <;> simp, fun _ => ⟨?_, ?_, ?_, ?_, ?_, ?_, ?_⟩⟩
    · intro h; simp [h]
    · intro h; simp [h, GLP_FEAS, GLP_OPT]
    · intro h; simp [h, GLP_FEAS, GLP_OPT, GLP_NOFEAS]
    · intro h; simp [h, GLP_FEAS, GLP_OPT, GLP_NOFEAS, GLP_UNBND]
    · intro h; simp [h, GLP_FEAS, GLP_OPT, GLP_NOFEAS, GLP_INFEAS]
    · intro h; simp [h, GLP_FEAS, GLP_OPT, GLP_NOFEAS, GLP_UNDEF]
    · intro a b c; simp [a, b, c]
  · rw [Solve_of_mip_root_failed glpk hu hm2 hs]
    exact ⟨_, _, rfl, rfl, by simp, by simp, fun h => absurd h hs⟩

/-- C2, at a concrete model: a MIP solve where GLPK answers `GLP_UNBND` yields
`ABNORMAL`. -/
theorem C2_mip_status_translation_witness :
    (fresh true).mip_ = true ∧
      ∃ t, Solve base0 (fresh true) param0 (glpk0 0 GLP_UNBND GLP_UNDEF 0) =
        Outcome.ok (t, ResultStatus.ABNORMAL) := by
  refine ⟨rfl, ?_⟩
  obtain ⟨t, r, h, -, -, -, hr⟩ :=
    C2_mip_status_translation base0 (fresh true) param0 (glpk0 0 GLP_UNBND GLP_UNDEF 0) rfl
  exact ⟨t, by rw [h, (hr rfl).2.2.2.1 rfl]⟩

/-- C3: on an integer (MIP) interface, when the root LP simplex call answers a non-zero
code, `Solve` returns (it does not stop the process) with `ABNORMAL`, stored as the result
status; this call issues no `glp_intopt`; the stored objective value, every variable's
solution value (and reduced cost) and every constraint's activity (and dual value) are
those before the call; the synchronization status ends as `SOLUTION_SYNCHRONIZED`. -/
theorem C3_root_lp_failure_is_abnormal (base : BaseClass) (s : GLPKInterface)
    (param : MPSolverParameters) (glpk : Glpk) (hmip : s.mip_ = true)
    (hfail : glpk.glp_simplex ≠ 0) :
    ∃ t, Solve base s param glpk = Outcome.ok (t, ResultStatus.ABNORMAL) ∧
      t.result_status_ = ResultStatus.ABNORMAL ∧
      t.sync_status_ = SynchronizationStatus.SOLUTION_SYNCHRONIZED ∧
      t.lp_.count GlpCall.intopt =
        (if param.INCREMENTALITY = INCREMENTALITY_OFF then 0 else s.lp_.count GlpCall.intopt) ∧
      t.objective_value_ = s.objective_value_ ∧
      t.solver_.variables_.map MPVariable.solution_value =
        s.solver_.variables_.map MPVariable.solution_value ∧
      t.solver_.variables_.map MPVariable.reduced_cost =
        s.solver_.variables_.map MPVariable.reduced_cost ∧
      t.solver_.constraints_.map MPConstraint.activity =
        s.solver_.constraints_.map MPConstraint.activity ∧
      t.solver_.constraints_.map MPConstraint.dual_value =
        s.solver_.constraints_.map MPConstraint.dual_value := by
  obtain ⟨u, hu, hsol, hm, hobj, -, hcount⟩ := Solve_setup_returns base s param
  have hm2 : u.mip_ = true := hm.trans hmip
  rw [Solve_of_mip_root_failed glpk hu hm2 hfail]
  refine ⟨_, rfl, rfl, rfl, ?_, hobj, ?_, ?_, ?_, ?_⟩
  · rw [← hcount]
    simp [GLPKInterface.call]
  · exact map_variables_of_unindexed MPVariable.solution_value (fun _ => rfl) hsol
  · exact map_variables_of_unindexed MPVariable.reduced_cost (fun _ => rfl) hsol
  · exact map_constraints_of_unindexed MPConstraint.activity (fun _ => rfl) hsol
  · exact map_constraints_of_unindexed MPConstraint.dual_value (fun _ => rfl) hsol

/-- C3, at a concrete model: the root LP of a MIP solve fails with code `1`. -/
theorem C3_root_lp_failure_is_abnormal_witness :
    (fresh true).mip_ = true ∧ (glpk0 1 GLP_OPT GLP_OPT 7).glp_simplex ≠ 0 ∧
      ∃ t, Solve base0 (fresh true) param0 (glpk0 1 GLP_OPT GLP_OPT 7) =
          Outcome.ok (t, ResultStatus.ABNORMAL) ∧
        t.solver_.variables_.map MPVariable.solution_value = [0] := by
  refine ⟨rfl, by decide, ?_⟩
  obtain ⟨t, h, -, -, -, -, hv, -⟩ :=
    C3_root_lp_failure_is_abnormal base0 (fresh true) param0 (glpk0 1 GLP_OPT GLP_OPT 7) rfl
      (by decide)
  exact ⟨t, h, hv⟩

/-- C4, refuted as stated: an LP solve on which GLPK answers `GLP_NOFEAS` returns
`INFEASIBLE` and has nevertheless overwritten the solution value and reduced cost of the
variable and the activity and dual value of the constraint (all `0` before, `7` after). -/
theorem C4_counterexample :
    (Solve base0 (fresh false) param0 (glpk0 0 GLP_UNDEF GLP_NOFEAS 7)).get?.map
        (fun r => (r.2, r.1.solver_.variables_.map MPVariable.solution_value,
          r.1.solver_.variables_.map MPVariable.reduced_cost,
          r.1.solver_.constraints_.map MPConstraint.activity,
          r.1.solver_.constraints_.map MPConstraint.dual_value)) =
        some (ResultStatus.INFEASIBLE, [7], [7], [7], [7]) ∧
      (fresh false).solver_.variables_.map MPVariable.solution_value = [0] ∧
      (fresh false).solver_.variables_.map MPVariable.reduced_cost = [0] ∧
      (fresh false).solver_.constraints_.map MPConstraint.activity = [0] ∧
      (fresh false).solver_.constraints_.map MPConstraint.dual_value = [0] := by
  decide

/-- C4, amended: `Solve` always returns, and what it does to the solution fields depends
on whether the read-back is reached, not on the status returned.  On an LP interface every
variable ends with the solution value and reduced cost GLPK answers for its index and every
constraint with the activity and dual value GLPK answers for its index.  On a MIP interface
whose root LP succeeded every variable ends with the MIP column value and every constraint
with the MIP row value GLPK answers, reduced costs and dual values being kept.  Only on a
MIP interface whose root LP failed (status `ABNORMAL`) are all four fields kept. -/
theorem C4_solution_fields_follow_read_back (base : BaseClass) (s : GLPKInterface)
    (param : MPSolverParameters) (glpk : Glpk) :
    ∃ t r, Solve base s param glpk = Outcome.ok (t, r) ∧
      (s.mip_ = false →
        (∀ var ∈ t.solver_.variables_,
          var.solution_value = glpk.glp_get_col_prim var.index ∧
          var.reduced_cost = glpk.glp_get_col_dual var.index) ∧
        (∀ ct ∈ t.solver_.constraints_,
          ct.activity = glpk.glp_get_row_prim ct.index ∧
          ct.dual_value = glpk.glp_get_row_dual ct.index)) ∧
      (s.mip_ = true → glpk.glp_simplex = 0 →
        (∀ var ∈ t.solver_.variables_, var.solution_value = glpk.glp_mip_col_val var.index) ∧
        (∀ ct ∈ t.solver_.constraints_, ct.activity = glpk.glp_mip_row_val ct.index) ∧
        t.solver_.variables_.map MPVariable.reduced_cost =
          s.solver_.variables_.map MPVariable.reduced_cost ∧
        t.solver_.constraints_.map MPConstraint.dual_value =
          s.solver_.constraints_.map MPConstraint.dual_value) ∧
      (s.mip_ = true → glpk.glp_simplex ≠ 0 →
        r = ResultStatus.ABNORMAL ∧
        t.solver_.variables_.map MPVariable.solution_value =
          s.solver_.variables_.map MPVariable.solution_value ∧
        t.solver_.variables_.map MPVariable.reduced_cost =
          s.solver_.variables_.map MPVariable.reduced_cost ∧
        t.solver_.constraints_.map MPConstraint.activity =
          s.solver_.constraints_.map MPConstraint.activity ∧
        t.solver_.constraints_.map MPConstraint.dual_value =
          s.solver_.constraints_.map MPConstraint.dual_value) := by
  obtain ⟨u, hu, hsol, hm, -⟩ := Solve_setup_returns base s param
  cases hmip : s.mip_ with
  | false =>
    have hm2 : u.mip_ = false := hm.trans hmip
    rw [Solve_of_lp glpk hu hm2]
    refine ⟨_, _, rfl, fun _ => ⟨?_, ?_⟩, fun h => absurd h (by simp), fun h => absurd h (by simp)⟩
    · intro var hvar
      simp only [Solve_results, GLPKInterface.call, hm2, List.mem_map] at hvar
      obtain ⟨v0, -, rfl⟩ := hvar
      simp [Solve_read_variable, hm2]
    · intro ct hct
      simp only [Solve_results, GLPKInterface.call, hm2, List.mem_map] at hct
      obtain ⟨c0, -, rfl⟩ := hct
      simp [Solve_read_constraint, hm2]
  | true =>
    have hm2 : u.mip_ = true := hm.trans hmip
    by_cases hs : glpk.glp_simplex = 0
    · rw [Solve_of_mip_root_ok glpk hu hm2 hs]
      refine ⟨_, _, rfl, fun h => absurd h (by simp), fun _ _ => ⟨?_, ?_, ?_, ?_⟩,
        fun _ h => absurd hs h⟩
      · intro var hvar
        simp only [Solve_results, GLPKInterface.call, hm2, List.mem_map] at hvar
        obtain ⟨v0, -, rfl⟩ := hvar
        simp [Solve_read_variable, hm2]
      · intro ct hct
        simp only [Solve_results, GLPKInterface.call, hm2, List.mem_map] at hct
        obtain ⟨c0, -, rfl⟩ := hct
        simp [Solve_read_constraint, hm2]
      · refine Eq.trans ?_
          (map_variables_of_unindexed MPVariable.reduced_cost (fun _ => rfl) hsol)
        simp [Solve_results, GLPKInterface.call, hm2, Solve_read_variable, Function.comp_def]
      · refine Eq.trans ?_
          (map_constraints_of_unindexed MPConstraint.dual_value (fun _ => rfl) hsol)
        simp [Solve_results, GLPKInterface.call, hm2, Solve_read_constraint, Function.comp_def]
    · rw [Solve_of_mip_root_failed glpk hu hm2 hs]
      refine ⟨_, _, rfl, fun h => absurd h (by simp), fun _ h => absurd h hs,
        fun _ _ => ⟨rfl, ?_, ?_, ?_, ?_⟩⟩
      · exact map_variables_of_unindexed MPVariable.solution_value (fun _ => rfl) hsol
      · exact map_variables_of_unindexed MPVariable.reduced_cost (fun _ => rfl) hsol
      · exact map_constraints_of_unindexed MPConstraint.activity (fun _ => rfl) hsol
      · exact map_constraints_of_unindexed MPConstraint.dual_value (fun _ => rfl) hsol

/-- C9: on a continuous (non-integer) interface `nodes()` and `best_objective_bound()`
stop the process (`LOG(FATAL)`) in every state, whatever the synchronization status and the
last result status; neither returns a number. -/
theorem C9_nodes_and_bound_fatal_on_lp (base : BaseClass) (s : GLPKInterface)
    (hlp : s.mip_ = false) :
    nodes s = Outcome.fatal "Number of nodes only available for discrete problems" ∧
      best_objective_bound base s =
        Outcome.fatal "Best objective bound only available for discrete problems" ∧
      (nodes s).returns = false ∧ (best_objective_bound base s).returns = false := by
  simp [nodes, best_objective_bound, hlp, Outcome.returns]

/-- C9, at a concrete state: a continuous model that was never solved. -/
theorem C9_nodes_and_bound_fatal_on_lp_witness :
    (fresh false).mip_ = false ∧ (nodes (fresh false)).returns = false ∧
      (best_objective_bound base0 (fresh false)).returns = false :=
  ⟨rfl, (C9_nodes_and_bound_fatal_on_lp base0 (fresh false) rfl).2.2.1,
    (C9_nodes_and_bound_fatal_on_lp base0 (fresh false) rfl).2.2.2⟩

/-- C10, refuted as stated: on an integer model `iterations()` returns to its caller, with
the sentinel `kUnknownNumberOfIterations`, whereas `nodes()` on a continuous model does
not return. -/
theorem C10_counterexample :
    iterations (fresh true) (glpk0 0 GLP_OPT GLP_OPT 7) = Outcome.ok kUnknownNumberOfIterations ∧
      (iterations (fresh true) (glpk0 0 GLP_OPT GLP_OPT 7)).returns = true ∧
      (nodes (fresh false)).returns = false := by
  decide

/-- C10, amended: on an integer (MIP) interface `iterations()` returns in every state,
whatever the synchronization status and whatever GLPK would answer; the value returned is
the sentinel `kUnknownNumberOfIterations` (a warning is logged), not an iteration count. -/
theorem C10_iterations_on_mip_returns_sentinel (s : GLPKInterface) (glpk : Glpk)
    (hmip : s.mip_ = true) :
    iterations s glpk = Outcome.ok kUnknownNumberOfIterations ∧
      (iterations s glpk).returns = true := by
  simp [iterations, hmip, Outcome.returns]

/-- C10 amended, at a concrete state: an integer model that was never solved. -/
theorem C10_iterations_on_mip_returns_sentinel_witness :
    (fresh true).mip_ = true ∧
      iterations (fresh true) (glpk0 0 GLP_OPT GLP_OPT 7) = Outcome.ok kUnknownNumberOfIterations :=
  ⟨rfl, (C10_iterations_on_mip_returns_sentinel (fresh true) (glpk0 0 GLP_OPT GLP_OPT 7) rfl).1⟩

/-- C7, refuted as stated: after a solve followed by `SetVariableBounds` on the extracted
variable the status is `MODEL_SYNCHRONIZED`, index `1` is a valid row and column index,
and `row_status(1)` and `column_status(1)` return a value. -/
theorem C7_counterexample :
    (solved_then_bounded false).sync_status_ = SynchronizationStatus.MODEL_SYNCHRONIZED ∧
      (solved_then_bounded false).last_constraint_index_ = 1 ∧
      (solved_then_bounded false).last_variable_index_ = 1 ∧
      row_status (solved_then_bounded false) (glpk0 0 GLP_OPT GLP_OPT 7) 1 =
        Outcome.ok BasisStatus.BASIC ∧
      column_status (solved_then_bounded false) (glpk0 0 GLP_OPT GLP_OPT 7) 1 =
        Outcome.ok BasisStatus.AT_LOWER_BOUND := by
  decide

theorem foldl_modify_getElem? {α : Type} (g : Nat → α → α) (hg : ∀ k x, g k (g k x) = g k x)
    (l : List Nat) (vs : List α) (j : Nat) :
    (l.foldl (fun (acc : List α) (k : Nat) => acc.modify (g k) k) vs)[j]? =
      if j ∈ l then vs[j]?.map (g j) else vs[j]? := by
  induction l generalizing vs with
  | nil => simp
  | cons k l ih =>
    rw [List.foldl_cons, ih, List.getElem?_modify]
    by_cases hk : k = j
    · subst hk
      cases hv : vs[k]? <;> simp [hg]
    · have hk2 : ¬ j = k := fun h => hk h.symm
      simp [hk, hk2]

theorem sameModel_ExtractNewVariables_step (s : GLPKInterface) (j : Nat) :
    SameModel (s.set_variable_index j ((j : Int) + 1)) (ExtractNewVariables_step s j) := by
  unfold operations_research.ExtractNewVariables_step
  simp only []
  split
  · exact sameModel_refl _
  · refine sameModel_trans ?_ (sameModel_of_call _ _)
    refine sameModel_trans ?_ (sameModel_SetVariableInteger _ _ _)
    refine sameModel_trans ?_ (sameModel_SetVariableBounds _ _ _ _)
    split
    · exact sameModel_of_call _ _
    · exact sameModel_refl _

theorem ExtractNewVariables_step_foldl (l : List Nat) (s : GLPKInterface) :
    (l.foldl ExtractNewVariables_step s).solver_.variables_ =
        l.foldl (fun (acc : List MPVariable) (k : Nat) =>
          acc.modify (fun var => { var with index := (k : Int) + 1 }) k) s.solver_.variables_ ∧
      (l.foldl ExtractNewVariables_step s).solver_.constraints_ = s.solver_.constraints_ ∧
      (l.foldl ExtractNewVariables_step s).last_variable_index_ = s.last_variable_index_ := by
  induction l generalizing s with
  | nil => exact ⟨rfl, rfl, rfl⟩
  | cons k l ih =>
    have hm := sameModel_ExtractNewVariables_step s k
    obtain ⟨h1, h2, h3⟩ := ih (ExtractNewVariables_step s k)
    simp only [List.foldl_cons]
    rw [h1, h2, h3, hm.solver, hm.last_variable_index]
    exact ⟨rfl, rfl, rfl⟩

/-- What `ExtractNewVariables` does to the model: the variable at position `j` gets index
`j + 1` when `j` is at or after `last_variable_index_`, nothing else changes. -/
theorem ExtractNewVariables_model (base : BaseClass) (s : GLPKInterface) (j : Nat) :
    (ExtractNewVariables base s).solver_.variables_[j]? =
        s.solver_.variables_[j]?.map (fun var =>
          if s.last_variable_index_ ≤ j then { var with index := (j : Int) + 1 } else var) ∧
      (ExtractNewVariables base s).solver_.constraints_ = s.solver_.constraints_ := by
  unfold ExtractNewVariables
  simp only []
  split
  · rename_i hlt
    rw [(sameModel_ExtractOldConstraints base _).solver]
    obtain ⟨h1, h2, -⟩ := ExtractNewVariables_step_foldl
      (List.range' s.last_variable_index_ (s.solver_.variables_.length - s.last_variable_index_))
      (s.call (GlpCall.add_cols ((s.solver_.variables_.length : Int) - s.last_variable_index_)))
    refine ⟨?_, h2⟩
    have e : (s.call (GlpCall.add_cols
        ((s.solver_.variables_.length : Int) - s.last_variable_index_))).last_variable_index_ =
        s.last_variable_index_ := rfl
    rw [e, h1, foldl_modify_getElem? (fun k (var : MPVariable) => { var with index := (k : Int) + 1 })
      (fun _ _ => rfl)]
    simp only [GLPKInterface.call, List.mem_range'_1]
    by_cases hj : j < s.solver_.variables_.length
    · by_cases hl : s.last_variable_index_ ≤ j
      · have : s.last_variable_index_ ≤ j ∧
            j < s.last_variable_index_ + (s.solver_.variables_.length - s.last_variable_index_) :=
          ⟨hl, by omega⟩
        simp [this, hl]
      · have : ¬ (s.last_variable_index_ ≤ j ∧
            j < s.last_variable_index_ + (s.solver_.variables_.length - s.last_variable_index_)) :=
          fun h => hl h.1
        simp [this, hl]
    · have hn : s.solver_.variables_[j]? = none := by
        simp [List.getElem?_eq_none_iff]; omega
      simp [hn]
  · rename_i hge
    refine ⟨?_, rfl⟩
    by_cases hj : j < s.solver_.variables_.length
    · have hl : ¬ s.last_variable_index_ ≤ j := by omega
      simp [hl]
    · have hn : s.solver_.variables_[j]? = none := by
        simp [List.getElem?_eq_none_iff]; omega
      simp [hn]

theorem sameModel_ExtractNewConstraints_define (acc : GLPKInterface × Int) (i : Nat) :
    SameModel (acc.1.set_constraint_index i ((i : Int) + 1))
      (ExtractNewConstraints_define acc i).1 := by
  unfold ExtractNewConstraints_define
  simp only []
  split
  · exact sameModel_refl _
  · dsimp only
    refine sameModel_trans ?_ (sameModel_SetConstraintBounds _ _ _ _)
    split <;> exact sameModel_of_call _ _

theorem ExtractNewConstraints_define_foldl_model (l : List Nat) (s : GLPKInterface) (c : Int) :
    (l.foldl ExtractNewConstraints_define (s, c)).1.solver_.constraints_ =
        l.foldl (fun (acc : List MPConstraint) (k : Nat) =>
          acc.modify (fun ct => { ct with index := (k : Int) + 1 }) k) s.solver_.constraints_ ∧
      (l.foldl ExtractNewConstraints_define (s, c)).1.solver_.variables_ =
        s.solver_.variables_ := by
  induction l generalizing s c with
  | nil => exact ⟨rfl, rfl⟩
  | cons k l ih =>
    have hm := sameModel_ExtractNewConstraints_define (s, c) k
    obtain ⟨h1, h2⟩ := ih (ExtractNewConstraints_define (s, c) k).1
      (ExtractNewConstraints_define (s, c) k).2
    simp only [List.foldl_cons]
    rw [h1, h2, hm.solver]
    exact ⟨rfl, rfl⟩

theorem sameModel_ExtractNewConstraints_row (s : GLPKInterface) (i : Nat) :
    SameModel s (ExtractNewConstraints_row s i) := by
  unfold ExtractNewConstraints_row
  split
  · exact sameModel_refl s
  · exact sameModel_ExtractOneConstraint s _

/-- What `ExtractNewConstraints` does to the model when it returns: the constraint at
position `i` gets index `i + 1` when `i` is at or after `last_constraint_index_`, nothing
else changes. -/
theorem ExtractNewConstraints_model (s t : GLPKInterface)
    (ht : ExtractNewConstraints s = Outcome.ok t) (i : Nat) :
    t.solver_.constraints_[i]? =
        s.solver_.constraints_[i]?.map (fun ct =>
          if s.last_constraint_index_ ≤ i then { ct with index := (i : Int) + 1 } else ct) ∧
      t.solver_.variables_ = s.solver_.variables_ := by
  unfold ExtractNewConstraints at ht
  simp only [] at ht
  split at ht
  · rename_i hlt
    generalize hs1 :
      s.call (GlpCall.add_rows ((s.solver_.constraints_.length : Int) - s.last_constraint_index_)) = s1
      at ht
    have e1 : s1.last_constraint_index_ = s.last_constraint_index_ := by rw [← hs1]; rfl
    have e2 : s1.solver_ = s.solver_ := by rw [← hs1]; rfl
    rw [e1] at ht
    obtain ⟨h1, h2⟩ := ExtractNewConstraints_define_foldl_model
      (List.range' s.last_constraint_index_ (s.solver_.constraints_.length - s.last_constraint_index_))
      s1 0
    have key : t.solver_ = (List.foldl ExtractNewConstraints_define (s1, 0)
        (List.range' s.last_constraint_index_
          (s.solver_.constraints_.length - s.last_constraint_index_))).1.solver_ := by
      split at ht
      · split at ht
        · cases ht
          rfl
        · cases ht
      · cases ht
        exact (sameModel_foldl _ sameModel_ExtractNewConstraints_row _ _).solver
    rw [key, h1, h2, e2]
    refine ⟨?_, rfl⟩
    rw [foldl_modify_getElem? (fun k (ct : MPConstraint) => { ct with index := (k : Int) + 1 })
      (fun _ _ => rfl)]
    simp only [List.mem_range'_1]
    by_cases hj : i < s.solver_.constraints_.length
    · by_cases hl : s.last_constraint_index_ ≤ i
      · have : s.last_constraint_index_ ≤ i ∧ i < s.last_constraint_index_ +
            (s.solver_.constraints_.length - s.last_constraint_index_) := ⟨hl, by omega⟩
        simp [this, hl]
      · have : ¬ (s.last_constraint_index_ ≤ i ∧ i < s.last_constraint_index_ +
            (s.solver_.constraints_.length - s.last_constraint_index_)) := fun h => hl h.1
        simp [this, hl]
    · have hn : s.solver_.constraints_[i]? = none := by
        simp [List.getElem?_eq_none_iff]; omega
      simp [hn]
  · rename_i hge
    cases ht
    refine ⟨?_, rfl⟩
    by_cases hj : i < s.solver_.constraints_.length
    · have hl : ¬ s.last_constraint_index_ ≤ i := by omega
      simp [hl]
    · have hn : s.solver_.constraints_[i]? = none := by
        simp [List.getElem?_eq_none_iff]; omega
      simp [hn]

theorem indices_of_extracted {α : Type} (index : α → Int) (vs : List α)
    (h : ∀ (j : Nat) (x : α), vs[j]? = some x → index x = (j : Int) + 1) :
    vs.map index = (List.range vs.length).map (fun (j : Nat) => (j : Int) + 1) := by
  apply List.ext_getElem?
  intro j
  by_cases hj : j < vs.length
  · have hx : vs[j]? = some vs[j] := List.getElem?_eq_getElem hj
    simp [List.getElem?_range hj, hx, h j _ hx]
  · have hn : vs[j]? = none := by
      simp [List.getElem?_eq_none_iff]; omega
    have hr : (List.range vs.length)[j]? = none := by
      simp [List.getElem?_eq_none_iff]; omega
    simp [hn, hr]

theorem nodup_range_succ (n : Nat) :
    ((List.range n).map (fun (j : Nat) => (j : Int) + 1)).Nodup := by
  refine List.Nodup.map ?_ (List.nodup_range n)
  intro a b hab
  simp only at hab
  omega

theorem ExtractNewVariables_last (base : BaseClass) (s : GLPKInterface) :
    (ExtractNewVariables base s).last_variable_index_ = s.last_variable_index_ := by
  unfold ExtractNewVariables
  simp only []
  split
  · rw [(sameModel_ExtractOldConstraints base _).last_variable_index,
      (ExtractNewVariables_step_foldl _ _).2.2]
    rfl
  · rfl

theorem ExtractNewVariables_twice (base : BaseClass) (s : GLPKInterface) :
    (ExtractNewVariables base (ExtractNewVariables base s)).solver_.variables_ =
      (ExtractNewVariables base s).solver_.variables_ := by
  apply List.ext_getElem?
  intro j
  rw [(ExtractNewVariables_model base (ExtractNewVariables base s) j).1,
    ExtractNewVariables_last, (ExtractNewVariables_model base s j).1]
  cases s.solver_.variables_[j]? with
  | none => rfl
  | some var => by_cases hl : s.last_variable_index_ ≤ j <;> simp [hl]

theorem sameModel_ClearObjective (s : GLPKInterface) : SameModel s (ClearObjective s) := by
  unfold ClearObjective
  refine sameModel_trans ?_ (sameModel_of_call _ _)
  refine sameModel_trans (sameModel_InvalidateSolutionSynchronization s) ?_
  refine sameModel_foldl _ (fun u it => ?_) _ _
  unfold ClearObjective_step
  simp only []
  split
  · exact sameModel_refl u
  · exact sameModel_of_call _ _

theorem sameModel_SetCoefficient (base : BaseClass) (s : GLPKInterface) (ct : MPConstraint)
    (v : Nat) (new_value old_value : Double) :
    SameModel s (SetCoefficient base s ct v new_value old_value) := by
  unfold SetCoefficient
  refine sameModel_trans (sameModel_InvalidateSolutionSynchronization s) ?_
  simp only []
  split
  · exact sameModel_ExtractOneConstraint _ _
  · exact sameModel_refl _

theorem sameModel_ClearConstraint (s : GLPKInterface) (ct : MPConstraint) :
    SameModel s (ClearConstraint s ct) := by
  unfold ClearConstraint
  refine sameModel_trans (sameModel_InvalidateSolutionSynchronization s) ?_
  simp only []
  split
  · exact sameModel_of_call _ _
  · exact sameModel_refl _

/-- C6: backend indices are assigned by extraction only and are then stable.
`ExtractNewVariables` gives the variable at position `j` the index `j + 1` for every `j`
from `last_variable_index_` on and changes nothing else in the variable list;
`ExtractNewConstraints` always returns and does the same for constraints with
`last_constraint_index_`.  Hence, when the entities extracted earlier carry their index
(none, for a first extraction), the indices after extraction of `n` variables are
`1, ..., n`, pairwise distinct, and likewise for constraints.  Extracting again changes no
index: without new entities both methods leave the adapter as it is, a repeated
`ExtractNewVariables` keeps the variable list, and `ExtractModel` applied to its own result
is the identity.  The mutators of the adapter leave the model, hence every index, as it
is. -/
theorem C6_extraction_assigns_stable_indices (base : BaseClass) (s : GLPKInterface) :
    (∀ j : Nat, (ExtractNewVariables base s).solver_.variables_[j]? =
      s.solver_.variables_[j]?.map (fun var =>
        if s.last_variable_index_ ≤ j then { var with index := (j : Int) + 1 } else var)) ∧
    (∃ t, ExtractNewConstraints s = Outcome.ok t ∧
      (∀ i : Nat, t.solver_.constraints_[i]? =
        s.solver_.constraints_[i]?.map (fun ct =>
          if s.last_constraint_index_ ≤ i then { ct with index := (i : Int) + 1 } else ct)) ∧
      ((∀ (i : Nat) (ct : MPConstraint), i < s.last_constraint_index_ →
          s.solver_.constraints_[i]? = some ct → ct.index = (i : Int) + 1) →
        t.solver_.constraints_.map MPConstraint.index =
            (List.range s.solver_.constraints_.length).map (fun (i : Nat) => (i : Int) + 1) ∧
          (t.solver_.constraints_.map MPConstraint.index).Nodup)) ∧
    ((∀ (j : Nat) (var : MPVariable), j < s.last_variable_index_ →
        s.solver_.variables_[j]? = some var → var.index = (j : Int) + 1) →
      (ExtractNewVariables base s).solver_.variables_.map MPVariable.index =
          (List.range s.solver_.variables_.length).map (fun (j : Nat) => (j : Int) + 1) ∧
        ((ExtractNewVariables base s).solver_.variables_.map MPVariable.index).Nodup) ∧
    (ExtractNewVariables base (ExtractNewVariables base s)).solver_.variables_ =
      (ExtractNewVariables base s).solver_.variables_ ∧
    (s.last_variable_index_ = s.solver_.variables_.length → ExtractNewVariables base s = s) ∧
    (s.last_constraint_index_ = s.solver_.constraints_.length →
      ExtractNewConstraints s = Outcome.ok s) ∧
    (∀ t, ExtractModel base s = Outcome.ok t → ExtractModel base t = Outcome.ok t) ∧
    (∀ (i : Int) (lb ub : Double) (integer : Bool) (ct : MPConstraint) (v : Nat),
      (SetVariableBounds s i lb ub).solver_ = s.solver_ ∧
      (SetVariableInteger s i integer).solver_ = s.solver_ ∧
      (SetConstraintBounds s i lb ub).solver_ = s.solver_ ∧
      (SetCoefficient base s ct v lb ub).solver_ = s.solver_ ∧
      (ClearConstraint s ct).solver_ = s.solver_ ∧
      (SetObjectiveCoefficient s v lb).solver_ = s.solver_ ∧
      (SetObjectiveOffset s lb).solver_ = s.solver_ ∧
      (ClearObjective s).solver_ = s.solver_ ∧
      (AddVariable s).solver_ = s.solver_ ∧
      (AddRowConstraint s).solver_ = s.solver_) := by
  have hlenv : (ExtractNewVariables base s).solver_.variables_.length =
      s.solver_.variables_.length := by
    have := congrArg (fun m : MPSolver => m.variables_.length)
      (keeps_ExtractNewVariables base s).solver
    simpa [MPSolver.unindexed] using this
  refine ⟨fun j => (ExtractNewVariables_model base s j).1, ?_, ?_,
    ExtractNewVariables_twice base s, ?_, ?_, ?_, ?_⟩
  · obtain ⟨t, ht, hk⟩ := ExtractNewConstraints_returns s
    have hlen : t.solver_.constraints_.length = s.solver_.constraints_.length := by
      have := congrArg (fun m : MPSolver => m.constraints_.length) hk.solver
      simpa [MPSolver.unindexed] using this
    refine ⟨t, ht, fun i => (ExtractNewConstraints_model s t ht i).1, fun hold => ?_⟩
    have hall : t.solver_.constraints_.map MPConstraint.index =
        (List.range t.solver_.constraints_.length).map (fun (i : Nat) => (i : Int) + 1) := by
      refine indices_of_extracted MPConstraint.index _ (fun i ct hi => ?_)
      rw [(ExtractNewConstraints_model s t ht i).1] at hi
      cases hc : s.solver_.constraints_[i]? with
      | none => simp [hc] at hi
      | some c0 =>
        simp only [hc, Option.map_some', Option.some.injEq] at hi
        by_cases hl : s.last_constraint_index_ ≤ i
        · simp only [hl, if_true] at hi
          rw [← hi]
        · simp only [hl, if_false] at hi
          rw [← hi]
          exact hold i c0 (by omega) hc
    rw [hall, hlen]
    exact ⟨rfl, nodup_range_succ _⟩
  · intro hold
    have hall : (ExtractNewVariables base s).solver_.variables_.map MPVariable.index =
        (List.range (ExtractNewVariables base s).solver_.variables_.length).map
          (fun (j : Nat) => (j : Int) + 1) := by
      refine indices_of_extracted MPVariable.index _ (fun j var hj => ?_)
      rw [(ExtractNewVariables_model base s j).1] at hj
      cases hc : s.solver_.variables_[j]? with
      | none => simp [hc] at hj
      | some v0 =>
        simp only [hc, Option.map_some', Option.some.injEq] at hj
        by_cases hl : s.last_variable_index_ ≤ j
        · simp only [hl, if_true] at hj
          rw [← hj]
        · simp only [hl, if_false] at hj
          rw [← hj]
          exact hold j v0 (by omega) hc
    rw [hall, hlenv]
    exact ⟨rfl, nodup_range_succ _⟩
  · intro h
    simp [ExtractNewVariables, h]
  · intro h
    simp [ExtractNewConstraints, h]
  · intro t ht
    unfold ExtractModel at ht
    split at ht
    · obtain ⟨u, hu, -⟩ := ExtractNewConstraints_returns (ExtractNewVariables base s)
      simp only [hu, Outcome.bind, Outcome.ok.injEq] at ht
      subst ht
      rfl
    · rename_i hs
      cases ht
      simp [ExtractModel, hs]
    · rename_i hs
      cases ht
      simp [ExtractModel, hs]
  · intro i lb ub integer ct v
    exact ⟨(sameModel_SetVariableBounds s i lb ub).solver,
      (sameModel_SetVariableInteger s i integer).solver,
      (sameModel_SetConstraintBounds s i lb ub).solver,
      (sameModel_SetCoefficient base s ct v lb ub).solver,
      (sameModel_ClearConstraint s ct).solver, rfl, rfl,
      (sameModel_ClearObjective s).solver, rfl, rfl⟩

/-- C6, at a concrete model: the first extraction of the model of `fresh` gives its
variable index `1` and its constraint index `1`. -/
theorem C6_extraction_assigns_stable_indices_witness :
    (ExtractNewVariables base0 (fresh false)).solver_.variables_.map MPVariable.index = [1] ∧
      (ExtractNewConstraints (fresh false)).get?.map
        (fun t => t.solver_.constraints_.map MPConstraint.index) = some [1] ∧
      ((ExtractNewVariables base0 (fresh false)).solver_.variables_.map MPVariable.index).Nodup :=
  ⟨by decide, by decide,
    ((C6_extraction_assigns_stable_indices base0 (fresh false)).2.2.1
      (fun j var hj => absurd hj (Nat.not_lt_zero j))).2⟩

theorem glp_get_obj_coef_append (l cs : List GlpCall) (j : Int) :
    glp_get_obj_coef (l ++ cs) j =
      cs.foldl (fun (cur : Double) (c : GlpCall) =>
        match c with
        | GlpCall.set_obj_coef i coef => if i = j then coef else cur
        | _ => cur) (glp_get_obj_coef l j) := by
  simp [glp_get_obj_coef, List.foldl_append]

theorem glp_get_obj_coef_zeroed (cs : List GlpCall) (j : Int)
    (hz : ∀ c ∈ cs, ∀ i v, c = GlpCall.set_obj_coef i v → v = 0)
    (hj : GlpCall.set_obj_coef j 0 ∈ cs) (init : Double) :
    cs.foldl (fun (cur : Double) (c : GlpCall) =>
        match c with
        | GlpCall.set_obj_coef i coef => if i = j then coef else cur
        | _ => cur) init = 0 := by
  induction cs using List.reverseRecOn with
  | nil => simp at hj
  | append_singleton cs c ih =>
    rw [List.foldl_append]
    simp only [List.foldl_cons, List.foldl_nil]
    have hc := hz c (by simp)
    cases c with
    | set_obj_coef i v =>
      have hv : v = 0 := hc i v rfl
      subst hv
      by_cases hi : i = j
      · simp [hi]
      · simp only [hi, if_false]
        refine ih (fun c hc => hz c (by simp [hc])) ?_
        rcases List.mem_append.1 hj with h | h
        · exact h
        · simp only [List.mem_singleton, GlpCall.set_obj_coef.injEq] at h
          exact absurd h.1.symm hi
    | _ =>
      refine ih (fun c hc => hz c (by simp [hc])) ?_
      rcases List.mem_append.1 hj with h | h
      · exact h
      · simp at h

theorem ClearObjective_step_foldl (l : List (Nat × Double)) (s : GLPKInterface) :
    (l.foldl ClearObjective_step s).lp_ =
      s.lp_ ++ l.filterMap (fun it =>
        if s.index_of it.1 = kNoIndex then none
        else some (GlpCall.set_obj_coef (s.index_of it.1) 0)) := by
  induction l generalizing s with
  | nil => simp
  | cons it l ih =>
    have hidx : ∀ pos, (ClearObjective_step s it).index_of pos = s.index_of pos := by
      intro pos
      unfold ClearObjective_step
      simp only []
      split <;> rfl
    rw [List.foldl_cons, ih]
    simp only [hidx, List.filterMap_cons]
    unfold ClearObjective_step
    simp only []
    split <;> simp [GLPKInterface.call]

theorem ClearObjective_lp (s : GLPKInterface) :
    (ClearObjective s).lp_ =
      s.lp_ ++ (s.solver_.objective_.coefficients_.filterMap (fun it =>
        if s.index_of it.1 = kNoIndex then none
        else some (GlpCall.set_obj_coef (s.index_of it.1) 0)) ++ [GlpCall.set_obj_coef 0 0]) := by
  have h1 : (InvalidateSolutionSynchronization s).lp_ = s.lp_ := by
    unfold InvalidateSolutionSynchronization
    split <;> rfl
  have h2 : (InvalidateSolutionSynchronization s).solver_ = s.solver_ :=
    (sameModel_InvalidateSolutionSynchronization s).solver
  have h3 : ∀ pos, (InvalidateSolutionSynchronization s).index_of pos = s.index_of pos := by
    intro pos
    simp [GLPKInterface.index_of, h2]
  unfold ClearObjective
  simp only [GLPKInterface.call, ClearObjective_step_foldl, h1, h2, h3, List.append_assoc]

theorem ClearObjective_sync (s : GLPKInterface) :
    (ClearObjective s).sync_status_ = (InvalidateSolutionSynchronization s).sync_status_ := by
  have key : ∀ (l : List (Nat × Double)) (u : GLPKInterface),
      (l.foldl ClearObjective_step u).sync_status_ = u.sync_status_ := by
    intro l
    induction l with
    | nil => intro u; rfl
    | cons it l ih =>
      intro u
      rw [List.foldl_cons, ih]
      unfold ClearObjective_step
      simp only []
      split <;> rfl
  unfold ClearObjective
  simp only [GLPKInterface.call, key]

theorem SetParameters_lp (s : GLPKInterface) (param : MPSolverParameters) :
    (SetParameters s param).lp_ = s.lp_ := by
  simp only [SetParameters, SetCommonParameters, SetMIPParameters, SetRelativeMipGap,
    SetLpAlgorithm, SetPresolveMode, SetDualTolerance, SetPrimalTolerance,
    SetIntegerParamToUnsupportedValue]
  split_ifs <;> rfl

theorem ConfigureGLPKParameters_lp (s : GLPKInterface) (param : MPSolverParameters) :
    (ConfigureGLPKParameters s param).lp_ =
      s.lp_ ++ [GlpCall.scale_prob GLP_SF_AUTO, GlpCall.adv_basis] := by
  unfold ConfigureGLPKParameters
  simp only [SetParameters_lp, GLPKInterface.call, List.append_assoc, List.singleton_append]
  split_ifs <;> rfl

theorem glp_get_obj_coef_append_other (l cs : List GlpCall) (j : Int)
    (h : ∀ c ∈ cs, ∀ i v, c ≠ GlpCall.set_obj_coef i v) :
    glp_get_obj_coef (l ++ cs) j = glp_get_obj_coef l j := by
  rw [glp_get_obj_coef_append]
  generalize glp_get_obj_coef l j = init
  induction cs generalizing init with
  | nil => rfl
  | cons c cs ih =>
    rw [List.foldl_cons]
    have hc := h c (by simp)
    have ih2 := ih (fun c hm => h c (by simp [hm]))
    cases c with
    | set_obj_coef i v => exact absurd rfl (hc i v)
    | _ => exact ih2 _

theorem Solve_results_frame (v : GLPKInterface) (glpk : Glpk) :
    (Solve_results v glpk).1.lp_ = v.lp_ ∧
      (Solve_results v glpk).1.solver_.objective_ = v.solver_.objective_ ∧
      (Solve_results v glpk).1.objective_value_ =
        (if v.mip_ then glpk.glp_mip_obj_val else glpk.glp_get_obj_val) := by
  cases hv : v.mip_ <;> simp [Solve_results, hv]

/-- The second part of `Solve`: after the setup the only further calls are `glp_simplex`
and possibly `glp_intopt`, and the objective of the model is not touched. -/
theorem Solve_after_setup {base : BaseClass} {s u : GLPKInterface} {param : MPSolverParameters}
    (glpk : Glpk) (hu : Solve_setup base s param = Outcome.ok u) :
    ∃ t r tail, Solve base s param glpk = Outcome.ok (t, r) ∧ t.lp_ = u.lp_ ++ tail ∧
      (∀ c ∈ tail, c = GlpCall.simplex ∨ c = GlpCall.intopt) ∧
      t.solver_.objective_ = u.solver_.objective_ ∧
      t.objective_value_ =
        (if u.mip_ then (if glpk.glp_simplex = 0 then glpk.glp_mip_obj_val else u.objective_value_)
          else glpk.glp_get_obj_val) := by
  cases hm : u.mip_ with
  | false =>
    rw [Solve_of_lp glpk hu hm]
    obtain ⟨h1, h2, h3⟩ := Solve_results_frame (u.call GlpCall.simplex) glpk
    refine ⟨(Solve_results (u.call GlpCall.simplex) glpk).1,
      (Solve_results (u.call GlpCall.simplex) glpk).2, [GlpCall.simplex], rfl, h1, by simp, h2, ?_⟩
    rw [h3]
    simp [GLPKInterface.call, hm]
  | true =>
    by_cases hs : glpk.glp_simplex = 0
    · rw [Solve_of_mip_root_ok glpk hu hm hs]
      generalize hv : ({ (u.call GlpCall.simplex).call GlpCall.intopt with
        mip_callback_info_ := glpk.glp_intopt_callbacks.foldl GLPKGatherInformationCallback
          u.mip_callback_info_ } : GLPKInterface) = v
      have hvm : v.mip_ = true := by rw [← hv]; exact hm
      have hvl : v.lp_ = u.lp_ ++ [GlpCall.simplex, GlpCall.intopt] := by
        rw [← hv]; simp [GLPKInterface.call]
      have hvo : v.solver_ = u.solver_ := by rw [← hv]; rfl
      obtain ⟨h1, h2, h3⟩ := Solve_results_frame v glpk
      refine ⟨(Solve_results v glpk).1, (Solve_results v glpk).2,
        [GlpCall.simplex, GlpCall.intopt], rfl, h1.trans hvl, by simp, ?_, ?_⟩
      · rw [h2, hvo]
      · rw [h3]
        simp [hvm, hs]
    · rw [Solve_of_mip_root_failed glpk hu hm hs]
      exact ⟨_, _, [GlpCall.simplex], rfl, rfl, by simp, rfl, by simp [hs, GLPKInterface.call]⟩

theorem keeps_objective {s t : GLPKInterface} (h : Keeps s t) :
    t.solver_.objective_ = s.solver_.objective_ := by
  have := congrArg (fun m : MPSolver => m.objective_) h.solver
  exact this

theorem Solve_setup_incremental (base : BaseClass) (s : GLPKInterface)
    (param : MPSolverParameters)
    (hsync : s.sync_status_ ≠ SynchronizationStatus.MUST_RELOAD)
    (hinc : param.INCREMENTALITY ≠ INCREMENTALITY_OFF) :
    ∃ u flag, Solve_setup base s param = Outcome.ok u ∧
      u.lp_ = s.lp_ ++ [GlpCall.term_out flag, GlpCall.scale_prob GLP_SF_AUTO, GlpCall.adv_basis] ∧
      u.mip_ = s.mip_ ∧ u.objective_value_ = s.objective_value_ := by
  have hex : ∀ v : GLPKInterface, v.sync_status_ = s.sync_status_ →
      ExtractModel base v = Outcome.ok v := by
    intro v hv
    unfold ExtractModel
    rw [hv]
    cases hs : s.sync_status_ with
    | MUST_RELOAD => exact absurd hs hsync
    | MODEL_SYNCHRONIZED => rfl
    | SOLUTION_SYNCHRONIZED => rfl
  have hk := fun v => keeps_ConfigureGLPKParameters v param
  unfold Solve_setup
  simp only [hinc, if_false]
  cases hq : s.quiet_ with
  | true =>
    simp only [if_true]
    rw [hex (s.call (GlpCall.term_out GLP_OFF)) rfl]
    simp only [Outcome.bind]
    refine ⟨ConfigureGLPKParameters (s.call (GlpCall.term_out GLP_OFF)) param, GLP_OFF, rfl, ?_,
      (hk _).mip, (hk _).objective_value⟩
    rw [ConfigureGLPKParameters_lp]
    simp [GLPKInterface.call]
  | false =>
    simp only [Bool.false_eq_true, if_false]
    rw [hex (s.call (GlpCall.term_out GLP_ON)) rfl]
    simp only [Outcome.bind]
    refine ⟨ConfigureGLPKParameters (s.call (GlpCall.term_out GLP_ON)) param, GLP_ON, rfl, ?_,
      (hk _).mip, (hk _).objective_value⟩
    rw [ConfigureGLPKParameters_lp]
    simp [GLPKInterface.call]

theorem ExtractObjective_lp (s : GLPKInterface) :
    ∃ pre, (ExtractObjective s).lp_ =
      pre ++ [GlpCall.set_obj_coef 0 s.solver_.objective_.offset] := by
  unfold ExtractObjective
  have h := (sameModel_foldl ExtractObjective_step (fun u it => sameModel_of_call _ _)
    s.solver_.objective_.coefficients_ s).solver
  refine ⟨(List.foldl ExtractObjective_step s s.solver_.objective_.coefficients_).lp_, ?_⟩
  simp only [GLPKInterface.call, h]

theorem Solve_setup_reload (base : BaseClass) (s : GLPKInterface) (param : MPSolverParameters)
    (h : s.sync_status_ = SynchronizationStatus.MUST_RELOAD ∨
      param.INCREMENTALITY = INCREMENTALITY_OFF) :
    ∃ u pre, Solve_setup base s param = Outcome.ok u ∧
      u.lp_ = pre ++ [GlpCall.set_obj_coef 0 s.solver_.objective_.offset,
        GlpCall.scale_prob GLP_SF_AUTO, GlpCall.adv_basis] := by
  unfold Solve_setup
  simp only []
  generalize hs0 : (if param.INCREMENTALITY = INCREMENTALITY_OFF then Reset s else s) = s0
  have h0 : s0.sync_status_ = SynchronizationStatus.MUST_RELOAD ∧
      s0.solver_.objective_ = s.solver_.objective_ := by
    rw [← hs0]
    split
    · exact ⟨rfl, rfl⟩
    · rename_i hne
      rcases h with h | h
      · exact ⟨h, rfl⟩
      · exact absurd h hne
  generalize hs1 : (if s0.quiet_ then s0.call (GlpCall.term_out GLP_OFF)
    else s0.call (GlpCall.term_out GLP_ON)) = s1
  have h1 : s1.sync_status_ = SynchronizationStatus.MUST_RELOAD ∧
      s1.solver_.objective_ = s.solver_.objective_ := by
    rw [← hs1]
    split <;> exact h0
  obtain ⟨t, ht, hk⟩ := ExtractNewConstraints_returns (ExtractNewVariables base s1)
  have hobj : t.solver_.objective_ = s.solver_.objective_ :=
    (keeps_objective (keeps_trans (keeps_ExtractNewVariables base s1) hk)).trans h1.2
  obtain ⟨pre, hpre⟩ := ExtractObjective_lp t
  unfold ExtractModel
  simp only [h1.1, ht, Outcome.bind]
  refine ⟨_, pre, rfl, ?_⟩
  rw [ConfigureGLPKParameters_lp]
  simp only [hpre, hobj, List.append_assoc, List.singleton_append]

/-- C8, refuted as stated: on a solved model with objective offset `5`, `ClearObjective`
followed by a solve leaves GLPK with constant term `0` (and coefficient `0` on column `1`),
while the offset retained by the model is still `5`. -/
theorem C8_counterexample :
    (ClearObjective (solved false)).solver_.objective_.offset = 5 ∧
      (Solve base0 (ClearObjective (solved false)) param0 (glpk0 0 GLP_OPT GLP_OPT 0)).get?.map
        (fun r => (glp_get_obj_coef r.1.lp_ 0, glp_get_obj_coef r.1.lp_ 1,
          r.1.solver_.objective_.offset)) = some (0, 0, 5) := by
  decide

/-- C8, amended: `ClearObjective` sets to `0`, in the objective GLPK holds, the constant
term and the coefficient of every extracted variable of the objective; it leaves the model
(its offset included) as it is and does not request a reload.  The next solve always
returns and keeps the model's offset.  It re-sends the objective only when the status was
already `MUST_RELOAD` (or the solve is not incremental): then the constant term GLPK holds
is the model's offset.  Otherwise the solve sends no objective coefficient at all, so GLPK
still holds the cleared objective, constant term `0`, whatever the model's offset.  The
objective value stored by a continuous solve is the one GLPK reports. -/
theorem C8_clear_objective_zeroes_backend_constant (base : BaseClass) (s : GLPKInterface)
    (param : MPSolverParameters) (glpk : Glpk) :
    glp_get_obj_coef (ClearObjective s).lp_ 0 = 0 ∧
    (∀ it ∈ s.solver_.objective_.coefficients_, s.index_of it.1 ≠ kNoIndex →
      glp_get_obj_coef (ClearObjective s).lp_ (s.index_of it.1) = 0) ∧
    (ClearObjective s).solver_ = s.solver_ ∧
    (ClearObjective s).sync_status_ = (InvalidateSolutionSynchronization s).sync_status_ ∧
    (s.sync_status_ ≠ SynchronizationStatus.MUST_RELOAD →
      (ClearObjective s).sync_status_ ≠ SynchronizationStatus.MUST_RELOAD) ∧
    ∃ t r, Solve base (ClearObjective s) param glpk = Outcome.ok (t, r) ∧
      t.solver_.objective_.offset = s.solver_.objective_.offset ∧
      (s.sync_status_ ≠ SynchronizationStatus.MUST_RELOAD →
        param.INCREMENTALITY ≠ INCREMENTALITY_OFF →
        (∀ j, glp_get_obj_coef t.lp_ j = glp_get_obj_coef (ClearObjective s).lp_ j) ∧
          glp_get_obj_coef t.lp_ 0 = 0) ∧
      (s.sync_status_ = SynchronizationStatus.MUST_RELOAD ∨
          param.INCREMENTALITY = INCREMENTALITY_OFF →
        glp_get_obj_coef t.lp_ 0 = s.solver_.objective_.offset) ∧
      (s.mip_ = false → t.objective_value_ = glpk.glp_get_obj_val) := by
  have hzero : ∀ j, GlpCall.set_obj_coef j 0 ∈
      (s.solver_.objective_.coefficients_.filterMap (fun it =>
        if s.index_of it.1 = kNoIndex then none
        else some (GlpCall.set_obj_coef (s.index_of it.1) 0)) ++ [GlpCall.set_obj_coef 0 0]) →
      glp_get_obj_coef (ClearObjective s).lp_ j = 0 := by
    intro j hj
    rw [ClearObjective_lp, glp_get_obj_coef_append]
    refine glp_get_obj_coef_zeroed _ j (fun c hc i v hcv => ?_) hj _
    subst hcv
    rcases List.mem_append.1 hc with h | h
    · obtain ⟨it, -, hit⟩ := List.mem_filterMap.1 h
      split at hit
      · cases hit
      · simp only [Option.some.injEq, GlpCall.set_obj_coef.injEq] at hit
        exact hit.2.symm
    · simp only [List.mem_singleton, GlpCall.set_obj_coef.injEq] at h
      exact h.2
  have hconst : glp_get_obj_coef (ClearObjective s).lp_ 0 = 0 := hzero 0 (by simp)
  have hsync := ClearObjective_sync s
  have hkeep : (s.sync_status_ ≠ SynchronizationStatus.MUST_RELOAD →
      (ClearObjective s).sync_status_ ≠ SynchronizationStatus.MUST_RELOAD) := by
    intro hs
    rw [hsync]
    unfold InvalidateSolutionSynchronization
    split
    · simp
    · exact hs
  have hmodel := sameModel_ClearObjective s
  refine ⟨hconst, ?_, hmodel.solver, hsync, hkeep, ?_⟩
  · intro it hit hidx
    refine hzero _ (List.mem_append_left _ (List.mem_filterMap.2 ⟨it, hit, ?_⟩))
    simp [hidx]
  · obtain ⟨u, hu, hsol, hm, -⟩ := Solve_setup_returns base (ClearObjective s) param
    obtain ⟨t, r, tail, ht, hlp, htail, hobj, hval⟩ := Solve_after_setup glpk hu
    have hother : ∀ c ∈ tail, ∀ i v, c ≠ GlpCall.set_obj_coef i v := by
      intro c hc i v hcv
      rcases htail c hc with h | h <;> rw [h] at hcv <;> cases hcv
    have hoff : t.solver_.objective_ = s.solver_.objective_ := by
      rw [hobj]
      have h1 : u.solver_.objective_ = (ClearObjective s).solver_.objective_ := by
        have := congrArg (fun m : MPSolver => m.objective_) hsol
        exact this
      rw [h1, hmodel.solver]
    refine ⟨t, r, ht, by rw [hoff], ?_, ?_, ?_⟩
    · intro hs hinc
      obtain ⟨u2, flag, hu2, hlp2, -⟩ :=
        Solve_setup_incremental base (ClearObjective s) param (hkeep hs) hinc
      have hu_eq : u = u2 := by
        rw [hu] at hu2
        exact Outcome.ok.inj hu2
      have hall : ∀ j, glp_get_obj_coef t.lp_ j = glp_get_obj_coef (ClearObjective s).lp_ j := by
        intro j
        rw [hlp, glp_get_obj_coef_append_other _ _ _ hother, hu_eq, hlp2]
        refine glp_get_obj_coef_append_other _ _ _ (fun c hc i v hcv => ?_)
        simp only [List.mem_cons, List.mem_singleton, List.not_mem_nil, or_false] at hc
        rcases hc with h | h | h <;> rw [h] at hcv <;> cases hcv
      exact ⟨hall, (hall 0).trans hconst⟩
    · intro hre
      have hre2 : (ClearObjective s).sync_status_ = SynchronizationStatus.MUST_RELOAD ∨
          param.INCREMENTALITY = INCREMENTALITY_OFF := by
        rcases hre with h | h
        · left
          rw [hsync]
          simp [InvalidateSolutionSynchronization, h]
        · exact Or.inr h
      obtain ⟨u2, pre, hu2, hlp2⟩ := Solve_setup_reload base (ClearObjective s) param hre2
      have hu_eq : u = u2 := by
        rw [hu] at hu2
        exact Outcome.ok.inj hu2
      rw [hlp, glp_get_obj_coef_append_other _ _ _ hother, hu_eq, hlp2, hmodel.solver,
        glp_get_obj_coef_append]
      simp
    · intro hlpk
      rw [hval]
      have : u.mip_ = false := by rw [hm, hmodel.mip, hlpk]
      simp [this]

/-! ## Parameters, basis status, callback, bound kinds -/

/-- C11: `SetLpAlgorithm` sets the LP method of `lp_param_` to the primal simplex
(`GLP_PRIMAL`) for `PRIMAL` and to the dual simplex (`GLP_DUALP`) for `DUAL`, touching
nothing else and reporting nothing.  For every other value, `BARRIER` included, it is
exactly `SetIntegerParamToUnsupportedValue(LP_ALGORITHM, value)`: the value is reported
and `lp_param_` (its method field in particular) is left as it was.  So for no value is
the method changed to something other than what the value asks for. -/
theorem C11_lp_algorithm_set_or_reported (s : GLPKInterface) (value : Int) :
    (value = LP_PRIMAL →
      SetLpAlgorithm s value = { s with lp_param_ := { s.lp_param_ with meth := GLP_PRIMAL } } ∧
      (SetLpAlgorithm s value).lp_param_.meth = GLP_PRIMAL ∧
      (SetLpAlgorithm s value).unsupported_ = s.unsupported_) ∧
    (value = LP_DUAL →
      SetLpAlgorithm s value = { s with lp_param_ := { s.lp_param_ with meth := GLP_DUALP } } ∧
      (SetLpAlgorithm s value).lp_param_.meth = GLP_DUALP ∧
      (SetLpAlgorithm s value).unsupported_ = s.unsupported_) ∧
    (value ≠ LP_PRIMAL → value ≠ LP_DUAL →
      SetLpAlgorithm s value =
        SetIntegerParamToUnsupportedValue s IntegerParam.LP_ALGORITHM value ∧
      (SetLpAlgorithm s value).lp_param_ = s.lp_param_ ∧
      (SetLpAlgorithm s value).lp_param_.meth = s.lp_param_.meth ∧
      (SetLpAlgorithm s value).unsupported_ =
        s.unsupported_ ++ [(IntegerParam.LP_ALGORITHM, value)]) ∧
    (SetLpAlgorithm s LP_BARRIER).lp_param_.meth = s.lp_param_.meth ∧
    (SetLpAlgorithm s LP_BARRIER).unsupported_ =
      s.unsupported_ ++ [(IntegerParam.LP_ALGORITHM, LP_BARRIER)] ∧
    ((SetLpAlgorithm s value).lp_param_.meth ≠ s.lp_param_.meth →
      (value = LP_PRIMAL ∧ (SetLpAlgorithm s value).lp_param_.meth = GLP_PRIMAL) ∨
      (value = LP_DUAL ∧ (SetLpAlgorithm s value).lp_param_.meth = GLP_DUALP)) := by
  refine ⟨?_, ?_, ?_, ?_, ?_, ?_⟩
  · intro h
    subst h
    simp [SetLpAlgorithm, LP_PRIMAL, LP_DUAL]
  · intro h
    subst h
    simp [SetLpAlgorithm]
  · intro h1 h2
    simp [SetLpAlgorithm, h1, h2, SetIntegerParamToUnsupportedValue]
  · simp [SetLpAlgorithm, LP_BARRIER, LP_PRIMAL, LP_DUAL, SetIntegerParamToUnsupportedValue]
  · simp [SetLpAlgorithm, LP_BARRIER, LP_PRIMAL, LP_DUAL, SetIntegerParamToUnsupportedValue]
  · intro h
    by_cases h2 : value = LP_DUAL
    · right
      subst h2
      simp [SetLpAlgorithm]
    · by_cases h1 : value = LP_PRIMAL
      · left
        subst h1
        simp [SetLpAlgorithm, LP_PRIMAL, LP_DUAL]
      · exfalso
        apply h
        simp [SetLpAlgorithm, h1, h2, SetIntegerParamToUnsupportedValue]

/-- C12: `TransformGLPKBasisStatus` maps `GLP_BS`, `GLP_NL`, `GLP_NU`, `GLP_NF`, `GLP_NS`
to `BASIC`, `AT_LOWER_BOUND`, `AT_UPPER_BOUND`, `FREE`, `FIXED_VALUE`; it stops the
process on every other code; two codes with the same status are equal and every status is
reached; `row_status(i)` and `column_status(j)` are the transform of the status GLPK
answers for row `i`, respectively column `j`. -/
theorem C12_basis_status_translation (s : GLPKInterface) (glpk : Glpk) :
    TransformGLPKBasisStatus GLP_BS = Outcome.ok BasisStatus.BASIC ∧
    TransformGLPKBasisStatus GLP_NL = Outcome.ok BasisStatus.AT_LOWER_BOUND ∧
    TransformGLPKBasisStatus GLP_NU = Outcome.ok BasisStatus.AT_UPPER_BOUND ∧
    TransformGLPKBasisStatus GLP_NF = Outcome.ok BasisStatus.FREE ∧
    TransformGLPKBasisStatus GLP_NS = Outcome.ok BasisStatus.FIXED_VALUE ∧
    (∀ c : Int, c ≠ GLP_BS → c ≠ GLP_NL → c ≠ GLP_NU → c ≠ GLP_NF → c ≠ GLP_NS →
      TransformGLPKBasisStatus c = Outcome.fatal "Unknown GLPK basis status") ∧
    (∀ (c d : Int) (b : BasisStatus), TransformGLPKBasisStatus c = Outcome.ok b →
      TransformGLPKBasisStatus d = Outcome.ok b → c = d) ∧
    (∀ b : BasisStatus, ∃ c : Int, TransformGLPKBasisStatus c = Outcome.ok b) ∧
    (∀ i : Int, row_status s glpk i = TransformGLPKBasisStatus (glpk.glp_get_row_stat i)) ∧
    (∀ j : Int, column_status s glpk j = TransformGLPKBasisStatus (glpk.glp_get_col_stat j)) := by
  refine ⟨by decide, by decide, by decide, by decide, by decide, ?_, ?_, ?_,
    fun _ => rfl, fun _ => rfl⟩
  · intro c h1 h2 h3 h4 h5
    simp [TransformGLPKBasisStatus, h1, h2, h3, h4, h5]
  · intro c d b hc hd
    unfold TransformGLPKBasisStatus at hc hd
    split_ifs at hc hd <;> cases hc <;> cases hd <;> simp_all
  · intro b
    cases b
    · exact ⟨GLP_NF, by decide⟩
    · exact ⟨GLP_NL, by decide⟩
    · exact ⟨GLP_NU, by decide⟩
    · exact ⟨GLP_NS, by decide⟩
    · exact ⟨GLP_BS, by decide⟩

/-- C15: `GLPKGatherInformationCallback` leaves the recorded node count and best bound as
they are for every reason other than `GLP_ISELECT`, `GLP_IROWGEN` and `GLP_IBINGO`.  For
those three the node count becomes the total node count of the tree, and the best bound
becomes the bound of the best node when the best node id is greater than `0` and is
otherwise unchanged. -/
theorem C15_callback_frame (glpk_info : GLPKInformation) (tree : glp_tree) :
    (tree.glp_ios_reason ≠ GLP_ISELECT → tree.glp_ios_reason ≠ GLP_IROWGEN →
      tree.glp_ios_reason ≠ GLP_IBINGO →
      GLPKGatherInformationCallback glpk_info tree = glpk_info) ∧
    (tree.glp_ios_reason = GLP_ISELECT ∨ tree.glp_ios_reason = GLP_IROWGEN ∨
        tree.glp_ios_reason = GLP_IBINGO →
      (GLPKGatherInformationCallback glpk_info tree).num_all_nodes_ = tree.total_node_count ∧
      (tree.glp_ios_best_node > 0 →
        (GLPKGatherInformationCallback glpk_info tree).best_objective_bound_ =
          tree.glp_ios_node_bound tree.glp_ios_best_node) ∧
      (¬ tree.glp_ios_best_node > 0 →
        (GLPKGatherInformationCallback glpk_info tree).best_objective_bound_ =
          glpk_info.best_objective_bound_)) := by
  constructor
  · intro h1 h2 h3
    simp [GLPKGatherInformationCallback, h1, h2, h3]
  · intro h
    refine ⟨?_, ?_, ?_⟩
    · unfold GLPKGatherInformationCallback
      simp only [h, if_true]
      split <;> rfl
    · intro hb
      simp [GLPKGatherInformationCallback, h, hb]
    · intro hb
      simp [GLPKGatherInformationCallback, h, hb]

theorem double_ne_ninf (x : Double) :
    Double.ne x (Double.neg MPSolver.infinity) = true ↔ x ≠ Double.ninf := by
  cases x <;> simp [Double.ne, Double.eq, Double.neg, MPSolver.infinity]

theorem double_ne_pinf (x : Double) :
    Double.ne x MPSolver.infinity = true ↔ x ≠ Double.pinf := by
  cases x <;> simp [Double.ne, Double.eq, MPSolver.infinity]

theorem double_eq_iff (x y : Double) (hx : x ≠ Double.nan) (hy : y ≠ Double.nan) :
    Double.eq x y = true ↔ x = y := by
  cases x <;> cases y <;> simp_all [Double.eq]

theorem double_eq_of_lt (x y : Double) (h : Double.lt y x = true) : Double.eq x y = false := by
  cases x <;> cases y <;> simp_all [Double.eq, Double.lt]
  rename_i p q
  intro hpq
  rw [hpq] at h
  exact lt_irrefl _ h

theorem invalidate_lp (s : GLPKInterface) : (InvalidateSolutionSynchronization s).lp_ = s.lp_ := by
  unfold InvalidateSolutionSynchronization
  split <;> rfl

/-- C17: for every extracted index and every pair of bounds, `SetVariableBounds` sends
exactly one `glp_set_col_bnds` call whose kind and values follow this table, whose five
cases are exclusive and cover all pairs: `GLP_FX (lb, ub)` when `lb` is not `-infinity`,
`ub` is not `+infinity` and `lb == ub`; `GLP_DB (lb, ub)` when neither is its sentinel and
`lb == ub` is false (in particular when `ub < lb`); `GLP_LO (lb, 0)` when only `ub` is
`+infinity`; `GLP_UP (0, ub)` when only `lb` is `-infinity`; `GLP_FR (0, 0)` when both are
sentinels.  The bounds GLPK then holds are the original pair, and `SetConstraintBounds`
sends the same kind and values with `glp_set_row_bnds`.  Here `==` is the comparison of
doubles, which is equality for values that are not NaN. -/
theorem C17_bound_kind_table (s : GLPKInterface) (index : Int) (lb ub : Double)
    (hidx : index ≠ kNoIndex) :
    ∃ kind l u,
      (SetVariableBounds s index lb ub).lp_ = s.lp_ ++ [GlpCall.set_col_bnds index kind l u] ∧
      (SetConstraintBounds s index lb ub).lp_ = s.lp_ ++ [GlpCall.set_row_bnds index kind l u] ∧
      (lb ≠ Double.ninf → ub ≠ Double.pinf → Double.eq lb ub = true →
        kind = GLP_FX ∧ l = lb ∧ u = ub) ∧
      (lb ≠ Double.ninf → ub ≠ Double.pinf → Double.eq lb ub = false →
        kind = GLP_DB ∧ l = lb ∧ u = ub) ∧
      (lb ≠ Double.ninf → ub ≠ Double.pinf → Double.lt ub lb = true →
        kind = GLP_DB ∧ l = lb ∧ u = ub) ∧
      (lb ≠ Double.ninf → ub = Double.pinf → kind = GLP_LO ∧ l = lb ∧ u = 0) ∧
      (lb = Double.ninf → ub ≠ Double.pinf → kind = GLP_UP ∧ l = 0 ∧ u = ub) ∧
      (lb = Double.ninf → ub = Double.pinf → kind = GLP_FR ∧ l = 0 ∧ u = 0) ∧
      glp_bounds kind l u = (lb, ub) ∧
      (lb ≠ Double.nan → ub ≠ Double.nan → (Double.eq lb ub = true ↔ lb = ub)) := by
  have hlp := invalidate_lp s
  by_cases h1 : lb = Double.ninf
  · by_cases h2 : ub = Double.pinf
    · refine ⟨GLP_FR, 0, 0, ?_, ?_, ?_⟩
      · simp [SetVariableBounds, hidx, double_ne_ninf, double_ne_pinf, h1, h2,
          GLPKInterface.call, hlp]
      · simp [SetConstraintBounds, hidx, double_ne_ninf, double_ne_pinf, h1, h2,
          GLPKInterface.call, hlp]
      · refine ⟨fun h => absurd h1 h, fun h => absurd h1 h, fun h => absurd h1 h,
          fun h => absurd h1 h, fun _ h => absurd h2 h, fun _ _ => ⟨rfl, rfl, rfl⟩, ?_,
          fun ha hb => double_eq_iff lb ub ha hb⟩
        subst h1 h2
        decide
    · refine ⟨GLP_UP, 0, ub, ?_, ?_, ?_⟩
      · simp [SetVariableBounds, hidx, double_ne_ninf, double_ne_pinf, h1, h2,
          GLPKInterface.call, hlp]
      · simp [SetConstraintBounds, hidx, double_ne_ninf, double_ne_pinf, h1, h2,
          GLPKInterface.call, hlp]
      · refine ⟨fun h => absurd h1 h, fun h => absurd h1 h, fun h => absurd h1 h,
          fun h => absurd h1 h, fun _ _ => ⟨rfl, rfl, rfl⟩, fun _ h => absurd h h2, ?_,
          fun ha hb => double_eq_iff lb ub ha hb⟩
        subst h1
        simp [glp_bounds, GLP_UP, GLP_FX, GLP_DB, GLP_LO, Double.neg, MPSolver.infinity]
  · by_cases h2 : ub = Double.pinf
    · refine ⟨GLP_LO, lb, 0, ?_, ?_, ?_⟩
      · simp [SetVariableBounds, hidx, double_ne_ninf, double_ne_pinf, h1, h2,
          GLPKInterface.call, hlp]
      · simp [SetConstraintBounds, hidx, double_ne_ninf, double_ne_pinf, h1, h2,
          GLPKInterface.call, hlp]
      · refine ⟨fun _ h => absurd h2 h, fun _ h => absurd h2 h, fun _ h => absurd h2 h,
          fun _ _ => ⟨rfl, rfl, rfl⟩, fun h => absurd h h1, fun h => absurd h h1, ?_,
          fun ha hb => double_eq_iff lb ub ha hb⟩
        subst h2
        simp [glp_bounds, GLP_UP, GLP_FX, GLP_DB, GLP_LO, MPSolver.infinity]
    · cases he : Double.eq lb ub with
      | true =>
        refine ⟨GLP_FX, lb, ub, ?_, ?_, ?_⟩
        · simp [SetVariableBounds, hidx, double_ne_ninf, double_ne_pinf, h1, h2, he,
            GLPKInterface.call, hlp]
        · simp [SetConstraintBounds, hidx, double_ne_ninf, double_ne_pinf, h1, h2, he,
            GLPKInterface.call, hlp]
        · refine ⟨fun _ _ _ => ⟨rfl, rfl, rfl⟩, fun _ _ h => by simp at h, ?_,
            fun _ h => absurd h h2, fun h => absurd h h1, fun h => absurd h h1, ?_,
            fun ha hb => by simpa [he] using double_eq_iff lb ub ha hb⟩
          · intro _ _ hlt
            rw [double_eq_of_lt lb ub hlt] at he
            cases he
          · simp [glp_bounds]
      | false =>
        refine ⟨GLP_DB, lb, ub, ?_, ?_, ?_⟩
        · simp [SetVariableBounds, hidx, double_ne_ninf, double_ne_pinf, h1, h2, he,
            GLPKInterface.call, hlp]
        · simp [SetConstraintBounds, hidx, double_ne_ninf, double_ne_pinf, h1, h2, he,
            GLPKInterface.call, hlp]
        · refine ⟨fun _ _ h => by simp at h, fun _ _ _ => ⟨rfl, rfl, rfl⟩,
            fun _ _ _ => ⟨rfl, rfl, rfl⟩, fun _ h => absurd h h2, fun h => absurd h h1,
            fun h => absurd h h1, ?_,
            fun ha hb => by simpa [he] using double_eq_iff lb ub ha hb⟩
          simp [glp_bounds]

/-- C17, at concrete bounds: on column `1`, the crossed pair `(3, 1)` is sent as
`GLP_DB (3, 1)`. -/
theorem C17_bound_kind_table_witness :
    (1 : Int) ≠ kNoIndex ∧
      (SetVariableBounds (fresh false) 1 3 1).lp_ =
        (fresh false).lp_ ++ [GlpCall.set_col_bnds 1 GLP_DB 3 1] := by
  refine ⟨by decide, ?_⟩
  obtain ⟨kind, l, u, h, -, -, -, hdb, -⟩ :=
    C17_bound_kind_table (fresh false) 1 3 1 (by decide)
  obtain ⟨hk, hl, hu⟩ := hdb (by decide) (by decide) (by decide)
  rw [h, hk, hl, hu]

/-! ## Condition number -/

theorem ExtractOneConstraint_step_foldl (s : GLPKInterface) (l : List (Nat × Double))
    (acc : Int × List (Int × Double)) :
    l.foldl (ExtractOneConstraint_step s) acc =
      (acc.1 + l.length, acc.2 ++ l.map (fun it => (s.index_of it.1, it.2))) := by
  induction l generalizing acc with
  | nil => simp
  | cons it l ih =>
    rw [List.foldl_cons, ih]
    simp only [ExtractOneConstraint_step, List.length_cons, List.map_cons, List.append_assoc,
      List.singleton_append, Prod.mk.injEq, and_true]
    push_cast
    ring

theorem ExtractOneConstraint_lp (s : GLPKInterface) (ct : MPConstraint) :
    (ExtractOneConstraint s ct).lp_ =
      s.lp_ ++ [GlpCall.set_mat_row ct.index ct.coefficients_.length
        (ct.coefficients_.map (fun it => (s.index_of it.1, it.2)))] := by
  unfold ExtractOneConstraint
  simp [ExtractOneConstraint_step_foldl, GLPKInterface.call]

theorem ExtractNewConstraints_entry_foldl_entries (s : GLPKInterface) (ct : MPConstraint)
    (l : List (Nat × Double)) (acc : Int × List (Int × Int × Double)) :
    (l.foldl (ExtractNewConstraints_entry s ct) acc).2 =
      acc.2 ++ l.map (fun it => (ct.index, s.index_of it.1, it.2)) := by
  induction l generalizing acc with
  | nil => simp
  | cons it l ih =>
    rw [List.foldl_cons, ih]
    simp [ExtractNewConstraints_entry]

theorem ExtractNewConstraints_matrix_foldl_entries (s : GLPKInterface) (cts : List MPConstraint)
    (acc : Int × List (Int × Int × Double)) :
    (cts.foldl (fun acc ct => ct.coefficients_.foldl (ExtractNewConstraints_entry s ct) acc)
        acc).2 =
      acc.2 ++ cts.flatMap (fun ct =>
        ct.coefficients_.map (fun it => (ct.index, s.index_of it.1, it.2))) := by
  induction cts generalizing acc with
  | nil => simp
  | cons ct cts ih =>
    rw [List.foldl_cons, ih, ExtractNewConstraints_entry_foldl_entries]
    simp

theorem matrix_entries_length (s : GLPKInterface) (cts : List MPConstraint) :
    (((cts.flatMap (fun ct =>
        ct.coefficients_.map (fun it => (ct.index, s.index_of it.1, it.2)))).length : Nat) : Int) =
      (cts.map (fun ct => (ct.coefficients_.length : Int))).sum := by
  induction cts with
  | nil => simp
  | cons ct cts ih =>
    simp only [List.flatMap_cons, List.length_append, List.length_map, List.map_cons,
      List.sum_cons]
    push_cast
    rw [ih]

theorem filter_rows_of_other (s : GLPKInterface) (cts : List MPConstraint) (a : Int)
    (h : ∀ c ∈ cts, c.index ≠ a) :
    (cts.flatMap (fun ct =>
        ct.coefficients_.map (fun it => (ct.index, s.index_of it.1, it.2)))).filter
      (fun e => decide (e.1 = a)) = [] := by
  rw [List.filter_eq_nil_iff]
  intro e he
  obtain ⟨c, hc, hec⟩ := List.mem_flatMap.1 he
  obtain ⟨it, -, rfl⟩ := List.mem_map.1 hec
  simpa using h c hc

theorem filter_rows_of_own (s : GLPKInterface) (ct : MPConstraint) :
    (ct.coefficients_.map (fun it => (ct.index, s.index_of it.1, it.2))).filter
      (fun e => decide (e.1 = ct.index)) =
      ct.coefficients_.map (fun it => (ct.index, s.index_of it.1, it.2)) := by
  rw [List.filter_eq_self]
  intro e he
  obtain ⟨it, -, rfl⟩ := List.mem_map.1 he
  simp

theorem filter_rows_of_nodup (s : GLPKInterface) (cts : List MPConstraint)
    (hnd : (cts.map MPConstraint.index).Nodup) (i : Nat) (ct : MPConstraint)
    (hi : cts[i]? = some ct) :
    (cts.flatMap (fun c =>
        c.coefficients_.map (fun it => (c.index, s.index_of it.1, it.2)))).filter
      (fun e => decide (e.1 = ct.index)) =
      ct.coefficients_.map (fun it => (ct.index, s.index_of it.1, it.2)) := by
  induction cts generalizing i with
  | nil => simp at hi
  | cons c cts ih =>
    rw [List.map_cons, List.nodup_cons] at hnd
    rw [List.flatMap_cons, List.filter_append]
    cases i with
    | zero =>
      simp only [List.getElem?_cons_zero, Option.some.injEq] at hi
      subst hi
      rw [filter_rows_of_own, filter_rows_of_other, List.append_nil]
      intro c' hc' heq
      exact hnd.1 (heq ▸ List.mem_map_of_mem MPConstraint.index hc')
    | succ i =>
      simp only [List.getElem?_cons_succ] at hi
      have hmem : ct ∈ cts := List.getElem?_mem hi
      have hne : c.index ≠ ct.index := by
        intro heq
        exact hnd.1 (heq ▸ List.mem_map_of_mem MPConstraint.index hmem)
      rw [ih hnd.2 i hi]
      have : (c.coefficients_.map (fun it => (c.index, s.index_of it.1, it.2))).filter
          (fun e => decide (e.1 = ct.index)) = [] := by
        rw [List.filter_eq_nil_iff]
        intro e he
        obtain ⟨it, -, rfl⟩ := List.mem_map.1 he
        simpa using hne
      rw [this, List.nil_append]

theorem ExtractNewConstraints_bulk (s : GLPKInterface) (hv : s.last_variable_index_ = 0)
    (hc : s.last_constraint_index_ = 0) (hne : 0 < s.solver_.constraints_.length) :
    ∃ s1 : GLPKInterface, ExtractNewConstraints s = Outcome.ok (s1.call (GlpCall.load_matrix
      ((s.solver_.constraints_.map (fun ct => (ct.coefficients_.length : Int))).sum)
      (s1.solver_.constraints_.flatMap (fun ct =>
        ct.coefficients_.map (fun it => (ct.index, s1.index_of it.1, it.2)))))) := by
  unfold ExtractNewConstraints
  simp only []
  have hlt : s.last_constraint_index_ < s.solver_.constraints_.length := by rw [hc]; exact hne
  rw [if_pos hlt]
  generalize hs1 :
    s.call (GlpCall.add_rows ((s.solver_.constraints_.length : Int) - s.last_constraint_index_)) = s1
  have e1 : s1.last_constraint_index_ = s.last_constraint_index_ := by rw [← hs1]; rfl
  have e2 : s1.solver_ = s.solver_ := by rw [← hs1]; rfl
  have e3 : s1.last_variable_index_ = s.last_variable_index_ := by rw [← hs1]; rfl
  rw [e1]
  obtain ⟨h1, h2, h3, h4⟩ := ExtractNewConstraints_define_foldl
    (List.range' s.last_constraint_index_ (s.solver_.constraints_.length - s.last_constraint_index_))
    s1 0
  have hcond : (List.foldl ExtractNewConstraints_define (s1, 0)
      (List.range' s.last_constraint_index_
        (s.solver_.constraints_.length - s.last_constraint_index_))).1.last_variable_index_ = 0 ∧
      (List.foldl ExtractNewConstraints_define (s1, 0)
      (List.range' s.last_constraint_index_
        (s.solver_.constraints_.length - s.last_constraint_index_))).1.last_constraint_index_ = 0 := by
    rw [h2, h3, e1, e3]
    exact ⟨hv, hc⟩
  have hsum : (List.foldl ExtractNewConstraints_define (s1, 0)
      (List.range' s.last_constraint_index_
        (s.solver_.constraints_.length - s.last_constraint_index_))).2 =
      (s.solver_.constraints_.map (fun ct => (ct.coefficients_.length : Int))).sum := by
    rw [h4, e2, hc, Nat.sub_zero, ← List.range_eq_range', coefficient_count_range]
    ring
  rw [if_pos hcond]
  have hk : (List.foldl ExtractNewConstraints_define (s1, 0)
      (List.range' s.last_constraint_index_
        (s.solver_.constraints_.length - s.last_constraint_index_))).2 + 1 =
      (ExtractNewConstraints_matrix (List.foldl ExtractNewConstraints_define (s1, 0)
      (List.range' s.last_constraint_index_
        (s.solver_.constraints_.length - s.last_constraint_index_))).1).1 := by
    rw [hsum]
    simp only [ExtractNewConstraints_matrix, ExtractNewConstraints_matrix_foldl]
    rw [keeps_coefficient_lengths h1, e2]
    ring
  rw [if_pos hk, hsum]
  refine ⟨(List.foldl ExtractNewConstraints_define (s1, 0)
    (List.range' s.last_constraint_index_
      (s.solver_.constraints_.length - s.last_constraint_index_))).1, ?_⟩
  simp only [ExtractNewConstraints_matrix, ExtractNewConstraints_matrix_foldl_entries,
    List.nil_append]

/-- C18: when nothing has been extracted before (`last_variable_index_ = 0` and
`last_constraint_index_ = 0`) and there is a constraint, `ExtractNewConstraints` returns
(the check `num_coefs + 1 == k` holds) after a `glp_load_matrix` call that passes exactly
`num_coefs` triples, `num_coefs` being the number of coefficients of the model.  For every
constraint, the triples that carry its row index, taken in order without the row index,
are the list of (variable index, coefficient) pairs that `ExtractOneConstraint` sends for
that row, and their number is the length it passes. -/
theorem C18_bulk_path_loads_the_rows (s : GLPKInterface) (hv : s.last_variable_index_ = 0)
    (hc : s.last_constraint_index_ = 0) (hne : 0 < s.solver_.constraints_.length) :
    ∃ t pre num_coefs m,
      ExtractNewConstraints s = Outcome.ok t ∧
      t.lp_ = pre ++ [GlpCall.load_matrix num_coefs m] ∧
      (m.length : Int) = num_coefs ∧
      num_coefs = (s.solver_.constraints_.map (fun ct => (ct.coefficients_.length : Int))).sum ∧
      ∀ (i : Nat) (ct : MPConstraint), t.solver_.constraints_[i]? = some ct →
        ct.index = (i : Int) + 1 ∧
        (ExtractOneConstraint t ct).lp_ = t.lp_ ++ [GlpCall.set_mat_row ct.index
          ((m.filter (fun e => decide (e.1 = ct.index))).length)
          ((m.filter (fun e => decide (e.1 = ct.index))).map (fun e => e.2))] := by
  obtain ⟨s1, hs1⟩ := ExtractNewConstraints_bulk s hv hc hne
  obtain ⟨t0, ht0, hk0⟩ := ExtractNewConstraints_returns s
  have hidx : ∀ (i : Nat) (ct : MPConstraint), s1.solver_.constraints_[i]? = some ct →
      ct.index = (i : Int) + 1 := by
    intro i ct hi
    have hm := (ExtractNewConstraints_model s _ hs1 i).1
    simp only [GLPKInterface.call] at hm
    rw [hm] at hi
    cases hs : s.solver_.constraints_[i]? with
    | none => simp [hs] at hi
    | some c0 =>
      simp only [hs, hc, Nat.zero_le, if_true, Option.map_some', Option.some.injEq] at hi
      rw [← hi]
  have hnd : (s1.solver_.constraints_.map MPConstraint.index).Nodup := by
    rw [indices_of_extracted MPConstraint.index _ hidx]
    exact nodup_range_succ _
  have hlen : s1.solver_.constraints_.map (fun ct => (ct.coefficients_.length : Int)) =
      s.solver_.constraints_.map (fun ct => (ct.coefficients_.length : Int)) := by
    rw [hs1] at ht0
    have hk1 := keeps_coefficient_lengths hk0
    rw [← Outcome.ok.inj ht0] at hk1
    exact hk1
  refine ⟨_, s1.lp_, _, _, hs1, rfl, ?_, rfl, ?_⟩
  · rw [matrix_entries_length, hlen]
  · intro i ct hi
    have hi1 : s1.solver_.constraints_[i]? = some ct := hi
    refine ⟨hidx i ct hi1, ?_⟩
    rw [ExtractOneConstraint_lp, filter_rows_of_nodup s1 _ hnd i ct hi1]
    simp only [List.length_map, List.map_map, Function.comp_def]
    rfl

/-- C18, at a concrete model: the first extraction of the constraints of `fresh` returns
and ends with the bulk call carrying the single coefficient of the model. -/
theorem C18_bulk_path_loads_the_rows_witness :
    (fresh false).last_variable_index_ = 0 ∧ (fresh false).last_constraint_index_ = 0 ∧
      0 < (fresh false).solver_.constraints_.length ∧
      ∃ t pre m, ExtractNewConstraints (fresh false) = Outcome.ok t ∧
        t.lp_ = pre ++ [GlpCall.load_matrix 1 m] := by
  refine ⟨rfl, rfl, by decide, ?_⟩
  obtain ⟨t, pre, n, m, ht, hlp, -, hn, -⟩ :=
    C18_bulk_path_loads_the_rows (fresh false) rfl rfl (by decide)
  refine ⟨t, pre, m, ht, ?_⟩
  rw [hlp, hn]
  rfl

/-! ## Reachable states -/

theorem getElem?_of_map_eq {α β : Type} (f : α → β) {l1 l2 : List α}
    (h : l2.map f = l1.map f) (j : Nat) (x : α) (hx : l2[j]? = some x) :
    ∃ y, l1[j]? = some y ∧ f y = f x := by
  have h1 : (l2.map f)[j]? = some (f x) := by simp [hx]
  rw [h] at h1
  simp only [List.getElem?_map, Option.map_eq_some'] at h1
  exact h1

theorem consistent_create (name : String) (mip : Bool) (sync_status : SynchronizationStatus) :
    Consistent (GLPKInterface.create name mip sync_status) := by
  refine ⟨le_refl _, le_refl _, ?_, ?_, fun _ => ⟨rfl, rfl⟩, ?_, ?_⟩ <;>
    simp [GLPKInterface.create]

/-- The bookkeeping only looks at the indices, the keys of the coefficient maps, the two
start indices and whether a reload is pending. -/
theorem consistent_of_frame {s t : GLPKInterface} (hs : Consistent s)
    (hv : t.solver_.variables_.map MPVariable.index = s.solver_.variables_.map MPVariable.index)
    (hc : t.solver_.constraints_.map MPConstraint.index =
      s.solver_.constraints_.map MPConstraint.index)
    (hlv : t.last_variable_index_ = s.last_variable_index_)
    (hlc : t.last_constraint_index_ = s.last_constraint_index_)
    (hsync : s.sync_status_ = SynchronizationStatus.MUST_RELOAD →
      t.sync_status_ = SynchronizationStatus.MUST_RELOAD)
    (hkeys : ∀ ct ∈ t.solver_.constraints_, ∀ it ∈ ct.coefficients_,
      it.1 < s.solver_.variables_.length)
    (hokeys : ∀ it ∈ t.solver_.objective_.coefficients_, it.1 < s.solver_.variables_.length) :
    Consistent t := by
  have hnv : t.solver_.variables_.length = s.solver_.variables_.length := by
    simpa using congrArg List.length hv
  have hnc : t.solver_.constraints_.length = s.solver_.constraints_.length := by
    simpa using congrArg List.length hc
  refine ⟨?_, ?_, ?_, ?_, ?_, ?_, ?_⟩
  · rw [hlv, hnv]; exact hs.vlast
  · rw [hlc, hnc]; exact hs.clast
  · intro j var hj
    obtain ⟨y, hy, hyx⟩ := getElem?_of_map_eq MPVariable.index hv j var hj
    rw [hlv, ← hyx]
    exact hs.vidx j y hy
  · intro i ct hi
    obtain ⟨y, hy, hyx⟩ := getElem?_of_map_eq MPConstraint.index hc i ct hi
    rw [hlc, ← hyx]
    exact hs.cidx i y hy
  · intro hne
    rw [hlv, hlc, hnv, hnc]
    exact hs.synced (fun h => hne (hsync h))
  · intro ct hct it hit
    rw [hnv]
    exact hkeys ct hct it hit
  · intro it hit
    rw [hnv]
    exact hokeys it hit

/-- A step of the adapter that leaves the model and the start indices alone keeps the
bookkeeping, provided it does not drop a pending reload. -/
theorem consistent_of_sameModel {s t : GLPKInterface} (hs : Consistent s) (h : SameModel s t)
    (hsync : s.sync_status_ = SynchronizationStatus.MUST_RELOAD →
      t.sync_status_ = SynchronizationStatus.MUST_RELOAD) : Consistent t := by
  refine consistent_of_frame hs (by rw [h.solver]) (by rw [h.solver]) h.last_variable_index
    h.last_constraint_index hsync ?_ ?_
  · rw [h.solver]; exact hs.keys
  · rw [h.solver]; exact hs.okeys

theorem reload_of_invalidate (s : GLPKInterface)
    (h : s.sync_status_ = SynchronizationStatus.MUST_RELOAD) :
    (InvalidateSolutionSynchronization s).sync_status_ = SynchronizationStatus.MUST_RELOAD := by
  unfold InvalidateSolutionSynchronization
  split
  · rename_i h2
    rw [h] at h2
    cases h2
  · exact h

theorem reload_of_SetVariableBounds (s : GLPKInterface) (j : Int) (lb ub : Double)
    (h : s.sync_status_ = SynchronizationStatus.MUST_RELOAD) :
    (SetVariableBounds s j lb ub).sync_status_ = SynchronizationStatus.MUST_RELOAD := by
  have h1 := reload_of_invalidate s h
  unfold SetVariableBounds
  simp only [GLPKInterface.call]
  split_ifs <;> first | exact h1 | rfl

theorem reload_of_SetConstraintBounds (s : GLPKInterface) (j : Int) (lb ub : Double)
    (h : s.sync_status_ = SynchronizationStatus.MUST_RELOAD) :
    (SetConstraintBounds s j lb ub).sync_status_ = SynchronizationStatus.MUST_RELOAD := by
  have h1 := reload_of_invalidate s h
  unfold SetConstraintBounds
  simp only [GLPKInterface.call]
  split_ifs <;> first | exact h1 | rfl

theorem reload_of_SetVariableInteger (s : GLPKInterface) (j : Int) (integer : Bool)
    (h : s.sync_status_ = SynchronizationStatus.MUST_RELOAD) :
    (SetVariableInteger s j integer).sync_status_ = SynchronizationStatus.MUST_RELOAD := by
  have h1 := reload_of_invalidate s h
  unfold SetVariableInteger
  simp only [GLPKInterface.call]
  split_ifs <;> first | exact h1 | rfl

theorem reload_of_SetCoefficient (base : BaseClass) (s : GLPKInterface) (ct : MPConstraint)
    (j : Nat) (a b : Double) (h : s.sync_status_ = SynchronizationStatus.MUST_RELOAD) :
    (SetCoefficient base s ct j a b).sync_status_ = SynchronizationStatus.MUST_RELOAD := by
  have h1 := reload_of_invalidate s h
  unfold SetCoefficient
  simp only [ExtractOneConstraint, GLPKInterface.call]
  split_ifs <;> exact h1

theorem reload_of_ClearConstraint (s : GLPKInterface) (ct : MPConstraint)
    (h : s.sync_status_ = SynchronizationStatus.MUST_RELOAD) :
    (ClearConstraint s ct).sync_status_ = SynchronizationStatus.MUST_RELOAD := by
  have h1 := reload_of_invalidate s h
  unfold ClearConstraint
  simp only [GLPKInterface.call]
  split_ifs <;> exact h1

theorem reload_of_ClearObjective (s : GLPKInterface)
    (h : s.sync_status_ = SynchronizationStatus.MUST_RELOAD) :
    (ClearObjective s).sync_status_ = SynchronizationStatus.MUST_RELOAD := by
  rw [ClearObjective_sync]
  exact reload_of_invalidate s h

theorem mem_modify {α : Type} (f : α → α) (i : Nat) (l : List α) (x : α)
    (hx : x ∈ l.modify f i) : x ∈ l ∨ ∃ y ∈ l, x = f y := by
  obtain ⟨n, hn⟩ := List.mem_iff_getElem?.1 hx
  rw [List.getElem?_modify] at hn
  cases hl : l[n]? with
  | none => simp [hl] at hn
  | some y =>
    have hy : y ∈ l := List.getElem?_mem hl
    by_cases hin : i = n
    · simp [hl, hin] at hn
      exact Or.inr ⟨y, hy, hn.symm⟩
    · simp [hl, hin] at hn
      exact Or.inl (hn ▸ hy)

theorem mem_set_coefficient (coefs : List (Nat × Double)) (j : Nat) (value : Double)
    (it : Nat × Double) (h : it ∈ set_coefficient coefs j value) : it.1 = j ∨ it ∈ coefs := by
  unfold set_coefficient at h
  split at h
  · obtain ⟨it0, h0, rfl⟩ := List.mem_map.1 h
    by_cases hj : it0.1 = j
    · left; simp [hj]
    · right; simpa [hj] using h0
  · rcases List.mem_append.1 h with h | h
    · exact Or.inr h
    · left
      simp only [List.mem_singleton] at h
      rw [h]

/-- Updating fields of one variable other than its index keeps the bookkeeping. -/
theorem consistent_modify_variable {s : GLPKInterface} (hs : Consistent s)
    (f : MPVariable → MPVariable) (hf : ∀ v, (f v).index = v.index) (j : Nat) :
    Consistent { s with solver_ := { s.solver_ with
      variables_ := s.solver_.variables_.modify f j } } := by
  refine consistent_of_frame hs ?_ rfl rfl rfl (fun h => h) hs.keys hs.okeys
  exact map_modify_of_absorb MPVariable.index f hf j _

/-- Updating one constraint, its index apart, keeps the bookkeeping when the keys of the
new coefficient map name variables of the model. -/
theorem consistent_modify_constraint {s : GLPKInterface} (hs : Consistent s)
    (f : MPConstraint → MPConstraint) (hf : ∀ c, (f c).index = c.index)
    (hk : ∀ c ∈ s.solver_.constraints_, ∀ it ∈ (f c).coefficients_,
      it.1 < s.solver_.variables_.length) (i : Nat) :
    Consistent { s with solver_ := { s.solver_ with
      constraints_ := s.solver_.constraints_.modify f i } } := by
  refine consistent_of_frame hs rfl ?_ rfl rfl (fun h => h) ?_ hs.okeys
  · exact map_modify_of_absorb MPConstraint.index f hf i _
  · intro ct hct it hit
    rcases mem_modify f i _ ct hct with h | ⟨c, hc, rfl⟩
    · exact hs.keys ct h it hit
    · exact hk c hc it hit

theorem consistent_MakeVar {s : GLPKInterface} (hs : Consistent s) (var : MPVariable)
    (hvar : var.index = kNoIndex) :
    Consistent (AddVariable { s with solver_ := { s.solver_ with
      variables_ := s.solver_.variables_ ++ [var] } }) := by
  refine ⟨?_, hs.clast, ?_, hs.cidx, fun h => absurd rfl h, ?_, ?_⟩
  · have := hs.vlast
    simp only [AddVariable, List.length_append, List.length_singleton]
    omega
  · intro j v hj
    simp only [AddVariable] at hj ⊢
    by_cases hlt : j < s.solver_.variables_.length
    · rw [List.getElem?_append_left hlt] at hj
      exact hs.vidx j v hj
    · rw [List.getElem?_append_right (by omega)] at hj
      have hvl := hs.vlast
      cases hd : j - s.solver_.variables_.length with
      | zero =>
        simp only [hd, List.getElem?_cons_zero, Option.some.injEq] at hj
        have : ¬ j < s.last_variable_index_ := by omega
        rw [← hj, hvar, if_neg this]
      | succ n => simp [hd] at hj
  · intro ct hct it hit
    have := hs.keys ct hct it hit
    simp only [AddVariable, List.length_append, List.length_singleton]
    omega
  · intro it hit
    have := hs.okeys it hit
    simp only [AddVariable, List.length_append, List.length_singleton]
    omega

theorem consistent_MakeRowConstraint {s : GLPKInterface} (hs : Consistent s)
    (ct : MPConstraint) (hct : ct.index = kNoIndex) (hcoef : ct.coefficients_ = []) :
    Consistent (AddRowConstraint { s with solver_ := { s.solver_ with
      constraints_ := s.solver_.constraints_ ++ [ct] } }) := by
  refine ⟨hs.vlast, ?_, hs.vidx, ?_, fun h => absurd rfl h, ?_, hs.okeys⟩
  · have := hs.clast
    simp only [AddRowConstraint, List.length_append, List.length_singleton]
    omega
  · intro i c hi
    simp only [AddRowConstraint] at hi ⊢
    by_cases hlt : i < s.solver_.constraints_.length
    · rw [List.getElem?_append_left hlt] at hi
      exact hs.cidx i c hi
    · rw [List.getElem?_append_right (by omega)] at hi
      have hcl := hs.clast
      cases hd : i - s.solver_.constraints_.length with
      | zero =>
        simp only [hd, List.getElem?_cons_zero, Option.some.injEq] at hi
        have : ¬ i < s.last_constraint_index_ := by omega
        rw [← hi, hct, if_neg this]
      | succ n => simp [hd] at hi
  · intro c hc it hit
    simp only [AddRowConstraint, List.mem_append, List.mem_singleton] at hc
    rcases hc with hc | hc
    · exact hs.keys c hc it hit
    · rw [hc, hcoef] at hit
      cases hit

theorem consistent_Reset {s : GLPKInterface} (hs : Consistent s) : Consistent (Reset s) := by
  refine ⟨Nat.zero_le _, Nat.zero_le _, ?_, ?_, fun h => absurd rfl h, ?_, ?_⟩
  · intro j var hj
    simp only [Reset, ResetExtractionInformation, GLPKInterface.call, List.getElem?_map,
      Option.map_eq_some'] at hj
    obtain ⟨v0, -, rfl⟩ := hj
    simp [Reset, ResetExtractionInformation]
  · intro i ct hi
    simp only [Reset, ResetExtractionInformation, GLPKInterface.call, List.getElem?_map,
      Option.map_eq_some'] at hi
    obtain ⟨c0, -, rfl⟩ := hi
    simp [Reset, ResetExtractionInformation]
  · intro ct hct it hit
    simp only [Reset, ResetExtractionInformation, GLPKInterface.call, List.mem_map] at hct
    obtain ⟨c0, hc0, rfl⟩ := hct
    simpa [Reset, ResetExtractionInformation, GLPKInterface.call] using hs.keys c0 hc0 it hit
  · intro it hit
    simpa [Reset, ResetExtractionInformation, GLPKInterface.call] using hs.okeys it hit


theorem lt_length_of_getElem? {α : Type} {l : List α} {j : Nat} {x : α}
    (h : l[j]? = some x) : j < l.length := by
  by_contra hn
  rw [List.getElem?_eq_none (by omega)] at h
  cases h

theorem keeps_variables_length {s t : GLPKInterface} (h : Keeps s t) :
    t.solver_.variables_.length = s.solver_.variables_.length := by
  have := congrArg (fun m : MPSolver => m.variables_.length) h.solver
  simpa [MPSolver.unindexed] using this

theorem ExtractNewVariables_step_foldl_last_constraint (l : List Nat) (s : GLPKInterface) :
    (l.foldl ExtractNewVariables_step s).last_constraint_index_ = s.last_constraint_index_ := by
  induction l generalizing s with
  | nil => rfl
  | cons k l ih =>
    simp only [List.foldl_cons]
    rw [ih, (sameModel_ExtractNewVariables_step s k).last_constraint_index]
    rfl

theorem ExtractNewVariables_last_constraint (base : BaseClass) (s : GLPKInterface) :
    (ExtractNewVariables base s).last_constraint_index_ = s.last_constraint_index_ := by
  unfold ExtractNewVariables
  simp only []
  split
  · rw [(sameModel_ExtractOldConstraints base _).last_constraint_index,
      ExtractNewVariables_step_foldl_last_constraint]
    rfl
  · rfl

/-- Extraction keeps the bookkeeping and leaves no reload pending. -/
theorem consistent_ExtractModel {base : BaseClass} {s t : GLPKInterface} (hs : Consistent s)
    (ht : ExtractModel base s = Outcome.ok t) :
    Consistent t ∧ t.sync_status_ ≠ SynchronizationStatus.MUST_RELOAD := by
  obtain ⟨t1, ht1, hk⟩ := ExtractModel_returns base s
  rw [ht] at ht1
  cases ht1
  have hlen := keeps_variables_length hk
  have hobj := keeps_objective hk
  unfold ExtractModel at ht
  split at ht
  · simp only [] at ht
    cases h3 : ExtractNewConstraints (ExtractNewVariables base s) with
    | fatal msg =>
      rw [h3] at ht
      cases ht
    | ok s3 =>
      rw [h3] at ht
      simp only [Outcome.bind, Outcome.ok.injEq] at ht
      have m := (sameModel_ExtractObjective s3).solver
      have hvars : ∀ j, t.solver_.variables_[j]? = s.solver_.variables_[j]?.map (fun var =>
          if s.last_variable_index_ ≤ j then { var with index := (j : Int) + 1 } else var) := by
        intro j
        rw [← ht]
        dsimp only
        rw [m, (ExtractNewConstraints_model _ s3 h3 j).2, (ExtractNewVariables_model base s j).1]
      have hcts : ∀ i, t.solver_.constraints_[i]? = s.solver_.constraints_[i]?.map (fun ct =>
          if s.last_constraint_index_ ≤ i then { ct with index := (i : Int) + 1 } else ct) := by
        intro i
        rw [← ht]
        dsimp only
        rw [m, (ExtractNewConstraints_model _ s3 h3 i).1, ExtractNewVariables_last_constraint,
          (ExtractNewVariables_model base s i).2]
      have hlv : t.last_variable_index_ = t.solver_.variables_.length := by rw [← ht]
      have hlc : t.last_constraint_index_ = t.solver_.constraints_.length := by rw [← ht]
      have hsy : t.sync_status_ = SynchronizationStatus.MODEL_SYNCHRONIZED := by rw [← ht]
      refine ⟨⟨le_of_eq hlv, le_of_eq hlc, ?_, ?_, fun _ => ⟨hlv, hlc⟩, ?_, ?_⟩, ?_⟩
      · intro j var hj
        rw [hlv, if_pos (lt_length_of_getElem? hj)]
        rw [hvars j] at hj
        obtain ⟨v0, h0, rfl⟩ := Option.map_eq_some'.1 hj
        by_cases hle : s.last_variable_index_ ≤ j
        · simp [hle]
        · have := hs.vidx j v0 h0
          rw [if_pos (by omega)] at this
          simpa [hle] using this
      · intro i ct hi
        rw [hlc, if_pos (lt_length_of_getElem? hi)]
        rw [hcts i] at hi
        obtain ⟨c0, h0, rfl⟩ := Option.map_eq_some'.1 hi
        by_cases hle : s.last_constraint_index_ ≤ i
        · simp [hle]
        · have := hs.cidx i c0 h0
          rw [if_pos (by omega)] at this
          simpa [hle] using this
      · intro ct hct it hit
        obtain ⟨i, hi⟩ := List.mem_iff_getElem?.1 hct
        rw [hcts i] at hi
        obtain ⟨c0, h0, rfl⟩ := Option.map_eq_some'.1 hi
        rw [hlen]
        refine hs.keys c0 (List.getElem?_mem h0) it ?_
        by_cases hle : s.last_constraint_index_ ≤ i
        · simpa [hle] using hit
        · simpa [hle] using hit
      · intro it hit
        rw [hlen]
        rw [hobj] at hit
        exact hs.okeys it hit
      · rw [hsy]
        decide
  · rename_i hsy
    cases ht
    exact ⟨hs, by rw [hsy]; decide⟩
  · rename_i hsy
    cases ht
    exact ⟨hs, by rw [hsy]; decide⟩


theorem sameTracking_refl (s : GLPKInterface) : SameTracking s s := ⟨rfl, rfl, rfl, rfl⟩

theorem sameTracking_trans {s t u : GLPKInterface} (h1 : SameTracking s t)
    (h2 : SameTracking t u) : SameTracking s u :=
  ⟨h2.solver.trans h1.solver, h2.last_constraint_index.trans h1.last_constraint_index,
    h2.last_variable_index.trans h1.last_variable_index, h2.sync_status.trans h1.sync_status⟩

theorem sameTracking_of_call (s : GLPKInterface) (c : GlpCall) : SameTracking s (s.call c) :=
  ⟨rfl, rfl, rfl, rfl⟩

theorem sameTracking_SetPresolveMode (s : GLPKInterface) (value : Int) :
    SameTracking s (SetPresolveMode s value) := by
  unfold operations_research.SetPresolveMode
  split_ifs <;> exact ⟨rfl, rfl, rfl, rfl⟩

theorem sameTracking_SetLpAlgorithm (s : GLPKInterface) (value : Int) :
    SameTracking s (SetLpAlgorithm s value) := by
  unfold operations_research.SetLpAlgorithm
  split_ifs <;> exact ⟨rfl, rfl, rfl, rfl⟩

theorem sameTracking_SetParameters (s : GLPKInterface) (param : MPSolverParameters) :
    SameTracking s (SetParameters s param) := by
  have hc : SameTracking s (SetCommonParameters s param) := by
    unfold SetCommonParameters
    refine sameTracking_trans ?_ (sameTracking_SetLpAlgorithm _ _)
    refine sameTracking_trans ?_ (sameTracking_SetPresolveMode _ _)
    exact ⟨rfl, rfl, rfl, rfl⟩
  unfold operations_research.SetParameters
  simp only []
  split
  · refine sameTracking_trans hc ?_
    unfold SetMIPParameters SetRelativeMipGap
    split <;> exact ⟨rfl, rfl, rfl, rfl⟩
  · exact hc

theorem sameTracking_ConfigureGLPKParameters (s : GLPKInterface) (param : MPSolverParameters) :
    SameTracking s (ConfigureGLPKParameters s param) := by
  unfold operations_research.ConfigureGLPKParameters
  refine sameTracking_trans ?_ (sameTracking_SetParameters _ _)
  refine sameTracking_trans ?_ (sameTracking_of_call _ _)
  refine sameTracking_trans ?_ (sameTracking_of_call _ _)
  refine ⟨?_, ?_, ?_, ?_⟩ <;> (dsimp only; split_ifs <;> rfl)

theorem consistent_of_sameTracking {s t : GLPKInterface} (hs : Consistent s)
    (h : SameTracking s t) : Consistent t := by
  refine consistent_of_frame hs (by rw [h.solver]) (by rw [h.solver]) h.last_variable_index
    h.last_constraint_index (fun e => h.sync_status.trans e) ?_ ?_
  · rw [h.solver]; exact hs.keys
  · rw [h.solver]; exact hs.okeys

/-- The first part of `Solve` keeps the bookkeeping and leaves no reload pending. -/
theorem consistent_Solve_setup {base : BaseClass} {s u : GLPKInterface}
    {param : MPSolverParameters} (hs : Consistent s)
    (hu : Solve_setup base s param = Outcome.ok u) :
    Consistent u ∧ u.sync_status_ ≠ SynchronizationStatus.MUST_RELOAD := by
  unfold Solve_setup at hu
  simp only [] at hu
  generalize hs0 : (if param.INCREMENTALITY = INCREMENTALITY_OFF then Reset s else s) = s0 at hu
  have h0 : Consistent s0 := by
    rw [← hs0]
    split
    · exact consistent_Reset hs
    · exact hs
  generalize hs1 : (if s0.quiet_ then s0.call (GlpCall.term_out GLP_OFF)
    else s0.call (GlpCall.term_out GLP_ON)) = s1 at hu
  have h1 : Consistent s1 := by
    rw [← hs1]
    split <;> exact consistent_of_sameTracking h0 (sameTracking_of_call _ _)
  cases h2 : ExtractModel base s1 with
  | fatal msg =>
    rw [h2] at hu
    cases hu
  | ok s2 =>
    rw [h2] at hu
    simp only [Outcome.bind, Outcome.ok.injEq] at hu
    obtain ⟨hc2, hn2⟩ := consistent_ExtractModel h1 h2
    have hf := sameTracking_ConfigureGLPKParameters s2 param
    rw [hu] at hf
    exact ⟨consistent_of_sameTracking hc2 hf, by rw [hf.sync_status]; exact hn2⟩

theorem consistent_Solve_results {v : GLPKInterface} (glpk : Glpk) (hv : Consistent v)
    (hn : v.sync_status_ ≠ SynchronizationStatus.MUST_RELOAD) :
    Consistent (Solve_results v glpk).1 := by
  refine consistent_of_frame hv ?_ ?_ ?_ ?_ (fun h => absurd h hn) ?_ ?_
  · cases hm : v.mip_ <;>
      simp [Solve_results, hm, Solve_read_variable, Function.comp_def]
  · cases hm : v.mip_ <;>
      simp [Solve_results, hm, Solve_read_constraint, Function.comp_def]
  · cases hm : v.mip_ <;> simp [Solve_results, hm]
  · cases hm : v.mip_ <;> simp [Solve_results, hm]
  · intro ct hct it hit
    have hex : ∃ c0 ∈ v.solver_.constraints_, ct.coefficients_ = c0.coefficients_ := by
      cases hm : v.mip_ <;>
        simp only [Solve_results, hm, List.mem_map] at hct <;>
        obtain ⟨c0, hc0, rfl⟩ := hct <;>
        exact ⟨c0, hc0, by simp [Solve_read_constraint, hm]⟩
    obtain ⟨c0, hc0, he⟩ := hex
    rw [he] at hit
    exact hv.keys c0 hc0 it hit
  · intro it hit
    rw [(Solve_results_frame v glpk).2.1] at hit
    exact hv.okeys it hit

/-- The method `Solve` keeps the bookkeeping. -/
theorem consistent_Solve {base : BaseClass} {s t : GLPKInterface} {param : MPSolverParameters}
    {glpk : Glpk} {r : ResultStatus} (hs : Consistent s)
    (ht : Solve base s param glpk = Outcome.ok (t, r)) : Consistent t := by
  cases hu : Solve_setup base s param with
  | fatal msg => simp [Solve, hu, Outcome.bind] at ht
  | ok u =>
    obtain ⟨hcu, hnu⟩ := consistent_Solve_setup hs hu
    cases hm : u.mip_ with
    | false =>
      rw [Solve_of_lp glpk hu hm] at ht
      have e : (Solve_results (u.call GlpCall.simplex) glpk).1 = t := by
        injection ht with ht
        rw [ht]
      rw [← e]
      exact consistent_Solve_results glpk
        (consistent_of_sameTracking hcu (sameTracking_of_call _ _)) hnu
    | true =>
      by_cases hsx : glpk.glp_simplex = 0
      · rw [Solve_of_mip_root_ok glpk hu hm hsx] at ht
        have e : (Solve_results
            { (u.call GlpCall.simplex).call GlpCall.intopt with
              mip_callback_info_ := glpk.glp_intopt_callbacks.foldl GLPKGatherInformationCallback
                u.mip_callback_info_ } glpk).1 = t := by
          injection ht with ht
          rw [ht]
        rw [← e]
        refine consistent_Solve_results glpk (consistent_of_sameTracking hcu ?_) hnu
        exact ⟨rfl, rfl, rfl, rfl⟩
      · rw [Solve_of_mip_root_failed glpk hu hm hsx] at ht
        injection ht with ht
        injection ht with ht1 ht2
        rw [← ht1]
        exact consistent_of_frame hcu rfl rfl rfl rfl (fun h => absurd h hnu) hcu.keys hcu.okeys


/-- The model side of a coefficient update keeps the bookkeeping, and the updated
constraint sits at its position. -/
theorem set_coefficient_model_spec {s s1 : GLPKInterface} {i j : Nat} {value old : Double}
    {ct : MPConstraint} (hs : Consistent s)
    (h : set_coefficient_model s i j value = some (s1, ct, old)) :
    Consistent s1 ∧ s1.sync_status_ = s.sync_status_ ∧ s1.lp_ = s.lp_ ∧
      s1.solver_.constraints_[i]? = some ct := by
  unfold set_coefficient_model at h
  cases hc : s.solver_.constraints_[i]? with
  | none => simp [hc] at h
  | some c0 =>
    cases hv : s.solver_.variables_[j]? with
    | none => simp [hc, hv] at h
    | some v0 =>
      simp only [hc, hv, Option.some.injEq, Prod.mk.injEq] at h
      obtain ⟨rfl, rfl, rfl⟩ := h
      refine ⟨?_, rfl, rfl, ?_⟩
      · refine consistent_modify_constraint hs
          (fun c => { c with coefficients_ := set_coefficient c.coefficients_ j value })
          (fun c => rfl) ?_ i
        intro c hcm it hit
        rcases mem_set_coefficient _ _ _ _ hit with h1 | h1
        · rw [h1]
          exact lt_length_of_getElem? hv
        · exact hs.keys c hcm it h1
      · simp [List.getElem?_modify, hc]

/-- Every operation keeps the bookkeeping. -/
theorem consistent_step {base : BaseClass} {s t : GLPKInterface} (op : Op) (hs : Consistent s)
    (ht : step base s op = Outcome.ok t) : Consistent t := by
  cases op with
  | MakeVar lb ub integer name =>
    cases ht
    exact consistent_MakeVar hs _ rfl
  | MakeRowConstraint lb ub name =>
    cases ht
    exact consistent_MakeRowConstraint hs _ rfl rfl
  | SetVariableBounds j lb ub =>
    unfold step at ht
    cases hv : s.solver_.variables_[j]? with
    | none => simp [hv] at ht
    | some var =>
      simp only [hv, Outcome.ok.injEq] at ht
      rw [← ht]
      exact consistent_of_sameModel
        (consistent_modify_variable hs (fun v => { v with lb := lb, ub := ub }) (fun _ => rfl) j)
        (sameModel_SetVariableBounds _ _ _ _) (reload_of_SetVariableBounds _ _ _ _)
  | SetVariableInteger j integer =>
    unfold step at ht
    cases hv : s.solver_.variables_[j]? with
    | none => simp [hv] at ht
    | some var =>
      simp only [hv, Outcome.ok.injEq] at ht
      rw [← ht]
      exact consistent_of_sameModel
        (consistent_modify_variable hs (fun v => { v with integer := integer }) (fun _ => rfl) j)
        (sameModel_SetVariableInteger _ _ _) (reload_of_SetVariableInteger _ _ _)
  | SetConstraintBounds i lb ub =>
    unfold step at ht
    cases hc : s.solver_.constraints_[i]? with
    | none => simp [hc] at ht
    | some ct =>
      simp only [hc, Outcome.ok.injEq] at ht
      rw [← ht]
      exact consistent_of_sameModel
        (consistent_modify_constraint hs (fun c => { c with lb := lb, ub := ub }) (fun _ => rfl)
          (fun c hcm it hit => hs.keys c hcm it hit) i)
        (sameModel_SetConstraintBounds _ _ _ _) (reload_of_SetConstraintBounds _ _ _ _)
  | SetCoefficient i j value =>
    unfold step at ht
    cases hm : set_coefficient_model s i j value with
    | none => simp [hm] at ht
    | some r =>
      obtain ⟨s1, ct, old⟩ := r
      simp only [hm, Outcome.ok.injEq] at ht
      rw [← ht]
      exact consistent_of_sameModel (set_coefficient_model_spec hs hm).1
        (sameModel_SetCoefficient _ _ _ _ _ _) (reload_of_SetCoefficient _ _ _ _ _ _)
  | ClearConstraint i =>
    unfold step at ht
    cases hc : s.solver_.constraints_[i]? with
    | none => simp [hc] at ht
    | some ct =>
      simp only [hc, Outcome.ok.injEq] at ht
      rw [← ht]
      have h1 : Consistent (ClearConstraint s ct) :=
        consistent_of_sameModel hs (sameModel_ClearConstraint _ _) (reload_of_ClearConstraint _ _)
      exact consistent_modify_constraint h1 (fun c => { c with coefficients_ := [] })
        (fun _ => rfl) (fun c _ it hit => by cases hit) i
  | SetObjectiveCoefficient j value =>
    unfold step at ht
    cases hv : s.solver_.variables_[j]? with
    | none => simp [hv] at ht
    | some var =>
      simp only [hv, Outcome.ok.injEq] at ht
      rw [← ht]
      refine consistent_of_frame hs rfl rfl rfl rfl (fun _ => rfl) hs.keys ?_
      intro it hit
      rcases mem_set_coefficient _ _ _ _ hit with h1 | h1
      · rw [h1]
        exact lt_length_of_getElem? hv
      · exact hs.okeys it h1
  | SetObjectiveOffset value =>
    cases ht
    exact consistent_of_frame hs rfl rfl rfl rfl (fun _ => rfl) hs.keys hs.okeys
  | ClearObjective =>
    cases ht
    have h1 : Consistent (ClearObjective s) :=
      consistent_of_sameModel hs (sameModel_ClearObjective _) (reload_of_ClearObjective _)
    exact consistent_of_frame h1 rfl rfl rfl rfl (fun h => h) h1.keys
      (fun it hit => by cases hit)
  | SetOptimizationDirection maximize =>
    cases ht
    refine consistent_of_sameModel hs ?_ ?_
    · exact sameModel_trans (sameModel_InvalidateSolutionSynchronization _)
        (sameModel_of_call _ _) |> fun h => ⟨h.solver, h.last_constraint_index,
          h.last_variable_index, h.mip⟩
    · intro h
      exact reload_of_invalidate { s with maximize_ := maximize } h
  | ExtractModel => exact (consistent_ExtractModel hs ht).1
  | Solve param glpk =>
    unfold step at ht
    cases hr : Solve base s param glpk with
    | fatal msg => simp [hr, Outcome.bind] at ht
    | ok r =>
      obtain ⟨t1, r1⟩ := r
      simp only [hr, Outcome.bind, Outcome.ok.injEq] at ht
      rw [← ht]
      exact consistent_Solve hs hr
  | Reset =>
    cases ht
    exact consistent_Reset hs

/-- Every state a run reaches from a consistent state is consistent. -/
theorem consistent_run {base : BaseClass} (ops : List Op) {s t : GLPKInterface}
    (hs : Consistent s) (ht : run base s ops = Outcome.ok t) : Consistent t := by
  induction ops generalizing s with
  | nil =>
    cases ht
    exact hs
  | cons op ops ih =>
    unfold run at ht
    cases h1 : step base s op with
    | fatal msg => simp [h1, Outcome.bind] at ht
    | ok s1 =>
      simp only [h1, Outcome.bind] at ht
      exact ih (consistent_step op hs h1) ht


theorem index_of_consistent {s : GLPKInterface} (hs : Consistent s) (j : Nat)
    (hj : j < s.solver_.variables_.length) :
    s.index_of j = if j < s.last_variable_index_ then (j : Int) + 1 else kNoIndex := by
  unfold GLPKInterface.index_of
  rw [List.getElem?_eq_getElem hj]
  exact hs.vidx j _ (List.getElem?_eq_getElem hj)

theorem index_of_invalidate (s : GLPKInterface) (j : Nat) :
    (InvalidateSolutionSynchronization s).index_of j = s.index_of j := by
  unfold GLPKInterface.index_of
  rw [(sameModel_InvalidateSolutionSynchronization s).solver]

theorem not_reload_of_invalidate (s : GLPKInterface)
    (h : (InvalidateSolutionSynchronization s).sync_status_ =
      SynchronizationStatus.MODEL_SYNCHRONIZED) :
    s.sync_status_ ≠ SynchronizationStatus.MUST_RELOAD := by
  intro e
  rw [reload_of_invalidate s e] at h
  cases h

theorem index_of_synced {s : GLPKInterface} (hs : Consistent s)
    (hn : s.sync_status_ ≠ SynchronizationStatus.MUST_RELOAD) (j : Nat)
    (hj : j < s.solver_.variables_.length) : s.index_of j ≠ kNoIndex := by
  rw [index_of_consistent hs j hj, if_pos (by rw [(hs.synced hn).1]; exact hj)]
  unfold kNoIndex
  omega

/-- C16: in every state reached from a fresh adapter by creating variables and
constraints, mutating them, extracting, solving and resetting, (1) if some variable or some
constraint of the model has index `kNoIndex` then the synchronization status is
`MUST_RELOAD`; (2) every assertion `DCHECK_NE(MODEL_SYNCHRONIZED, sync_status_)` of
`ClearObjective` holds; (3) provided a constraint that `ContainsNewVariables` reports free
of new variables has no variable without index, whenever `SetCoefficient` is called after
a coefficient update and its test sends the row again, every assertion
`DCHECK_NE(kNoIndex, var_index)` of `ExtractOneConstraint` holds. -/
theorem C16_unextracted_entity_forces_reload (base : BaseClass) (name : String) (mip : Bool)
    (sync_status : SynchronizationStatus) (ops : List Op) (s : GLPKInterface)
    (hrun : run base (GLPKInterface.create name mip sync_status) ops = Outcome.ok s) :
    (((∃ var ∈ s.solver_.variables_, var.index = kNoIndex) ∨
        (∃ ct ∈ s.solver_.constraints_, ct.index = kNoIndex)) →
      s.sync_status_ = SynchronizationStatus.MUST_RELOAD) ∧
    ClearObjective_DCHECK s = true ∧
    ((∀ (u : GLPKInterface) (ct : MPConstraint), base.ContainsNewVariables u ct = false →
        ∀ it ∈ ct.coefficients_, u.index_of it.1 ≠ kNoIndex) →
      ∀ (i j : Nat) (value : Double) (s1 : GLPKInterface) (ct : MPConstraint) (old : Double),
        set_coefficient_model s i j value = some (s1, ct, old) →
        SetCoefficient_extracts base s1 ct →
        ExtractOneConstraint_DCHECK (InvalidateSolutionSynchronization s1) ct = true) := by
  have hs := consistent_run ops (consistent_create name mip sync_status) hrun
  refine ⟨?_, ?_, ?_⟩
  · intro h
    by_contra hn
    obtain ⟨hv, hc⟩ := hs.synced hn
    rcases h with ⟨var, hvar, hi⟩ | ⟨ct, hct, hi⟩
    · obtain ⟨j, hj⟩ := List.mem_iff_getElem?.1 hvar
      have := hs.vidx j var hj
      rw [if_pos (by rw [hv]; exact lt_length_of_getElem? hj), hi] at this
      unfold kNoIndex at this
      omega
    · obtain ⟨i, hi2⟩ := List.mem_iff_getElem?.1 hct
      have := hs.cidx i ct hi2
      rw [if_pos (by rw [hc]; exact lt_length_of_getElem? hi2), hi] at this
      unfold kNoIndex at this
      omega
  · unfold ClearObjective_DCHECK
    simp only [List.all_eq_true, Bool.or_eq_true, Bool.not_eq_true', decide_eq_true_eq,
      decide_eq_false_iff_not]
    intro it hit
    rw [(sameModel_InvalidateSolutionSynchronization s).solver] at hit
    by_cases hm : (InvalidateSolutionSynchronization s).sync_status_ =
        SynchronizationStatus.MODEL_SYNCHRONIZED
    · left
      rw [index_of_invalidate]
      exact index_of_synced hs (not_reload_of_invalidate s hm) _ (hs.okeys it hit)
    · right
      exact hm
  · intro hnew i j value s1 ct old hm hex
    obtain ⟨hs1, -, -, hct⟩ := set_coefficient_model_spec hs hm
    unfold ExtractOneConstraint_DCHECK
    simp only [List.all_eq_true, decide_eq_true_eq]
    intro it hit
    rcases hex.2 with h | h
    · rw [index_of_invalidate]
      exact index_of_synced hs1 (not_reload_of_invalidate s1 h) _
        (hs1.keys ct (List.getElem?_mem hct) it hit)
    · exact hnew _ ct (by simpa using h) it hit

/-- C16, at a concrete run: `run0` reaches `reached0`, whose second variable has no index
and whose status is `MUST_RELOAD`; the modelled `ContainsNewVariables` meets the proviso
of the third part. -/
theorem C16_unextracted_entity_forces_reload_witness :
    run base0 (GLPKInterface.create "m" false SynchronizationStatus.MODEL_SYNCHRONIZED) run0 =
        Outcome.ok reached0 ∧
      reached0.solver_.variables_.map MPVariable.index = [1, kNoIndex] ∧
      reached0.sync_status_ = SynchronizationStatus.MUST_RELOAD ∧
      (∀ (u : GLPKInterface) (ct : MPConstraint), base0.ContainsNewVariables u ct = false →
        ∀ it ∈ ct.coefficients_, u.index_of it.1 ≠ kNoIndex) ∧
      ((((∃ var ∈ reached0.solver_.variables_, var.index = kNoIndex) ∨
          (∃ ct ∈ reached0.solver_.constraints_, ct.index = kNoIndex)) →
        reached0.sync_status_ = SynchronizationStatus.MUST_RELOAD) ∧
      ClearObjective_DCHECK reached0 = true ∧
      ((∀ (u : GLPKInterface) (ct : MPConstraint), base0.ContainsNewVariables u ct = false →
          ∀ it ∈ ct.coefficients_, u.index_of it.1 ≠ kNoIndex) →
        ∀ (i j : Nat) (value : Double) (s1 : GLPKInterface) (ct : MPConstraint) (old : Double),
          set_coefficient_model reached0 i j value = some (s1, ct, old) →
          SetCoefficient_extracts base0 s1 ct →
          ExtractOneConstraint_DCHECK (InvalidateSolutionSynchronization s1) ct = true)) :=
  ⟨by decide, by decide, by decide,
    fun u ct h it hit => by
      simp only [base0, ContainsNewVariables, List.any_eq_false, Bool.or_eq_true,
        decide_eq_true_eq, not_or] at h
      exact (h it hit).1,
    C16_unextracted_entity_forces_reload base0 "m" false
      SynchronizationStatus.MODEL_SYNCHRONIZED run0 reached0 (by decide)⟩



/-! ## Bounds sent on a valid index -/

/-- On a valid index both setters issue one bound-setting call, with the same kind and
values, and the bounds GLPK holds after such a call are the pair given. -/
theorem bounds_call_reads_back (s : GLPKInterface) (index : Int) (lb ub : Double)
    (hidx : index ≠ kNoIndex) :
    ∃ kind l u,
      (SetVariableBounds s index lb ub).lp_ = s.lp_ ++ [GlpCall.set_col_bnds index kind l u] ∧
      (SetConstraintBounds s index lb ub).lp_ =
        s.lp_ ++ [GlpCall.set_row_bnds index kind l u] ∧
      glp_bounds kind l u = (lb, ub) := by
  have hlp := invalidate_lp s
  by_cases h1 : lb = Double.ninf
  · by_cases h2 : ub = Double.pinf
    · refine ⟨GLP_FR, 0, 0, ?_, ?_, ?_⟩
      · simp [SetVariableBounds, hidx, double_ne_ninf, double_ne_pinf, h1, h2,
          GLPKInterface.call, hlp]
      · simp [SetConstraintBounds, hidx, double_ne_ninf, double_ne_pinf, h1, h2,
          GLPKInterface.call, hlp]
      · subst h1 h2
        decide
    · refine ⟨GLP_UP, 0, ub, ?_, ?_, ?_⟩
      · simp [SetVariableBounds, hidx, double_ne_ninf, double_ne_pinf, h1, h2,
          GLPKInterface.call, hlp]
      · simp [SetConstraintBounds, hidx, double_ne_ninf, double_ne_pinf, h1, h2,
          GLPKInterface.call, hlp]
      · subst h1
        simp [glp_bounds, GLP_UP, GLP_FX, GLP_DB, GLP_LO, Double.neg, MPSolver.infinity]
  · by_cases h2 : ub = Double.pinf
    · refine ⟨GLP_LO, lb, 0, ?_, ?_, ?_⟩
      · simp [SetVariableBounds, hidx, double_ne_ninf, double_ne_pinf, h1, h2,
          GLPKInterface.call, hlp]
      · simp [SetConstraintBounds, hidx, double_ne_ninf, double_ne_pinf, h1, h2,
          GLPKInterface.call, hlp]
      · subst h2
        simp [glp_bounds, GLP_UP, GLP_FX, GLP_DB, GLP_LO, MPSolver.infinity]
    · cases he : Double.eq lb ub with
      | true =>
        refine ⟨GLP_FX, lb, ub, ?_, ?_, ?_⟩
        · simp [SetVariableBounds, hidx, double_ne_ninf, double_ne_pinf, h1, h2, he,
            GLPKInterface.call, hlp]
        · simp [SetConstraintBounds, hidx, double_ne_ninf, double_ne_pinf, h1, h2, he,
            GLPKInterface.call, hlp]
        · simp [glp_bounds]
      | false =>
        refine ⟨GLP_DB, lb, ub, ?_, ?_, ?_⟩
        · simp [SetVariableBounds, hidx, double_ne_ninf, double_ne_pinf, h1, h2, he,
            GLPKInterface.call, hlp]
        · simp [SetConstraintBounds, hidx, double_ne_ninf, double_ne_pinf, h1, h2, he,
            GLPKInterface.call, hlp]
        · simp [glp_bounds]

theorem SetVariableBounds_sync (s : GLPKInterface) (index : Int) (lb ub : Double)
    (hidx : index ≠ kNoIndex) :
    (SetVariableBounds s index lb ub).sync_status_ =
      (InvalidateSolutionSynchronization s).sync_status_ := by
  unfold SetVariableBounds
  simp only [hidx, ne_eq, not_false_eq_true, if_true, GLPKInterface.call]
  split_ifs <;> rfl

theorem SetConstraintBounds_sync (s : GLPKInterface) (index : Int) (lb ub : Double)
    (hidx : index ≠ kNoIndex) :
    (SetConstraintBounds s index lb ub).sync_status_ =
      (InvalidateSolutionSynchronization s).sync_status_ := by
  unfold SetConstraintBounds
  simp only [hidx, ne_eq, not_false_eq_true, if_true, GLPKInterface.call]
  split_ifs <;> rfl

/-- C5: `SetVariableBounds` and `SetConstraintBounds`, for any bounds.  With a valid
index (not `kNoIndex`) the call issues exactly one bound-setting call, on that index, and
that call carries the new bounds: the bounds GLPK holds after a call with the kind and the
values sent (`glp_bounds`) are the pair `(lb, ub)`.  The synchronization status is the one
left by `InvalidateSolutionSynchronization`: a synchronized solution becomes a
synchronized model and the status does not become `MUST_RELOAD` unless it was so already.
With `kNoIndex` no backend call is issued and the status becomes `MUST_RELOAD`. -/
theorem C5_bounds_sent_or_reload (s : GLPKInterface) (index : Int) (lb ub : Double) :
    (index ≠ kNoIndex →
      (∃ kind l u,
        (SetVariableBounds s index lb ub).lp_ =
          s.lp_ ++ [GlpCall.set_col_bnds index kind l u] ∧
        (SetConstraintBounds s index lb ub).lp_ =
          s.lp_ ++ [GlpCall.set_row_bnds index kind l u] ∧
        glp_bounds kind l u = (lb, ub)) ∧
      (SetVariableBounds s index lb ub).sync_status_ =
        (InvalidateSolutionSynchronization s).sync_status_ ∧
      (SetConstraintBounds s index lb ub).sync_status_ =
        (InvalidateSolutionSynchronization s).sync_status_ ∧
      (s.sync_status_ = SynchronizationStatus.SOLUTION_SYNCHRONIZED →
        (SetVariableBounds s index lb ub).sync_status_ =
            SynchronizationStatus.MODEL_SYNCHRONIZED ∧
          (SetConstraintBounds s index lb ub).sync_status_ =
            SynchronizationStatus.MODEL_SYNCHRONIZED) ∧
      (s.sync_status_ ≠ SynchronizationStatus.MUST_RELOAD →
        (SetVariableBounds s index lb ub).sync_status_ ≠ SynchronizationStatus.MUST_RELOAD ∧
          (SetConstraintBounds s index lb ub).sync_status_ ≠
            SynchronizationStatus.MUST_RELOAD)) ∧
    (index = kNoIndex →
      (SetVariableBounds s index lb ub).lp_ = s.lp_ ∧
      (SetConstraintBounds s index lb ub).lp_ = s.lp_ ∧
      (SetVariableBounds s index lb ub).sync_status_ = SynchronizationStatus.MUST_RELOAD ∧
      (SetConstraintBounds s index lb ub).sync_status_ = SynchronizationStatus.MUST_RELOAD) := by
  constructor
  · intro hidx
    have hv := SetVariableBounds_sync s index lb ub hidx
    have hc := SetConstraintBounds_sync s index lb ub hidx
    refine ⟨bounds_call_reads_back s index lb ub hidx, hv, hc, ?_, ?_⟩
    · intro hs
      rw [hv, hc]
      simp [InvalidateSolutionSynchronization, hs]
    · intro hs
      rw [hv, hc]
      unfold InvalidateSolutionSynchronization
      split
      · simp
      · exact ⟨hs, hs⟩
  · intro hidx
    unfold SetVariableBounds SetConstraintBounds
    simp [hidx, invalidate_lp]

/-- C5, at a concrete state: after a solve, new bounds `[0, 3]` on the extracted column `1`
are sent as one `GLP_DB` call and the status falls back to `MODEL_SYNCHRONIZED`; on an
unextracted variable nothing is sent and the status is `MUST_RELOAD`; on column `1` of
`solved false` the call sent reads back as the pair `(0, 3)`. -/
theorem C5_bounds_sent_or_reload_witness :
    ((Solve base0 (fresh false) param0 (glpk0 0 GLP_UNDEF GLP_OPT 7)).get?.map
        (fun r => ((SetVariableBounds r.1 1 0 3).lp_.drop r.1.lp_.length,
          (SetVariableBounds r.1 1 0 3).sync_status_))) =
        some ([GlpCall.set_col_bnds 1 GLP_DB 0 3], SynchronizationStatus.MODEL_SYNCHRONIZED) ∧
      (SetVariableBounds (fresh false) kNoIndex 0 3).lp_ = (fresh false).lp_ ∧
      (SetVariableBounds (fresh false) kNoIndex 0 3).sync_status_ =
        SynchronizationStatus.MUST_RELOAD ∧
      ∃ kind l u,
        (SetVariableBounds (solved false) 1 0 3).lp_ =
          (solved false).lp_ ++ [GlpCall.set_col_bnds 1 kind l u] ∧
        (SetConstraintBounds (solved false) 1 0 3).lp_ =
          (solved false).lp_ ++ [GlpCall.set_row_bnds 1 kind l u] ∧
        glp_bounds kind l u = (0, 3) :=
  ⟨by decide, ((C5_bounds_sent_or_reload (fresh false) kNoIndex 0 3).2 rfl).1,
    ((C5_bounds_sent_or_reload (fresh false) kNoIndex 0 3).2 rfl).2.2.1,
    ((C5_bounds_sent_or_reload (solved false) 1 0 3).1 (by decide)).1⟩


/-! ## Queries on a stale solution -/

/-- C7, amended: in every state whose synchronization status is not
`SOLUTION_SYNCHRONIZED`, `iterations` and `ComputeExactConditionNumber` on a continuous
model and `nodes` and `best_objective_bound` on an integer model stop instead of returning
a value.  `row_status` and `column_status` do not look at the synchronization status: for
every valid index, that is one that passes the two assertions of the method (from `1` to
`last_constraint_index_`, respectively `last_variable_index_`), they give the translation
of the basis status GLPK answers for it, so they return a value whenever that code is one
of the five known ones. -/
theorem C7_stale_solution_queries (rnd : Rat → Double) (base : BaseClass) (s : GLPKInterface)
    (glpk : Glpk) (hstale : s.sync_status_ ≠ SynchronizationStatus.SOLUTION_SYNCHRONIZED) :
    (s.mip_ = false →
      (iterations s glpk).returns = false ∧
      (ComputeExactConditionNumber rnd base s glpk).returns = false) ∧
    (s.mip_ = true →
      (nodes s).returns = false ∧ (best_objective_bound base s).returns = false) ∧
    (∀ i : Int, row_status_DCHECK s i = true →
      (1 ≤ i ∧ i ≤ (s.last_constraint_index_ : Int)) ∧
      row_status s glpk i = TransformGLPKBasisStatus (glpk.glp_get_row_stat i) ∧
      (glpk.glp_get_row_stat i = GLP_BS ∨ glpk.glp_get_row_stat i = GLP_NL ∨
        glpk.glp_get_row_stat i = GLP_NU ∨ glpk.glp_get_row_stat i = GLP_NF ∨
        glpk.glp_get_row_stat i = GLP_NS → (row_status s glpk i).returns = true)) ∧
    (∀ j : Int, column_status_DCHECK s j = true →
      (1 ≤ j ∧ j ≤ (s.last_variable_index_ : Int)) ∧
      column_status s glpk j = TransformGLPKBasisStatus (glpk.glp_get_col_stat j) ∧
      (glpk.glp_get_col_stat j = GLP_BS ∨ glpk.glp_get_col_stat j = GLP_NL ∨
        glpk.glp_get_col_stat j = GLP_NU ∨ glpk.glp_get_col_stat j = GLP_NF ∨
        glpk.glp_get_col_stat j = GLP_NS → (column_status s glpk j).returns = true)) := by
  have hcheck : CheckSolutionIsSynchronized s =
      Outcome.fatal "The model has been changed since the solution was last computed." := by
    simp [CheckSolutionIsSynchronized, hstale]
  have htr : ∀ c : Int, (c = GLP_BS ∨ c = GLP_NL ∨ c = GLP_NU ∨ c = GLP_NF ∨ c = GLP_NS) →
      (TransformGLPKBasisStatus c).returns = true := by
    intro c hc
    unfold TransformGLPKBasisStatus
    split_ifs <;> first | rfl | (exfalso; tauto)
  refine ⟨fun hlp => ?_, fun hmip => ?_, fun i hi => ⟨?_, rfl, htr _⟩,
    fun j hj => ⟨?_, rfl, htr _⟩⟩
  · simp [iterations, ComputeExactConditionNumber, IsContinuous, IsLP, hlp, hcheck,
      Outcome.bind, Outcome.returns]
  · simp [nodes, best_objective_bound, hmip, hcheck, Outcome.bind, Outcome.returns]
  · simp only [row_status_DCHECK, Bool.and_eq_true, decide_eq_true_eq] at hi
    omega
  · simp only [column_status_DCHECK, Bool.and_eq_true, decide_eq_true_eq] at hj
    omega

/-- C7 amended, at concrete states: a continuous and an integer model, each solved and
then given new bounds on the extracted variable; on the continuous one index `1` is a
valid row index and `row_status(1)` returns. -/
theorem C7_stale_solution_queries_witness :
    (solved_then_bounded false).sync_status_ ≠ SynchronizationStatus.SOLUTION_SYNCHRONIZED ∧
      (iterations (solved_then_bounded false) (glpk0 0 GLP_OPT GLP_OPT 7)).returns = false ∧
      (solved_then_bounded true).sync_status_ ≠ SynchronizationStatus.SOLUTION_SYNCHRONIZED ∧
      (nodes (solved_then_bounded true)).returns = false ∧
      row_status_DCHECK (solved_then_bounded false) 1 = true ∧
      (row_status (solved_then_bounded false) (glpk0 0 GLP_OPT GLP_OPT 7) 1).returns = true :=
  ⟨by decide,
    ((C7_stale_solution_queries Double.exact base0 (solved_then_bounded false)
      (glpk0 0 GLP_OPT GLP_OPT 7) (by decide)).1 (by decide)).1,
    by decide,
    ((C7_stale_solution_queries Double.exact base0 (solved_then_bounded true)
      (glpk0 0 GLP_OPT GLP_OPT 7) (by decide)).2.1 (by decide)).1,
    by decide,
    ((C7_stale_solution_queries Double.exact base0 (solved_then_bounded false)
      (glpk0 0 GLP_OPT GLP_OPT 7) (by decide)).2.2.1 1 (by decide)).2.2 (Or.inl rfl)⟩


/-! ## Condition number on a singular or ill-conditioned basis -/

end operations_research
